import Mathlib

/-!
RCM dashboard: period-based KPI aggregation.

A shallow embedding of the aggregation logic of `src/Dashboard.jsx`:
row normalization (`parseCSV`), the period computation and the partition
of the record collections into the current and the previous window, and
`calculateKPIs`.

Modelling conventions.

* A JavaScript number is `JsNum`: `NaN` or an exact rational.  Rounding,
  the two infinities and the sign of zero are outside the model; a division
  by zero is `NaN` in the model (every division of the embedded code is
  guarded, so none is ever evaluated).
* A record field that may be `undefined` is an `Option`.
* A `Dayjs` object is either invalid or an instant in epoch milliseconds;
  a day is 86 400 000 ms (a zone without clock changes) and instants are
  unbounded integers.
* Functions of the JavaScript library and of `dayjs` whose full behaviour is
  not needed are fields of `JsLib`.
-/

namespace Rrr

/-! ## Numbers -/

/-- JavaScript number: `NaN` or a finite value, kept exact. -/
inductive JsNum where
  | nan : JsNum
  | fin (q : ℚ) : JsNum
deriving DecidableEq

namespace JsNum

/-- JavaScript `a + b` on numbers. -/
def add : JsNum → JsNum → JsNum
  | fin a, fin b => fin (a + b)
  | _, _ => nan

/-- JavaScript `a - b`. -/
def sub : JsNum → JsNum → JsNum
  | fin a, fin b => fin (a - b)
  | _, _ => nan

/-- JavaScript `a * b`. -/
def mul : JsNum → JsNum → JsNum
  | fin a, fin b => fin (a * b)
  | _, _ => nan

/-- JavaScript `a / b`; a zero divisor gives `nan` in the model. -/
def div : JsNum → JsNum → JsNum
  | fin a, fin b => if b = 0 then nan else fin (a / b)
  | _, _ => nan

instance : Add JsNum := ⟨add⟩
instance : Sub JsNum := ⟨sub⟩
instance : Mul JsNum := ⟨mul⟩
instance : Div JsNum := ⟨div⟩

/-- JavaScript `a <= b`: false as soon as one side is `NaN`. -/
def le : JsNum → JsNum → Bool
  | fin a, fin b => decide (a ≤ b)
  | _, _ => false

/-- JavaScript `a < b`. -/
def lt : JsNum → JsNum → Bool
  | fin a, fin b => decide (a < b)
  | _, _ => false

/-- JavaScript `a >= b`. -/
def ge (a b : JsNum) : Bool := le b a

/-- JavaScript `a > b`. -/
def gt (a b : JsNum) : Bool := lt b a

/-- JavaScript `a === b` on numbers: `NaN` equals nothing. -/
def strictEq : JsNum → JsNum → Bool
  | fin a, fin b => decide (a = b)
  | _, _ => false

/-- JavaScript `isNaN`. -/
def isNaN : JsNum → Bool
  | nan => true
  | fin _ => false

/-- Truthiness of a number: `0` and `NaN` are falsy. -/
def truthy : JsNum → Bool
  | nan => false
  | fin q => decide (q ≠ 0)

/-- JavaScript `x || d` for a number `x`. -/
def orElse (x d : JsNum) : JsNum := if x.truthy then x else d

/-- The amount a field contributes to a total: its value, `NaN` counting
as nothing. -/
def toRat : JsNum → ℚ
  | nan => 0
  | fin q => q

/-- A count (an array length) as a number. -/
def ofNat (n : Nat) : JsNum := fin (n : ℚ)

end JsNum

/-! ## Strings -/

/-- The method `String.prototype.toLowerCase`, on the ASCII letters.  The
only characters outside `A`-`Z` whose lower-case form holds an ASCII
character are U+0130 (to `i` followed by U+0307) and the Kelvin sign U+212A
(to `k`), so testing the result against the words `denied`, `true`, `yes`,
`y` and `1`, as done below, gives the same answer. -/
def toLowerCase (s : String) : String := String.mk (s.data.map Char.toLower)

/-- ECMAScript `WhiteSpace` and `LineTerminator` code points, the ones
`String.prototype.trim` strips. -/
def isJsWhiteSpace (c : Char) : Bool :=
  let n := c.toNat
  n == 0x09 || n == 0x0A || n == 0x0B || n == 0x0C || n == 0x0D || n == 0x20 ||
  n == 0xA0 || n == 0x1680 || (decide (0x2000 ≤ n) && decide (n ≤ 0x200A)) ||
  n == 0x2028 || n == 0x2029 || n == 0x202F || n == 0x205F || n == 0x3000 ||
  n == 0xFEFF

/-- The method `String.prototype.trim`. -/
def trim (s : String) : String :=
  String.mk ((s.data.dropWhile isJsWhiteSpace).reverse.dropWhile isJsWhiteSpace).reverse

/-- JavaScript `x || ""` for a string that may be `undefined`. -/
def orEmpty (x : Option String) : String := x.getD ""

/-! ## Records -/

/-- A normalized record, as produced by the row normalization of `parseCSV`
and of `handleFileUpload`.  The defaults are the values normalization gives
to a row without any column. -/
structure Row where
  Claim_Status : Option String := none
  month : String := ""
  Billed_Amount : JsNum := JsNum.fin 0
  Paid_Amount : JsNum := JsNum.fin 0
  Adjustment_Amount : JsNum := JsNum.fin 0
  Open_AR_Amount : JsNum := JsNum.fin 0
  GCR_Target : JsNum := JsNum.fin 0
  GCR_Baseline : JsNum := JsNum.fin 0
  Is_First_Pass_Resolution : Bool := false
  Is_Clean_Claim : JsNum := JsNum.fin 0
  Date_of_Service : Option String := none
  Charge_Entry_Date : Option String := none
  Claim_Submission_Date : Option String := none
  aging : JsNum := JsNum.fin 0
  Aging_Amount : JsNum := JsNum.fin 0
  ar_days : JsNum := JsNum.fin 0
  visit : JsNum := JsNum.fin 0
  ts_dos : JsNum := JsNum.fin 0
  ts_ced : JsNum := JsNum.fin 0
deriving DecidableEq

/-- The guard `Array.isArray(x) ? x : []`; `none` is a value that is not an array. -/
def safeArray (x : Option (List Row)) : List Row :=
  match x with
  | some rows => rows
  | none => []

/-! ## KPI aggregation -/

/-- The object returned by `calculateKPIs`. -/
structure KPIs where
  totalPayments : JsNum
  totalClaims : JsNum
  gcr : JsNum
  ncr : JsNum
  denialRate : JsNum
  firstPassRate : JsNum
  cleanClaimRate : JsNum
  totalDenials : JsNum
  totalOpenAR : JsNum
deriving DecidableEq

/-- The test `(r.Claim_Status || "").toLowerCase().trim() === "denied"`. -/
def isDeniedStatus (r : Row) : Bool :=
  trim (toLowerCase (orEmpty r.Claim_Status)) == "denied"

/-- The function `calculateKPIs` of `Dashboard.jsx` (lines 480-512).
`Number(x)` of a value that is already a number is that number; the total
`totalAdjustments`, which the function computes and never uses, is left
out.  The arithmetic is exact here; `calculateKPIsFl` is the same function
with every result rounded, as the doubles of JavaScript are. -/
def calculateKPIs (chargesData denialsData openARData ncrDataInput : Option (List Row)) : KPIs :=
  let safeCharges := safeArray chargesData
  let safeDenials := safeArray denialsData
  let safeOpenAR := safeArray openARData
  let safeNcr := safeArray ncrDataInput
  let totalPayments :=
    safeCharges.foldl (fun sum r => sum + r.Paid_Amount.orElse (JsNum.fin 0)) (JsNum.fin 0)
  let totalBilled :=
    safeCharges.foldl (fun sum r => sum + r.Billed_Amount.orElse (JsNum.fin 0)) (JsNum.fin 0)
  let totalClaims :=
    safeCharges.foldl (fun sum r => sum + r.visit.orElse (JsNum.fin 0)) (JsNum.fin 0)
  let deniedCount := (safeDenials.filter isDeniedStatus).length
  let totalDenialRows := safeDenials.length
  let denialRate :=
    if totalDenialRows > 0 then
      (JsNum.ofNat deniedCount / JsNum.ofNat totalDenialRows) * JsNum.fin 100
    else JsNum.fin 0
  let firstPassClaimsCount := (safeDenials.filter (fun r => r.Is_First_Pass_Resolution)).length
  let firstPassRate :=
    if totalDenialRows > 0 then
      (JsNum.ofNat firstPassClaimsCount / JsNum.ofNat totalDenialRows) * JsNum.fin 100
    else JsNum.fin 0
  let cleanClaimValues :=
    (safeCharges.map (fun r => r.Is_Clean_Claim.orElse (JsNum.fin 0))).filter
      (fun val => !val.isNaN && val.ge (JsNum.fin 0) && val.le (JsNum.fin 100))
  let gcr :=
    if totalBilled.strictEq (JsNum.fin 0) then JsNum.fin 0
    else (totalPayments / totalBilled) * JsNum.fin 100
  let cleanClaimRate :=
    if cleanClaimValues.length > 0 then
      cleanClaimValues.foldl (fun sum val => sum + val) (JsNum.fin 0) /
        JsNum.ofNat cleanClaimValues.length
    else JsNum.fin 0
  let totalOpenAR :=
    safeOpenAR.foldl (fun sum r => sum + r.Open_AR_Amount.orElse (JsNum.fin 0)) (JsNum.fin 0)
  let ncrPaid :=
    safeNcr.foldl (fun sum r => sum + r.Paid_Amount.orElse (JsNum.fin 0)) (JsNum.fin 0)
  let ncrBilled :=
    safeNcr.foldl (fun sum r => sum + r.Billed_Amount.orElse (JsNum.fin 0)) (JsNum.fin 0)
  let ncrAdj :=
    safeNcr.foldl (fun sum r => sum + r.Adjustment_Amount.orElse (JsNum.fin 0)) (JsNum.fin 0)
  let netBilled := ncrBilled - ncrAdj
  let ncr :=
    if netBilled.gt (JsNum.fin 0) then (ncrPaid / netBilled) * JsNum.fin 100 else JsNum.fin 0
  { totalPayments := totalPayments, totalClaims := totalClaims, gcr := gcr, ncr := ncr,
    denialRate := denialRate, firstPassRate := firstPassRate, cleanClaimRate := cleanClaimRate,
    totalDenials := JsNum.ofNat deniedCount, totalOpenAR := totalOpenAR }

/-! ## Dates -/

/-- A `dayjs` object: an invalid date or an instant in epoch milliseconds. -/
inductive Dayjs where
  | invalid : Dayjs
  | ms (t : Int) : Dayjs
deriving DecidableEq

/-- Milliseconds in a day, `MILLISECONDS_A_DAY` of `dayjs`. -/
def MILLISECONDS_A_DAY : Int := 86400000

namespace Dayjs

/-- The call `d.valueOf()`: the epoch milliseconds, `NaN` for an invalid date. -/
def valueOf : Dayjs → JsNum
  | invalid => JsNum.nan
  | ms t => JsNum.fin (t : ℚ)

/-- The call `d.isValid()`. -/
def isValid : Dayjs → Bool
  | invalid => false
  | ms _ => true

/-- The call `d.clone()`. -/
def clone (d : Dayjs) : Dayjs := d

/-- The call `d.add(n, 'day')`: the date moved by `Math.round(n)` days; `Math.round`
rounds a half upwards.  A `NaN` count or an invalid date gives an invalid
date. -/
def addDays : Dayjs → JsNum → Dayjs
  | ms t, JsNum.fin q => ms (t + Int.floor (q + 1 / 2) * MILLISECONDS_A_DAY)
  | _, _ => invalid

/-- The call `d.subtract(n, 'day')`, which `dayjs` defines as `d.add(n * -1, 'day')`. -/
def subtractDays (d : Dayjs) (n : JsNum) : Dayjs := d.addDays (n * JsNum.fin (-1))

/-- The call `d.diff(that, 'day')`: the difference in milliseconds over a day,
truncated towards zero; `NaN` when a date is invalid. -/
def diffDays : Dayjs → Dayjs → JsNum
  | ms a, ms b => JsNum.fin ((Int.tdiv (a - b) MILLISECONDS_A_DAY : Int) : ℚ)
  | _, _ => JsNum.nan

end Dayjs

/-! ## Period computation and partition -/

/-- The period computed at the head of the partition `useMemo` of
`Dashboard`, from `startObj = dayjs(startDate)` and `endObj = dayjs(endDate)`. -/
structure Period where
  startTs : JsNum
  endTs : JsNum
  durationDays : JsNum
  prevStartObj : Dayjs
  prevEndObj : Dayjs
  prevStartTs : JsNum
  prevEndTs : JsNum
deriving DecidableEq

/-- Lines 433-448 of `Dashboard.jsx`. -/
def resolvePeriod (startObj endObj : Dayjs) : Period :=
  let startTs := startObj.valueOf
  let endTs := endObj.valueOf
  let durationDays0 := endObj.diffDays startObj + JsNum.fin 1
  let durationDays := if durationDays0.le (JsNum.fin 1) then JsNum.fin 1 else durationDays0
  let prevEndObj0 := startObj.subtractDays (JsNum.fin 1)
  let prevStartObj0 := prevEndObj0.clone.subtractDays (durationDays - JsNum.fin 1)
  let fallback := !prevStartObj0.isValid || !prevEndObj0.isValid
  let prevStartObj := if fallback then startObj.clone.subtractDays durationDays else prevStartObj0
  let prevEndObj :=
    if fallback then prevStartObj.clone.addDays (durationDays - JsNum.fin 1) else prevEndObj0
  { startTs := startTs, endTs := endTs, durationDays := durationDays,
    prevStartObj := prevStartObj, prevEndObj := prevEndObj,
    prevStartTs := prevStartObj.valueOf, prevEndTs := prevEndObj.valueOf }

/-- The two timestamp keys of a record. -/
inductive TsKey where
  | ts_dos : TsKey
  | ts_ced : TsKey
deriving DecidableEq

/-- The lookup `r[tsKey]`. -/
def Row.ts (r : Row) : TsKey → JsNum
  | TsKey.ts_dos => r.ts_dos
  | TsKey.ts_ced => r.ts_ced

/-- The closure `filterByTs` for the window `[startTs, endTs]`; `filterByTsPrev`
is the same closure over `prevStartTs` and `prevEndTs`. -/
def filterByTs (startTs endTs : JsNum) (arr : List Row) (tsKey : TsKey) : List Row :=
  arr.filter (fun r =>
    let ts := r.ts tsKey
    ts.ge startTs && ts.le endTs)

/-- The object built by the partition `useMemo` of `Dashboard`. -/
structure Partition where
  filteredCharges : List Row
  prevCharges : List Row
  filteredDenials : List Row
  prevDenials : List Row
  filteredOpenAR : List Row
  prevOpenAR : List Row
  filteredAging : List Row
  prevAging : List Row
  filteredNCR : List Row
  prevNCR : List Row
deriving DecidableEq

/-- The partition `useMemo` of `Dashboard` (lines 426-477), given the parsed
range bounds `startObj = dayjs(startDate)` and `endObj = dayjs(endDate)`. -/
def partitionRecords (charges denials openAR agingData ncrData : Option (List Row))
    (startObj endObj : Dayjs) : Partition :=
  let safeCharges := safeArray charges
  let safeDenials := safeArray denials
  let safeOpenAR := safeArray openAR
  let safeAgingData := safeArray agingData
  let safeNcrData := safeArray ncrData
  let p := resolvePeriod startObj endObj
  let filterByTsCur := filterByTs p.startTs p.endTs
  let filterByTsPrev := filterByTs p.prevStartTs p.prevEndTs
  { filteredCharges := filterByTsCur safeCharges TsKey.ts_ced,
    prevCharges := filterByTsPrev safeCharges TsKey.ts_ced,
    filteredDenials := filterByTsCur safeDenials TsKey.ts_dos,
    prevDenials := filterByTsPrev safeDenials TsKey.ts_dos,
    filteredOpenAR := filterByTsCur safeOpenAR TsKey.ts_dos,
    prevOpenAR := filterByTsPrev safeOpenAR TsKey.ts_dos,
    filteredAging := filterByTsCur safeAgingData TsKey.ts_dos,
    prevAging := filterByTsPrev safeAgingData TsKey.ts_dos,
    filteredNCR := filterByTsCur safeNcrData TsKey.ts_ced,
    prevNCR := filterByTsPrev safeNcrData TsKey.ts_ced }

/-! ## Row normalization -/

/-- Library functions used by the normalization, taken as given. -/
structure JsLib where
  /-- The conversion `Number(s)` for a string `s`. -/
  toNumber : String → JsNum
  /-- The parser `dayjs(s)` for a string `s`. -/
  dayjs : String → Dayjs
  /-- The call `d.format("MMM YY")`. -/
  formatMMMYY : Dayjs → String

/-- A row as delivered by the CSV reader (`header: true`,
`dynamicTyping: false`): every cell is a string, a missing column is
`undefined`. -/
structure RawRow where
  Date_of_Service : Option String := none
  Charge_Entry_Date : Option String := none
  Claim_Submission_Date : Option String := none
  month : Option String := none
  Billed_Amount : Option String := none
  Paid_Amount : Option String := none
  Adjustment_Amount : Option String := none
  Open_AR_Amount : Option String := none
  apenaramount : Option String := none
  GCR_Target : Option String := none
  GCR_Baseline : Option String := none
  Is_First_Pass_Resolution : Option String := none
  First_Pass : Option String := none
  Is_Clean_Claim : Option String := none
  aging : Option String := none
  Aging_Amount : Option String := none
  ar_days : Option String := none
  visit : Option String := none
  Claim_Status : Option String := none
deriving DecidableEq

/-- Truthiness of a cell: `undefined` and the empty string are falsy. -/
def strTruthy : Option String → Bool
  | none => false
  | some s => s != ""

/-- JavaScript `x || y` on cells. -/
def orCell (x y : Option String) : Option String := if strTruthy x then x else y

/-- JavaScript `x || null` on a cell; `null` is `none`. -/
def orNull (x : Option String) : Option String := if strTruthy x then x else none

/-- The chain `String(x || "0").replace(/,/g, "").replace(/"/g, "")`. -/
def stripAmount (x : Option String) : String :=
  let s := orEmpty (orCell x (some "0"))
  String.mk ((s.data.filter (fun c => c != ',')).filter (fun c => c != '"'))

/-- The conversion `Number(x || 0)` for a cell `x`. -/
def numberOrZero (lib : JsLib) (x : Option String) : JsNum :=
  if strTruthy x then lib.toNumber (orEmpty x) else JsNum.fin 0

/-- The expression `x ? dayjs(x) : null` for a date cell `x`. -/
def dayjsOrNull (lib : JsLib) (x : Option String) : Option Dayjs :=
  if strTruthy x then some (lib.dayjs (orEmpty x)) else none

/-- The expression `d ? d.valueOf() : 0`; a `dayjs` object is truthy whether valid or not. -/
def valueOfOrZero : Option Dayjs → JsNum
  | some d => d.valueOf
  | none => JsNum.fin 0

/-- The row normalization of `parseCSV` (lines 182-211), the same as in
`handleFileUpload` (lines 331-360). -/
def normalizeRow (lib : JsLib) (r : RawRow) : Row :=
  let dos := dayjsOrNull lib r.Date_of_Service
  let ced := dayjsOrNull lib r.Charge_Entry_Date
  { Claim_Status := r.Claim_Status,
    month :=
      if strTruthy r.month then orEmpty r.month
      else match dos with
        | some d => lib.formatMMMYY d
        | none => match ced with
          | some d => lib.formatMMMYY d
          | none => "",
    Billed_Amount := lib.toNumber (stripAmount r.Billed_Amount),
    Paid_Amount := lib.toNumber (stripAmount r.Paid_Amount),
    Adjustment_Amount := lib.toNumber (stripAmount r.Adjustment_Amount),
    Open_AR_Amount := lib.toNumber (stripAmount (orCell r.Open_AR_Amount r.apenaramount)),
    GCR_Target := lib.toNumber (stripAmount r.GCR_Target),
    GCR_Baseline := lib.toNumber (stripAmount r.GCR_Baseline),
    Is_First_Pass_Resolution :=
      let val := orCell r.Is_First_Pass_Resolution r.First_Pass
      if !strTruthy val then false
      else
        let strVal := trim (toLowerCase (orEmpty val))
        ["true", "yes", "y", "1"].contains strVal,
    Is_Clean_Claim := numberOrZero lib r.Is_Clean_Claim,
    Date_of_Service := orNull r.Date_of_Service,
    Charge_Entry_Date := orNull r.Charge_Entry_Date,
    Claim_Submission_Date := orNull r.Claim_Submission_Date,
    aging := numberOrZero lib r.aging,
    Aging_Amount := lib.toNumber (orEmpty (orCell r.Aging_Amount (some "0"))),
    ar_days := numberOrZero lib r.ar_days,
    visit := numberOrZero lib r.visit,
    ts_dos := valueOfOrZero dos,
    ts_ced := valueOfOrZero ced }

/-- A stand-in for the library on the strings used in the examples:
`Number` on `"0"`, `"50"` and a non-numeric string, `dayjs` on the date
`2024-01-05` (midnight, UTC) and on strings that are no dates. -/
def sampleLib : JsLib where
  toNumber := fun s => if s = "0" ∨ s = "" then JsNum.fin 0 else if s = "50" then JsNum.fin 50
    else JsNum.nan
  dayjs := fun s => if s = "2024-01-05" then Dayjs.ms 1704412800000 else Dayjs.invalid
  formatMMMYY := fun d => if d = Dayjs.ms 1704412800000 then "Jan 24" else "Invalid Date"

/-! ## Previous-period baselines -/

/-- A per-client baseline record of `CLIENT_PREV_KPIS`. -/
structure PrevKPIs where
  totalPayments : JsNum
  totalClaims : JsNum
  gcr : JsNum
  ncr : JsNum
  denialRate : JsNum
  firstPassRate : JsNum
  cleanClaimRate : JsNum
  totalDenials : JsNum
  totalOpenAR : JsNum
  GCR_Target : JsNum
  GCR_Baseline : JsNum
  NCR_Target : JsNum
  NCR_Baseline : JsNum
  CCR_Target : JsNum
  CCR_Baseline : JsNum
  FPR_Target : JsNum
  FPR_Baseline : JsNum
  Denial_Rate_Target : JsNum
  Denial_Rate_Baseline : JsNum
deriving DecidableEq

/-- The table `CLIENT_PREV_KPIS` (lines 14-43), as the list of its entries in
the order of the source, which is the order `Object.values` follows. -/
def CLIENT_PREV_KPIS : List (String × PrevKPIs) :=
  [("entfw",
    { totalPayments := JsNum.fin 95000,
      totalClaims := JsNum.fin 9469,
      gcr := JsNum.fin (3450 / 100),
      ncr := JsNum.fin (9700 / 100),
      denialRate := JsNum.fin (30 / 100),
      firstPassRate := JsNum.fin (0 / 100),
      cleanClaimRate := JsNum.fin (9500 / 100),
      totalDenials := JsNum.fin 55,
      totalOpenAR := JsNum.fin 320000,
      GCR_Target := JsNum.fin (325 / 10),
      GCR_Baseline := JsNum.fin (345 / 10),
      NCR_Target := JsNum.fin (452 / 10),
      NCR_Baseline := JsNum.fin (970 / 10),
      CCR_Target := JsNum.fin (912 / 10),
      CCR_Baseline := JsNum.fin (950 / 10),
      FPR_Target := JsNum.fin (950 / 10),
      FPR_Baseline := JsNum.fin (850 / 10),
      Denial_Rate_Target := JsNum.fin (3 / 10),
      Denial_Rate_Baseline := JsNum.fin (30 / 100) }),
   ("eca",
    { totalPayments := JsNum.fin 120000,
      totalClaims := JsNum.fin 510,
      gcr := JsNum.fin (381 / 10),
      ncr := JsNum.fin (497 / 10),
      denialRate := JsNum.fin (104 / 10),
      firstPassRate := JsNum.fin (821 / 10),
      cleanClaimRate := JsNum.fin (895 / 10),
      totalDenials := JsNum.fin 48,
      totalOpenAR := JsNum.fin 410000,
      GCR_Target := JsNum.fin (381 / 10),
      GCR_Baseline := JsNum.fin (381 / 10),
      NCR_Target := JsNum.fin (497 / 10),
      NCR_Baseline := JsNum.fin (497 / 10),
      CCR_Target := JsNum.fin (895 / 10),
      CCR_Baseline := JsNum.fin (895 / 10),
      FPR_Target := JsNum.fin (821 / 10),
      FPR_Baseline := JsNum.fin (821 / 10),
      Denial_Rate_Target := JsNum.fin (104 / 10),
      Denial_Rate_Baseline := JsNum.fin (104 / 10) }),
   ("soundhealth",
    { totalPayments := JsNum.fin 78000,
      totalClaims := JsNum.fin 9367,
      gcr := JsNum.fin (2400 / 100),
      ncr := JsNum.fin (9300 / 100),
      denialRate := JsNum.fin (0 / 100),
      firstPassRate := JsNum.fin (0 / 100),
      cleanClaimRate := JsNum.fin (9800 / 100),
      totalDenials := JsNum.fin 62,
      totalOpenAR := JsNum.fin 275000,
      GCR_Target := JsNum.fin (299 / 10),
      GCR_Baseline := JsNum.fin (240 / 10),
      NCR_Target := JsNum.fin (413 / 10),
      NCR_Baseline := JsNum.fin (930 / 10),
      CCR_Target := JsNum.fin (871 / 10),
      CCR_Baseline := JsNum.fin (980 / 10),
      FPR_Target := JsNum.fin (763 / 10),
      FPR_Baseline := JsNum.fin (0 / 10),
      Denial_Rate_Target := JsNum.fin (149 / 10),
      Denial_Rate_Baseline := JsNum.fin (0 / 10) }),
   ("piedmont",
    { totalPayments := JsNum.fin 142000,
      totalClaims := JsNum.fin 600,
      gcr := JsNum.fin (404 / 10),
      ncr := JsNum.fin (530 / 10),
      denialRate := JsNum.fin (91 / 10),
      firstPassRate := JsNum.fin (855 / 10),
      cleanClaimRate := JsNum.fin (932 / 10),
      totalDenials := JsNum.fin 41,
      totalOpenAR := JsNum.fin 520000,
      GCR_Target := JsNum.fin (404 / 10),
      GCR_Baseline := JsNum.fin (404 / 10),
      NCR_Target := JsNum.fin (530 / 10),
      NCR_Baseline := JsNum.fin (530 / 10),
      CCR_Target := JsNum.fin (932 / 10),
      CCR_Baseline := JsNum.fin (932 / 10),
      FPR_Target := JsNum.fin (855 / 10),
      FPR_Baseline := JsNum.fin (855 / 10),
      Denial_Rate_Target := JsNum.fin (91 / 10),
      Denial_Rate_Baseline := JsNum.fin (91 / 10) })]

/-- The function `getAveragePrevKPIs` (lines 45-93). -/
def getAveragePrevKPIs : PrevKPIs :=
  let clients := CLIENT_PREV_KPIS.map (fun e => e.2)
  let add : PrevKPIs → PrevKPIs → PrevKPIs := fun acc c =>
    { totalPayments := acc.totalPayments + c.totalPayments
      totalClaims := acc.totalClaims + c.totalClaims
      gcr := acc.gcr + c.gcr
      ncr := acc.ncr + c.ncr
      denialRate := acc.denialRate + c.denialRate
      firstPassRate := acc.firstPassRate + c.firstPassRate
      cleanClaimRate := acc.cleanClaimRate + c.cleanClaimRate
      totalDenials := acc.totalDenials + c.totalDenials
      totalOpenAR := acc.totalOpenAR + c.totalOpenAR
      GCR_Target := acc.GCR_Target + c.GCR_Target
      GCR_Baseline := acc.GCR_Baseline + c.GCR_Baseline
      NCR_Target := acc.NCR_Target + c.NCR_Target
      NCR_Baseline := acc.NCR_Baseline + c.NCR_Baseline
      CCR_Target := acc.CCR_Target + c.CCR_Target
      CCR_Baseline := acc.CCR_Baseline + c.CCR_Baseline
      FPR_Target := acc.FPR_Target + c.FPR_Target
      FPR_Baseline := acc.FPR_Baseline + c.FPR_Baseline
      Denial_Rate_Target := acc.Denial_Rate_Target + c.Denial_Rate_Target
      Denial_Rate_Baseline := acc.Denial_Rate_Baseline + c.Denial_Rate_Baseline }
  let zero : PrevKPIs :=
    { totalPayments := JsNum.fin 0
      totalClaims := JsNum.fin 0
      gcr := JsNum.fin 0
      ncr := JsNum.fin 0
      denialRate := JsNum.fin 0
      firstPassRate := JsNum.fin 0
      cleanClaimRate := JsNum.fin 0
      totalDenials := JsNum.fin 0
      totalOpenAR := JsNum.fin 0
      GCR_Target := JsNum.fin 0
      GCR_Baseline := JsNum.fin 0
      NCR_Target := JsNum.fin 0
      NCR_Baseline := JsNum.fin 0
      CCR_Target := JsNum.fin 0
      CCR_Baseline := JsNum.fin 0
      FPR_Target := JsNum.fin 0
      FPR_Baseline := JsNum.fin 0
      Denial_Rate_Target := JsNum.fin 0
      Denial_Rate_Baseline := JsNum.fin 0 }
  let sum : PrevKPIs := clients.foldl add zero
  let count := JsNum.ofNat clients.length
  { totalPayments := sum.totalPayments / count
    totalClaims := sum.totalClaims / count
    gcr := sum.gcr / count
    ncr := sum.ncr / count
    denialRate := sum.denialRate / count
    firstPassRate := sum.firstPassRate / count
    cleanClaimRate := sum.cleanClaimRate / count
    totalDenials := sum.totalDenials / count
    totalOpenAR := sum.totalOpenAR / count
    GCR_Target := sum.GCR_Target / count
    GCR_Baseline := sum.GCR_Baseline / count
    NCR_Target := sum.NCR_Target / count
    NCR_Baseline := sum.NCR_Baseline / count
    CCR_Target := sum.CCR_Target / count
    CCR_Baseline := sum.CCR_Baseline / count
    FPR_Target := sum.FPR_Target / count
    FPR_Baseline := sum.FPR_Baseline / count
    Denial_Rate_Target := sum.Denial_Rate_Target / count
    Denial_Rate_Baseline := sum.Denial_Rate_Baseline / count }

/-! ## Comparison of a value with its baseline -/

/-- The method `Number.prototype.toFixed` on exact values: the value rounded
to `fractionDigits` decimals, a half rounding away from zero, written with
exactly that many decimals and a leading `-` when the value is below 0.
JavaScript accepts 0 to 100 digits, whence the type of `fractionDigits`; for
an absolute value of `10^21` or more it switches to the exponent form, which
is outside the model. -/
def toFixed (x : JsNum) (fractionDigits : Fin 101) : String :=
  match x with
  | JsNum.nan => "NaN"
  | JsNum.fin q =>
    let f : Nat := fractionDigits.val
    let n : Nat := Int.toNat (Int.floor (|q| * 10 ^ f + 1 / 2))
    let ds := Nat.toDigits 10 n
    let padded := List.replicate (f + 1 - ds.length) '0' ++ ds
    let intPart := padded.take (padded.length - f)
    let fracPart := padded.drop (padded.length - f)
    String.mk ((if q < 0 then ['-'] else []) ++ intPart ++
      (if f = 0 then [] else '.' :: fracPart))

/-- JavaScript `isFinite`. -/
def JsNum.isFinite : JsNum → Bool
  | JsNum.nan => false
  | JsNum.fin _ => true

/-- JavaScript `Math.abs`. -/
def JsNum.abs : JsNum → JsNum
  | JsNum.nan => JsNum.nan
  | JsNum.fin q => JsNum.fin |q|

/-- The object returned by `trend`. -/
structure TrendResult where
  percentChange : String
  arrow : String
  color : String
  previousValue : String
  isPositive : Bool
deriving DecidableEq

/-- The function `trend` (lines 519-531); in the source `isIncreaseGood`
defaults to `true` and `decimals` to 2. -/
def trend (current previous : JsNum) (isIncreaseGood : Bool) (decimals : Fin 101) :
    TrendResult :=
  if previous.strictEq (JsNum.fin 0) || !previous.isFinite then
    { percentChange := toFixed current decimals, arrow := "▲", color := "#6b7280",
      previousValue := "0", isPositive := true }
  else
    let diff := current - previous
    let isPositive := diff.ge (JsNum.fin 0)
    let color := if isPositive == isIncreaseGood then "#10b981" else "#ef4444"
    { percentChange := toFixed diff.abs decimals,
      arrow := if isPositive then "▲" else "▼",
      color := color,
      previousValue := toFixed previous decimals,
      isPositive := isPositive }

/-- The object `kpisWithTrend` (lines 533-540). -/
structure KpisWithTrend where
  gcr : TrendResult
  ncr : TrendResult
  denialRate : TrendResult
  firstPassRate : TrendResult
  cleanClaimRate : TrendResult
  totalClaims : TrendResult
deriving DecidableEq

/-- The construction of `kpisWithTrend` from the current KPIs and the
baseline. -/
def kpisWithTrend (currentKPIs : KPIs) (prevKPIs : PrevKPIs) : KpisWithTrend :=
  { gcr := trend currentKPIs.gcr prevKPIs.gcr true 2,
    ncr := trend currentKPIs.ncr prevKPIs.ncr true 2,
    denialRate := trend currentKPIs.denialRate prevKPIs.denialRate false 2,
    firstPassRate := trend currentKPIs.firstPassRate prevKPIs.firstPassRate true 2,
    cleanClaimRate := trend currentKPIs.cleanClaimRate prevKPIs.cleanClaimRate true 2,
    totalClaims := trend currentKPIs.totalClaims prevKPIs.totalClaims true 0 }

/-! ## Period computation of the detail pages -/

/-- The period computed by the detail pages (`DenialPage.jsx` lines 199-203,
`TotalPage.jsx` lines 200-204, `TotalPaymentPage.jsx` lines 187-191, the same
code in the three). -/
structure DetailPeriod where
  duration : JsNum
  prevEnd : Dayjs
  prevStart : Dayjs
deriving DecidableEq

/-- The previous window of the detail pages, from `start = dayjs(startDate)`
and `end = dayjs(endDate)`. -/
def detailPeriod (start «end» : Dayjs) : DetailPeriod :=
  let duration := «end».diffDays start
  let prevEnd := start.subtractDays (JsNum.fin 1)
  let prevStart := prevEnd.subtractDays duration
  { duration := duration, prevEnd := prevEnd, prevStart := prevStart }

/-! ## Bulk upload -/

/-- Whether the characters `sub` start the list `cs`. -/
def startsWithChars : List Char → List Char → Bool
  | _, [] => true
  | [], _ :: _ => false
  | c :: cs, d :: ds => c == d && startsWithChars cs ds

/-- Whether the characters `sub` occur in `cs` as a contiguous run. -/
def includesChars : List Char → List Char → Bool
  | [], sub => startsWithChars [] sub
  | c :: cs, sub => startsWithChars (c :: cs) sub || includesChars cs sub

/-- The method `String.prototype.includes`. -/
def includes (s sub : String) : Bool := includesChars s.data sub.data

/-- An uploaded file: its name and the rows the CSV reader delivers for it. -/
structure UploadFile where
  name : String
  rows : List RawRow
deriving DecidableEq

/-- The part of the state of `Dashboard` that `handleFileUpload` writes. -/
structure UploadState where
  charges : List Row
  denials : List Row
  openAR : List Row
  agingData : List Row
  ncrData : List Row
  uploadError : String
deriving DecidableEq

/-- The five arrays filled by the routing loop of `handleFileUpload`. -/
structure Routed where
  newCharges : List Row := []
  newDenials : List Row := []
  newOpenAR : List Row := []
  newAging : List Row := []
  newNcrData : List Row := []
deriving DecidableEq

/-- One round of the routing loop (lines 376-388): `name` is the lower-cased
file name and `data` the normalized rows.  In the third test `&&` binds
tighter than `||`. -/
def routeFile (acc : Routed) (name : String) (data : List Row) : Routed :=
  if includes name "charge" then { acc with newCharges := data }
  else if includes name "denial" then { acc with newDenials := data }
  else if includes name "openar" || includes name "open" ||
      (includes name "ar" && !includes name "aging") then { acc with newOpenAR := data }
  else if includes name "aging" then { acc with newAging := data }
  else if includes name "ncr" then { acc with newNcrData := data }
  else acc

/-- The function `handleFileUpload` (lines 313-402), from the state before
the upload to the state after it.  The CSV reader is taken as given: it
delivers the rows of each file and does not fail, so the `catch` branch is
not entered. -/
def handleFileUpload (lib : JsLib) (st : UploadState) (files : List UploadFile) : UploadState :=
  if files.length ≠ 5 then
    { st with uploadError :=
        "Please select exactly 5 files: Charges, Denials, OpenAR, Aging, and NCR Data." }
  else
    let parsedResults := files.map (fun file =>
      (toLowerCase file.name, file.rows.map (normalizeRow lib)))
    let routed := parsedResults.foldl (fun acc pr => routeFile acc pr.1 pr.2) ({} : Routed)
    { charges := routed.newCharges, denials := routed.newDenials, openAR := routed.newOpenAR,
      agingData := routed.newAging, ncrData := routed.newNcrData, uploadError := "" }

/-! ## Lag, aging buckets and the metrics of the detail pages -/

/-- JavaScript `Math.round`: the nearest integer, a half rounding upwards. -/
def JsNum.round : JsNum → JsNum
  | JsNum.nan => JsNum.nan
  | JsNum.fin q => JsNum.fin ((Int.floor (q + 1 / 2) : Int) : ℚ)

/-- The call `dayjs(x)` for a date field of a normalized record, which is a
string or `null`; `dayjs(null)` is an invalid date. -/
def dayjsOfField (lib : JsLib) (x : Option String) : Dayjs :=
  match x with
  | none => Dayjs.invalid
  | some s => lib.dayjs s

/-- The function `calculateLag` (lines 591-594); the two keys are given as
the field accessors.  A difference that is kept is not `null`. -/
def calculateLag (lib : JsLib) (data : List Row) (dateKey1 dateKey2 : Row → Option String) :
    JsNum :=
  let diffs := (data.map (fun r =>
    let d1 := dayjsOfField lib (dateKey1 r)
    let d2 := dayjsOfField lib (dateKey2 r)
    if d1.isValid && d2.isValid then some (d2.diffDays d1) else none)).filterMap
      (fun d => match d with
        | none => none
        | some v => if !v.isNaN then some v else none)
  if diffs.length = 0 then JsNum.fin 0
  else (diffs.foldl (fun a b => a + b) (JsNum.fin 0) / JsNum.ofNat diffs.length).round

/-- The value `chargeLag` (line 595). -/
def chargeLag (lib : JsLib) (filteredCharges : List Row) : JsNum :=
  calculateLag lib filteredCharges (fun r => r.Date_of_Service) (fun r => r.Charge_Entry_Date)

/-- The value `billingLag` (line 596). -/
def billingLag (lib : JsLib) (filteredDenials : List Row) : JsNum :=
  calculateLag lib filteredDenials (fun r => r.Date_of_Service)
    (fun r => r.Claim_Submission_Date)

/-- An entry of `arAgingPieData`. -/
structure PieEntry where
  name : String
  value : JsNum
  rawAmount : JsNum
deriving DecidableEq

/-- The four accumulators of `arAgingPieData`, in the order of the object
`buckets`. -/
structure AgingBuckets where
  b0_30 : JsNum := JsNum.fin 0
  b31_60 : JsNum := JsNum.fin 0
  b61_90 : JsNum := JsNum.fin 0
  b90plus : JsNum := JsNum.fin 0
deriving DecidableEq

/-- One round of the loop over `snapshotData` (lines 735-743). -/
def agingStep (buckets : AgingBuckets) (item : Row) : AgingBuckets :=
  let age := item.aging.orElse (JsNum.fin 0)
  let amt := item.Aging_Amount.orElse (JsNum.fin 0)
  if age.isNaN || age.lt (JsNum.fin 0) || amt.isNaN then buckets
  else if age.le (JsNum.fin 30) then { buckets with b0_30 := buckets.b0_30 + amt }
  else if age.le (JsNum.fin 60) then { buckets with b31_60 := buckets.b31_60 + amt }
  else if age.le (JsNum.fin 90) then { buckets with b61_90 := buckets.b61_90 + amt }
  else { buckets with b90plus := buckets.b90plus + amt }

/-- The value `arAgingPieData` (lines 730-751), given `dayjs(endDate)`. -/
def arAgingPieData (lib : JsLib) (agingData : List Row) (endObj : Dayjs) : List PieEntry :=
  let targetMonthStr := lib.formatMMMYY endObj
  let snapshotData := agingData.filter (fun row => row.month == targetMonthStr)
  let buckets := snapshotData.foldl agingStep ({} : AgingBuckets)
  let entries := [("0-30 Days", buckets.b0_30), ("31-60 Days", buckets.b31_60),
    ("61-90 Days", buckets.b61_90), ("90+ Days", buckets.b90plus)]
  let total := (entries.map (fun e => e.2)).foldl (fun a b => a + b) (JsNum.fin 0)
  entries.map (fun e =>
    { name := e.1,
      value := if total.gt (JsNum.fin 0) then (e.2 / total) * JsNum.fin 100 else JsNum.fin 0,
      rawAmount := e.2 })

/-- The object returned by `getMetrics` of `DenialPage.jsx`. -/
structure DenialMetrics where
  totalDenials : Nat
  totalDeniedAmount : JsNum
  denialRate : JsNum
deriving DecidableEq

/-- The test `d.Claim_Status && d.Claim_Status.toLowerCase().includes("denied")`
of `DenialPage.jsx`. -/
def isDeniedOnDenialPage (status : Option String) : Bool :=
  strTruthy status && includes (toLowerCase (orEmpty status)) "denied"

/-- The function `getMetrics` of `DenialPage.jsx` (lines 221-228), over rows
of any shape with their `Claim_Status` and `Denial_Amount` fields. -/
def denialPageGetMetrics {α : Type} (status : α → Option String) (amount : α → JsNum)
    (dataset : List α) : DenialMetrics :=
  let deniedClaims := dataset.filter (fun d => isDeniedOnDenialPage (status d))
  let totalDenials := deniedClaims.length
  let totalDeniedAmount := deniedClaims.foldl (fun sum d => sum + amount d) (JsNum.fin 0)
  let totalClaims := dataset.length
  let denialRate :=
    if totalClaims > 0 then (JsNum.ofNat totalDenials / JsNum.ofNat totalClaims) * JsNum.fin 100
    else JsNum.fin 0
  { totalDenials := totalDenials, totalDeniedAmount := totalDeniedAmount,
    denialRate := denialRate }

/-- The normalization `Number(row.visit || 1)` of `TotalPage.jsx` (line 80). -/
def totalPageVisit (lib : JsLib) (visit : Option String) : JsNum :=
  if strTruthy visit then lib.toNumber (orEmpty visit) else JsNum.fin 1

/-- The object returned by `getMetrics` of `TotalPage.jsx`. -/
structure TotalMetrics where
  totalClaims : JsNum
  totalBilled : JsNum
  totalPaid : JsNum
deriving DecidableEq

/-- The function `getMetrics` of `TotalPage.jsx` (lines 224-230). -/
def totalPageGetMetrics (dataset : List Row) : TotalMetrics :=
  { totalClaims := dataset.foldl (fun sum d => sum + d.visit.orElse (JsNum.fin 1)) (JsNum.fin 0),
    totalBilled := dataset.foldl (fun sum d => sum + d.Billed_Amount) (JsNum.fin 0),
    totalPaid := dataset.foldl (fun sum d => sum + d.Paid_Amount) (JsNum.fin 0) }

/-! ## Conversion between strings and numbers -/

/-- The value of a run of decimal digits. -/
def natOfDigits (cs : List Char) : Nat := cs.foldl (fun n c => 10 * n + (c.toNat - 48)) 0

/-- The value of a digit in a base up to 16, when the character is one. -/
def digitInBase (base : Nat) (c : Char) : Option Nat :=
  let v : Nat :=
    if c.isDigit then c.toNat - 48
    else if 'a'.toNat ≤ c.toNat ∧ c.toNat ≤ 'f'.toNat then c.toNat - 87
    else if 'A'.toNat ≤ c.toNat ∧ c.toNat ≤ 'F'.toNat then c.toNat - 55
    else 16
  if v < base then some v else none

/-- The value of a non-empty run of digits in the given base. -/
def natInBase (base : Nat) (cs : List Char) : Option Nat :=
  if cs.isEmpty then none
  else cs.foldl (fun acc c =>
    match acc, digitInBase base c with
    | some n, some v => some (base * n + v)
    | _, _ => none) (some 0)

/-- The exponent part after the `e` of a decimal literal: an optional sign
and a non-empty run of digits. -/
def parseExponent (cs : List Char) : Option Int :=
  let neg := cs.head? == some '-'
  let ds := if cs.head? == some '-' || cs.head? == some '+' then cs.drop 1 else cs
  if !ds.isEmpty && ds.all Char.isDigit then
    some (if neg then -(natOfDigits ds : Int) else (natOfDigits ds : Int))
  else none

/-- An unsigned decimal literal (`StrUnsignedDecimalLiteral` without
`Infinity`): its digits as a natural number and the power of ten that
scales them. -/
def parseUnsignedDecimal (cs : List Char) : Option (Nat × Int) :=
  let mant := cs.takeWhile (fun c => c != 'e' && c != 'E')
  let rest := cs.dropWhile (fun c => c != 'e' && c != 'E')
  let intPart := mant.takeWhile (fun c => c != '.')
  let afterInt := mant.dropWhile (fun c => c != '.')
  let frac := afterInt.drop 1
  let mantOk := intPart.all Char.isDigit && frac.all Char.isDigit &&
    (!intPart.isEmpty || !frac.isEmpty)
  if !mantOk then none
  else
    match rest with
    | [] => some (natOfDigits (intPart ++ frac), -(frac.length : Int))
    | _ :: e =>
      match parseExponent e with
      | some k => some (natOfDigits (intPart ++ frac), k - (frac.length : Int))
      | none => none

/-- The grammar `StringNumericLiteral` of ECMAScript on the trimmed text:
the sign, the digits and the power of ten of the number it denotes, `none`
when the text is no numeric literal.  The empty text denotes 0.  The
literal `Infinity` denotes a value outside the number model and is treated
as no literal. -/
def parseNumeric (s : String) : Option (Bool × Nat × Int) :=
  let cs := (trim s).data
  match cs with
  | [] => some (false, 0, 0)
  | '0' :: 'x' :: ds => (natInBase 16 ds).map (fun n => (false, n, 0))
  | '0' :: 'X' :: ds => (natInBase 16 ds).map (fun n => (false, n, 0))
  | '0' :: 'o' :: ds => (natInBase 8 ds).map (fun n => (false, n, 0))
  | '0' :: 'O' :: ds => (natInBase 8 ds).map (fun n => (false, n, 0))
  | '0' :: 'b' :: ds => (natInBase 2 ds).map (fun n => (false, n, 0))
  | '0' :: 'B' :: ds => (natInBase 2 ds).map (fun n => (false, n, 0))
  | '-' :: ds => (parseUnsignedDecimal ds).map (fun me => (true, me.1, me.2))
  | '+' :: ds => (parseUnsignedDecimal ds).map (fun me => (false, me.1, me.2))
  | ds => (parseUnsignedDecimal ds).map (fun me => (false, me.1, me.2))

/-- The conversion `Number(s)` of a string, in exact arithmetic: `NaN` when
the text is no numeric literal, otherwise the value the literal denotes. -/
def jsNumber (s : String) : JsNum :=
  match parseNumeric s with
  | none => JsNum.nan
  | some (neg, m, e) => JsNum.fin ((if neg then -1 else 1) * (m : ℚ) * (10 : ℚ) ^ e)

/-- The library with `Number` as modelled by `jsNumber`; the date functions
are those of `sampleLib`. -/
def numLib : JsLib where
  toNumber := jsNumber
  dayjs := sampleLib.dayjs
  formatMMMYY := sampleLib.formatMMMYY

/-- The two replacements `.replace(/,/g, "").replace(/"/g, "")`. -/
def removeCommasQuotes (s : String) : String :=
  String.mk ((s.data.filter (fun c => c != ',')).filter (fun c => c != '"'))

/-- A value the amount coercion can be applied to: `undefined`, a string or
a number. -/
inductive JsVal where
  | undefined : JsVal
  | str (s : String) : JsVal
  | num (n : JsNum) : JsVal
deriving DecidableEq

/-- The amount coercion of the normalization,
`Number(String(x || "0").replace(/,/g, "").replace(/"/g, ""))`, on any
value.  `numToString` is `String(n)` for a finite non-zero number `n`, a
function of the library; `numberToString` models it. -/
def parseAmount (toNumber : String → JsNum) (numToString : ℚ → String) (x : JsVal) : JsNum :=
  let text : String :=
    match x with
    | JsVal.undefined => "0"
    | JsVal.str s => if s = "" then "0" else s
    | JsVal.num JsNum.nan => "0"
    | JsVal.num (JsNum.fin q) => if q = 0 then "0" else numToString q
  toNumber (removeCommasQuotes text)

/-- A cell of a raw row as a value. -/
def cellVal : Option String → JsVal
  | none => JsVal.undefined
  | some s => JsVal.str s

/-- A stand-in for `String(n)` on the whole numbers: the decimal digits,
after a `-` for a negative number; other numbers are not used in the
examples. -/
def sampleNumToString (q : ℚ) : String :=
  if q.den = 1 then
    String.mk ((if q.num < 0 then ['-'] else []) ++ Nat.toDigits 10 q.num.natAbs)
  else "?"

/-! ## Calendar -/

/-- Days from 1 January 1970 to the civil date `y`-`m`-`d` of the proleptic
Gregorian calendar; `d` may lie outside the month. -/
def daysFromCivil (y m d : Int) : Int :=
  let y1 := if m ≤ 2 then y - 1 else y
  let era := y1 / 400
  let yoe := y1 - era * 400
  let mp := if m > 2 then m - 3 else m + 9
  let doy := (153 * mp + 2) / 5 + d - 1
  let doe := yoe * 365 + yoe / 4 - yoe / 100 + doy
  era * 146097 + doe - 719468

/-- The civil year and month (1 to 12) of the day `z` days after 1 January
1970. -/
def civilYearMonth (z : Int) : Int × Int :=
  let z1 := z + 719468
  let era := z1 / 146097
  let doe := z1 - era * 146097
  let yoe := (doe - doe / 1460 + doe / 36524 - doe / 146096) / 365
  let y := yoe + era * 400
  let doy := doe - (365 * yoe + yoe / 4 - yoe / 100)
  let mp := (5 * doy + 2) / 153
  let m := if mp < 10 then mp + 3 else mp - 9
  (if m ≤ 2 then y + 1 else y, m)

namespace Dayjs

/-- The call `d.startOf('month')`: midnight of the first day of the month. -/
def startOfMonth : Dayjs → Dayjs
  | invalid => invalid
  | ms t =>
    let ym := civilYearMonth (t / MILLISECONDS_A_DAY)
    ms (daysFromCivil ym.1 ym.2 1 * MILLISECONDS_A_DAY)

/-- The call `d.unix()`: the whole seconds since the epoch, `NaN` for an
invalid date. -/
def unix : Dayjs → JsNum
  | invalid => JsNum.nan
  | ms t => JsNum.fin ((t / 1000 : Int) : ℚ)

end Dayjs

/-- The English short month names of `dayjs`. -/
def monthShortNames : List String :=
  ["Jan", "Feb", "Mar", "Apr", "May", "Jun", "Jul", "Aug", "Sep", "Oct", "Nov", "Dec"]

/-- The call `d.format("MMM YY")` for the zone of the model: the short name
of the month and the last two characters of the year, `Invalid Date` for an
invalid date. -/
def formatMonthLabel : Dayjs → String
  | Dayjs.invalid => "Invalid Date"
  | Dayjs.ms t =>
    let ym := civilYearMonth (t / MILLISECONDS_A_DAY)
    let yearChars := (if ym.1 < 0 then ['-'] else []) ++ Nat.toDigits 10 ym.1.natAbs
    monthShortNames.getD (ym.2 - 1).toNat "" ++ " " ++
      String.mk (yearChars.drop (yearChars.length - 2))

/-- The parser `dayjs(s)` on dates written `YYYY-MM-DD`: local midnight of
that day, with the roll-over of `new Date(y, m - 1, d)` for a month or a
day out of range and its reading of the years 0 to 99 as 1900 to 1999.
Every other text is treated as unparseable; `dayjs` accepts more forms. -/
def isoDayjs (s : String) : Dayjs :=
  match s.data with
  | [y1, y2, y3, y4, '-', m1, m2, '-', d1, d2] =>
    if [y1, y2, y3, y4, m1, m2, d1, d2].all Char.isDigit then
      let y0 : Int := natOfDigits [y1, y2, y3, y4]
      let y : Int := if y0 ≤ 99 then y0 + 1900 else y0
      let m : Int := natOfDigits [m1, m2]
      let d : Int := natOfDigits [d1, d2]
      let months := y * 12 + (m - 1)
      Dayjs.ms ((daysFromCivil (months / 12) (months % 12 + 1) 1 + (d - 1))
        * MILLISECONDS_A_DAY)
    else Dayjs.invalid
  | _ => Dayjs.invalid

/-- The library with the dates of `isoDayjs`, the labels of
`formatMonthLabel` and the numbers of `jsNumber`. -/
def calLib : JsLib where
  toNumber := jsNumber
  dayjs := isoDayjs
  formatMMMYY := formatMonthLabel

/-! ## Objects used as maps -/

/-- Whether a property key is an array index: the decimal form, without a
leading zero, of a whole number below `2^32 - 1`. -/
def isArrayIndexKey (k : String) : Bool :=
  !k.data.isEmpty && k.data.all Char.isDigit &&
    (k.data.head? != some '0' || k.data.length == 1) &&
    decide (natOfDigits k.data < 4294967295)

/-- The read `o[k]` of an own property of an object kept as the list of its
entries in creation order.  The properties inherited from
`Object.prototype` are outside the model. -/
def objGet {β : Type} (o : List (String × β)) (k : String) : Option β :=
  match o with
  | [] => none
  | (k1, v) :: rest => if k1 = k then some v else objGet rest k

/-- The write `o[k] = v`: an existing property keeps its place, a new one
comes last. -/
def objSet {β : Type} (o : List (String × β)) (k : String) (v : β) : List (String × β) :=
  match o with
  | [] => [(k, v)]
  | (k1, v1) :: rest => if k1 = k then (k1, v) :: rest else (k1, v1) :: objSet rest k v

/-- The order of `Object.entries`, `Object.values` and `Object.keys`: the
array-index keys in ascending numeric order, then the other keys in
creation order. -/
def objectEntries {β : Type} (o : List (String × β)) : List (String × β) :=
  (o.filter (fun e => isArrayIndexKey e.1)).insertionSort
      (fun a b => natOfDigits a.1.data ≤ natOfDigits b.1.data) ++
    o.filter (fun e => !isArrayIndexKey e.1)

/-- The sort `arr.sort((a, b) => key(a) - key(b))`: stable, an element
moving behind another only when the difference of the keys is above 0 (a
`NaN` difference counts as 0). -/
def sortByKey {α : Type} (key : α → JsNum) (arr : List α) : List α :=
  arr.insertionSort (fun a b => (key a - key b).gt (JsNum.fin 0) = false)

/-- The padding of a series with a single point (`if (data.length === 1)`):
the point is repeated with the month labels `""` and `" "`. -/
def padSinglePoint {α : Type} (setMonth : α → String → α) (data : List α) : List α :=
  match data with
  | [p] => [setMonth p "", p, setMonth p " "]
  | _ => data

/-! ## Monthly series -/

/-- The pattern `if (!map[key]) map[key] = init; update(map[key])` of the
monthly loops: the entry of `key` is created when it is missing and then
updated in place.  A key that names a property inherited from
`Object.prototype` is outside the model. -/
def upsert {β : Type} (map : List (String × β)) (key : String) (init : β) (upd : β → β) :
    List (String × β) :=
  match objGet map key with
  | some b => objSet map key (upd b)
  | none => objSet map key (upd init)

/-- The metric shown by the main chart, one of the five tabs `GCR`, `NCR`,
`Denial Rate`, `CCR` and `FPR`. -/
inductive Metric where
  | GCR : Metric
  | NCR : Metric
  | DenialRate : Metric
  | CCR : Metric
  | FPR : Metric
deriving DecidableEq

/-- The lookup of the target of the selected metric in the baseline, by the
key built from the name of the metric, read through `Number(x || 0)`. -/
def Metric.target (m : Metric) (prevKPIs : PrevKPIs) : JsNum :=
  (match m with
    | Metric.GCR => prevKPIs.GCR_Target
    | Metric.NCR => prevKPIs.NCR_Target
    | Metric.DenialRate => prevKPIs.Denial_Rate_Target
    | Metric.CCR => prevKPIs.CCR_Target
    | Metric.FPR => prevKPIs.FPR_Target).orElse (JsNum.fin 0)

/-- The lookup of the baseline of the selected metric, as for the target. -/
def Metric.baseline (m : Metric) (prevKPIs : PrevKPIs) : JsNum :=
  (match m with
    | Metric.GCR => prevKPIs.GCR_Baseline
    | Metric.NCR => prevKPIs.NCR_Baseline
    | Metric.DenialRate => prevKPIs.Denial_Rate_Baseline
    | Metric.CCR => prevKPIs.CCR_Baseline
    | Metric.FPR => prevKPIs.FPR_Baseline).orElse (JsNum.fin 0)

/-- The accumulators of a month in `mainChartData`. -/
structure MonthBucket where
  paidSum : JsNum
  billedSum : JsNum
  adjustmentSum : JsNum
  ccrSum : JsNum
  ccrCount : JsNum
  count : JsNum
  date : Dayjs
  fprTrueCount : JsNum
  fprDenialCount : JsNum
  deniedCount : JsNum
  totalDenialRows : JsNum
  ncrPaid : JsNum
  ncrBilled : JsNum
  ncrAdj : JsNum
  target : JsNum
  baseline : JsNum
deriving DecidableEq

/-- The object a month starts with (lines 607-615, 636-643 and 654-661). -/
def newBucket (date : Dayjs) (selectedMetric : Metric) (prevKPIs : PrevKPIs) : MonthBucket :=
  { paidSum := JsNum.fin 0, billedSum := JsNum.fin 0, adjustmentSum := JsNum.fin 0,
    ccrSum := JsNum.fin 0, ccrCount := JsNum.fin 0, count := JsNum.fin 0,
    date := date,
    fprTrueCount := JsNum.fin 0, fprDenialCount := JsNum.fin 0, deniedCount := JsNum.fin 0,
    totalDenialRows := JsNum.fin 0,
    ncrPaid := JsNum.fin 0, ncrBilled := JsNum.fin 0, ncrAdj := JsNum.fin 0,
    target := selectedMetric.target prevKPIs, baseline := selectedMetric.baseline prevKPIs }

/-- The updates a charge makes to the bucket of its month (lines 617-626). -/
def chargeUpdate (r : Row) (b : MonthBucket) : MonthBucket :=
  let clean := r.Is_Clean_Claim.orElse (JsNum.fin 0)
  let inRange := !clean.isNaN && clean.ge (JsNum.fin 0) && clean.le (JsNum.fin 100)
  { b with
    paidSum := b.paidSum + r.Paid_Amount.orElse (JsNum.fin 0)
    billedSum := b.billedSum + r.Billed_Amount.orElse (JsNum.fin 0)
    adjustmentSum := b.adjustmentSum + r.Adjustment_Amount.orElse (JsNum.fin 0)
    count := b.count + JsNum.fin 1
    ccrSum := if inRange then b.ccrSum + clean else b.ccrSum
    ccrCount := if inRange then b.ccrCount + JsNum.fin 1 else b.ccrCount }

/-- The updates an NCR record makes to the bucket of its month (lines
645-647). -/
def ncrUpdate (r : Row) (b : MonthBucket) : MonthBucket :=
  { b with
    ncrPaid := b.ncrPaid + r.Paid_Amount.orElse (JsNum.fin 0)
    ncrBilled := b.ncrBilled + r.Billed_Amount.orElse (JsNum.fin 0)
    ncrAdj := b.ncrAdj + r.Adjustment_Amount.orElse (JsNum.fin 0) }

/-- The updates a denial row makes to the bucket of its month (lines
668-672); the four counters are never `undefined`. -/
def denialUpdate (r : Row) (b : MonthBucket) : MonthBucket :=
  { b with
    totalDenialRows := b.totalDenialRows + JsNum.fin 1
    deniedCount := if isDeniedStatus r then b.deniedCount + JsNum.fin 1 else b.deniedCount
    fprTrueCount :=
      if r.Is_First_Pass_Resolution then b.fprTrueCount + JsNum.fin 1 else b.fprTrueCount
    fprDenialCount := b.fprDenialCount + JsNum.fin 1 }

/-- One round of a loop of `mainChartData`: a record whose date does not
parse is skipped, another one updates the bucket of its label, created
with the start of the month of this record when it is missing. -/
def bucketStep (lib : JsLib) (selectedMetric : Metric) (prevKPIs : PrevKPIs)
    (dateOf : Row → Option String) (update : Row → MonthBucket → MonthBucket)
    (map : List (String × MonthBucket)) (r : Row) : List (String × MonthBucket) :=
  let postedDate := dayjsOfField lib (dateOf r)
  if !postedDate.isValid then map
  else
    upsert map (lib.formatMMMYY postedDate)
      (newBucket postedDate.startOfMonth selectedMetric prevKPIs) (update r)

/-- The object `map` of `mainChartData` after the three loops: the charges
by entry date, the NCR records by entry date, the denials by service date. -/
def chartBuckets (lib : JsLib) (filteredCharges filteredDenials filteredNCR : List Row)
    (selectedMetric : Metric) (prevKPIs : PrevKPIs) : List (String × MonthBucket) :=
  let map1 := filteredCharges.foldl
    (bucketStep lib selectedMetric prevKPIs (fun r => r.Charge_Entry_Date) chargeUpdate) []
  let map2 := filteredNCR.foldl
    (bucketStep lib selectedMetric prevKPIs (fun r => r.Charge_Entry_Date) ncrUpdate) map1
  filteredDenials.foldl
    (bucketStep lib selectedMetric prevKPIs (fun r => r.Date_of_Service) denialUpdate) map2

/-- The value plotted for a bucket (lines 676-685). -/
def bucketValue (selectedMetric : Metric) (obj : MonthBucket) : JsNum :=
  match selectedMetric with
  | Metric.GCR =>
    if obj.billedSum.gt (JsNum.fin 0) then (obj.paidSum / obj.billedSum) * JsNum.fin 100
    else JsNum.fin 0
  | Metric.NCR =>
    let net := obj.ncrBilled - obj.ncrAdj
    if net.gt (JsNum.fin 0) then (obj.ncrPaid / net) * JsNum.fin 100 else JsNum.fin 0
  | Metric.CCR =>
    if obj.ccrCount.gt (JsNum.fin 0) then obj.ccrSum / obj.ccrCount
    else obj.target.orElse (JsNum.fin 0)
  | Metric.FPR =>
    if obj.fprDenialCount.gt (JsNum.fin 0)
    then (obj.fprTrueCount / obj.fprDenialCount) * JsNum.fin 100 else JsNum.fin 0
  | Metric.DenialRate =>
    if obj.totalDenialRows.gt (JsNum.fin 0)
    then (obj.deniedCount / obj.totalDenialRows) * JsNum.fin 100 else JsNum.fin 0

/-- A point of the main chart. -/
structure ChartPoint where
  month : String
  avg : JsNum
  target : JsNum
  baseline : JsNum
deriving DecidableEq

/-- The entries of `map` in the order of the chart: sorted by the `unix()`
of the date of the bucket. -/
def sortedBuckets (lib : JsLib) (filteredCharges filteredDenials filteredNCR : List Row)
    (selectedMetric : Metric) (prevKPIs : PrevKPIs) : List (String × MonthBucket) :=
  sortByKey (fun e => e.2.date.unix)
    (objectEntries
      (chartBuckets lib filteredCharges filteredDenials filteredNCR selectedMetric prevKPIs))

/-- The value `mainChartData` (lines 598-699). -/
def mainChartData (lib : JsLib) (filteredCharges filteredDenials filteredNCR : List Row)
    (selectedMetric : Metric) (prevKPIs : PrevKPIs) : List ChartPoint :=
  let chartData :=
    (sortedBuckets lib filteredCharges filteredDenials filteredNCR selectedMetric
      prevKPIs).map (fun e =>
        ({ month := e.1, avg := bucketValue selectedMetric e.2, target := e.2.target,
           baseline := e.2.baseline } : ChartPoint))
  padSinglePoint (fun p month => { p with month := month }) chartData

/-- A point of a sparkline. -/
structure SparkPoint where
  value : JsNum
  month : String
deriving DecidableEq

/-- The function `getMonthlyChargesTrend` (lines 542-547), over the filtered
charges; `getMonthlyNCRTrend` (lines 550-555) is the same function over the
filtered NCR records.  The groups come out in the order of `Object.values`. -/
def getMonthlyChargesTrend (filteredCharges : List Row) (fn : List Row → JsNum) :
    List SparkPoint :=
  let acc := filteredCharges.foldl (fun (acc : List (String × (List Row × String))) r =>
    let month := if r.month = "" then "Unknown" else r.month
    upsert acc month ([], month) (fun d => (d.1 ++ [r], d.2))) []
  (objectEntries acc).map (fun e => { value := fn e.2.1, month := e.2.2 })

/-- The function `getMonthlyNCRTrend` (lines 550-555). -/
def getMonthlyNCRTrend (filteredNCR : List Row) (fn : List Row → JsNum) : List SparkPoint :=
  getMonthlyChargesTrend filteredNCR fn

/-- The value function of the `gcr` sparkline (line 582). -/
def sparklineGcrValue (rows : List Row) : JsNum :=
  let p := rows.foldl (fun a r => a + r.Paid_Amount.orElse (JsNum.fin 0)) (JsNum.fin 0)
  let b := rows.foldl (fun a r => a + r.Billed_Amount.orElse (JsNum.fin 0)) (JsNum.fin 0)
  if b.gt (JsNum.fin 0) then (p / b) * JsNum.fin 100 else JsNum.fin 0

/-- The value function of the `ncr` sparkline (line 584). -/
def sparklineNcrValue (rows : List Row) : JsNum :=
  let p := rows.foldl (fun a r => a + r.Paid_Amount.orElse (JsNum.fin 0)) (JsNum.fin 0)
  let al := rows.foldl (fun a r =>
    a + (r.Billed_Amount.orElse (JsNum.fin 0) - r.Adjustment_Amount.orElse (JsNum.fin 0)))
    (JsNum.fin 0)
  if al.gt (JsNum.fin 0) then (p / al) * JsNum.fin 100 else JsNum.fin 0

/-- The value function of the `totalClaims` sparkline (line 588). -/
def sparklineTotalClaimsValue (rows : List Row) : JsNum :=
  rows.foldl (fun sum r => sum + r.visit.orElse (JsNum.fin 0)) (JsNum.fin 0)

/-- The sparklines of `kpiSparklines` (lines 581-589) that are built by
`getMonthlyChargesTrend` and `getMonthlyNCRTrend`. -/
structure ChargeSparklines where
  gcr : List SparkPoint
  ncr : List SparkPoint
  totalClaims : List SparkPoint
deriving DecidableEq

/-- The `gcr`, `ncr` and `totalClaims` entries of `kpiSparklines`. -/
def kpiSparklines (filteredCharges filteredNCR : List Row) : ChargeSparklines :=
  { gcr := getMonthlyChargesTrend filteredCharges sparklineGcrValue,
    ncr := getMonthlyNCRTrend filteredNCR sparklineNcrValue,
    totalClaims := getMonthlyChargesTrend filteredCharges sparklineTotalClaimsValue }

/-- The accumulators of a month in `filteredMonthlyData` of `NcrPage.jsx`. -/
structure NcrMonth where
  billed : JsNum
  paid : JsNum
  adjustment : JsNum
  date : Dayjs
deriving DecidableEq

/-- A point of the monthly series of `NcrPage.jsx`. -/
structure NcrPoint where
  month : String
  actual : JsNum
  target : JsNum
deriving DecidableEq

/-- The object `monthlyAggregated` of `filteredMonthlyData` in `NcrPage.jsx`
(lines 238-251). -/
def ncrPageBuckets (lib : JsLib) (filteredNcrData : List Row) : List (String × NcrMonth) :=
  filteredNcrData.foldl (fun (acc : List (String × NcrMonth)) d =>
    let postedDate := dayjsOfField lib d.Charge_Entry_Date
    if !postedDate.isValid then acc
    else
      upsert acc (lib.formatMMMYY postedDate)
        { billed := JsNum.fin 0, paid := JsNum.fin 0, adjustment := JsNum.fin 0,
          date := postedDate.startOfMonth }
        (fun m => { m with
          billed := m.billed + d.Billed_Amount.orElse (JsNum.fin 0)
          paid := m.paid + d.Paid_Amount.orElse (JsNum.fin 0)
          adjustment := m.adjustment + d.Adjustment_Amount.orElse (JsNum.fin 0) })) []

/-- The point of a month of `NcrPage.jsx` (lines 254-263); `+actual.toFixed(2)`
is the number written by `toFixed`. -/
def ncrPagePoint (lib : JsLib) (e : String × NcrMonth) : NcrPoint :=
  let netBilled := e.2.billed - e.2.adjustment
  let actual :=
    if netBilled.gt (JsNum.fin 0) then (e.2.paid / netBilled) * JsNum.fin 100
    else JsNum.fin 0
  { month := e.1, actual := lib.toNumber (toFixed actual 2), target := JsNum.fin 97 }

/-- The value `filteredMonthlyData` of `NcrPage.jsx` (lines 237-271). -/
def ncrPageMonthlyData (lib : JsLib) (filteredNcrData : List Row) : List NcrPoint :=
  let data := (sortByKey (fun e => e.2.date.unix)
    (objectEntries (ncrPageBuckets lib filteredNcrData))).map (ncrPagePoint lib)
  padSinglePoint (fun p month => { p with month := month }) data

/-- The accumulators of a month in `filteredMonthlyData` of `TotalPage.jsx`. -/
structure TotalMonth where
  count : JsNum
  date : Dayjs
deriving DecidableEq

/-- A point of the monthly series of `TotalPage.jsx`. -/
structure TotalPoint where
  month : String
  claims : JsNum
deriving DecidableEq

/-- The object `monthlyAggregated` of `filteredMonthlyData` in
`TotalPage.jsx` (lines 242-250). -/
def totalPageBuckets (lib : JsLib) (filteredData : List Row) : List (String × TotalMonth) :=
  filteredData.foldl (fun (acc : List (String × TotalMonth)) d =>
    if d.month = "" then acc
    else
      upsert acc d.month
        { count := JsNum.fin 0, date := (dayjsOfField lib d.Charge_Entry_Date).startOfMonth }
        (fun m => { m with count := m.count + d.visit.orElse (JsNum.fin 1) })) []

/-- The value `filteredMonthlyData` of `TotalPage.jsx` (lines 241-262). -/
def totalPageMonthlyData (lib : JsLib) (filteredData : List Row) : List TotalPoint :=
  let data := (sortByKey (fun e => e.2.date.unix)
    (objectEntries (totalPageBuckets lib filteredData))).map
    (fun e => ({ month := e.1, claims := e.2.count.round } : TotalPoint))
  padSinglePoint (fun p month => { p with month := month }) data

/-- The entry `entfw` of `CLIENT_PREV_KPIS`, the baseline the dashboard falls
back to (line 477). -/
def entfwPrevKPIs : PrevKPIs :=
  { totalPayments := JsNum.fin 95000,
    totalClaims := JsNum.fin 9469,
    gcr := JsNum.fin (3450 / 100),
    ncr := JsNum.fin (9700 / 100),
    denialRate := JsNum.fin (30 / 100),
    firstPassRate := JsNum.fin (0 / 100),
    cleanClaimRate := JsNum.fin (9500 / 100),
    totalDenials := JsNum.fin 55,
    totalOpenAR := JsNum.fin 320000,
    GCR_Target := JsNum.fin (325 / 10),
    GCR_Baseline := JsNum.fin (345 / 10),
    NCR_Target := JsNum.fin (452 / 10),
    NCR_Baseline := JsNum.fin (970 / 10),
    CCR_Target := JsNum.fin (912 / 10),
    CCR_Baseline := JsNum.fin (950 / 10),
    FPR_Target := JsNum.fin (950 / 10),
    FPR_Baseline := JsNum.fin (850 / 10),
    Denial_Rate_Target := JsNum.fin (3 / 10),
    Denial_Rate_Baseline := JsNum.fin (30 / 100) }

/-- The slice of a month: the records of `rows` whose date parses and is
written with the label `label`. -/
def monthSlice (lib : JsLib) (dateOf : Row → Option String) (label : String)
    (rows : List Row) : List Row :=
  rows.filter (fun r =>
    (dayjsOfField lib (dateOf r)).isValid &&
      decide (lib.formatMMMYY (dayjsOfField lib (dateOf r)) = label))

/-- The closed form of the accumulators of a month, from the charges `cs`,
the NCR records `ns` and the denial rows `ds` of the month. -/
def bucketOf (date : Dayjs) (selectedMetric : Metric) (prevKPIs : PrevKPIs)
    (cs ns ds : List Row) : MonthBucket :=
  { paidSum := JsNum.fin (cs.map (fun r => r.Paid_Amount.toRat)).sum,
    billedSum := JsNum.fin (cs.map (fun r => r.Billed_Amount.toRat)).sum,
    adjustmentSum := JsNum.fin (cs.map (fun r => r.Adjustment_Amount.toRat)).sum,
    ccrSum := JsNum.fin (((cs.map (fun r => r.Is_Clean_Claim.toRat)).filter
      (fun q => decide (0 ≤ q) && decide (q ≤ 100))).sum),
    ccrCount := JsNum.fin (((cs.map (fun r => r.Is_Clean_Claim.toRat)).filter
      (fun q => decide (0 ≤ q) && decide (q ≤ 100))).length : ℚ),
    count := JsNum.fin (cs.length : ℚ),
    date := date,
    fprTrueCount := JsNum.fin (ds.countP (fun r => r.Is_First_Pass_Resolution) : ℚ),
    fprDenialCount := JsNum.fin (ds.length : ℚ),
    deniedCount := JsNum.fin (ds.countP isDeniedStatus : ℚ),
    totalDenialRows := JsNum.fin (ds.length : ℚ),
    ncrPaid := JsNum.fin (ns.map (fun r => r.Paid_Amount.toRat)).sum,
    ncrBilled := JsNum.fin (ns.map (fun r => r.Billed_Amount.toRat)).sum,
    ncrAdj := JsNum.fin (ns.map (fun r => r.Adjustment_Amount.toRat)).sum,
    target := selectedMetric.target prevKPIs, baseline := selectedMetric.baseline prevKPIs }

/-- The dates of the records that `mainChartData` puts in a bucket: the
entry dates of the charges and of the NCR records and the service dates of
the denial rows, those that parse. -/
def chartDates (lib : JsLib) (filteredCharges filteredDenials filteredNCR : List Row) :
    List Dayjs :=
  ((filteredCharges.map (fun r => dayjsOfField lib r.Charge_Entry_Date)) ++
    (filteredNCR.map (fun r => dayjsOfField lib r.Charge_Entry_Date)) ++
    (filteredDenials.map (fun r => dayjsOfField lib r.Date_of_Service))).filter
      (fun d => d.isValid)

/-- The value of a metric on the slice of a month, stated with
`calculateKPIs`: the NCR, the first-pass rate and the denial rate are those
of `calculateKPIs` on the slice; the GCR is the one of `calculateKPIs` when
the billed total of the month is greater than 0 and 0 otherwise; the CCR is
the one of `calculateKPIs` when a score of the month is in the range 0..100
and the target of the metric otherwise. -/
def monthKpiValue (selectedMetric : Metric) (prevKPIs : PrevKPIs) (cs ns ds : List Row) :
    JsNum :=
  let k := calculateKPIs (some cs) (some ds) none (some ns)
  match selectedMetric with
  | Metric.NCR => k.ncr
  | Metric.FPR => k.firstPassRate
  | Metric.DenialRate => k.denialRate
  | Metric.GCR =>
    if (cs.foldl (fun sum r => sum + r.Billed_Amount.orElse (JsNum.fin 0)) (JsNum.fin 0)).gt
        (JsNum.fin 0)
    then k.gcr else JsNum.fin 0
  | Metric.CCR =>
    if cs.any (fun r =>
        !(r.Is_Clean_Claim.orElse (JsNum.fin 0)).isNaN &&
          (r.Is_Clean_Claim.orElse (JsNum.fin 0)).ge (JsNum.fin 0) &&
          (r.Is_Clean_Claim.orElse (JsNum.fin 0)).le (JsNum.fin 100))
    then k.cleanClaimRate else (selectedMetric.target prevKPIs).orElse (JsNum.fin 0)

/-- An entry of `map` as the chart reads it: the whole seconds of the date
of the bucket, by which the entries are sorted, the label, and the
accumulators without the date. -/
def normEntry (e : String × MonthBucket) : ℚ × String × MonthBucket :=
  (e.2.date.unix.toRat, e.1, { e.2 with date := Dayjs.invalid })

/-- The point of the chart of an entry read by `normEntry`. -/
def normPoint (selectedMetric : Metric) (x : ℚ × String × MonthBucket) : ChartPoint :=
  { month := x.2.1, avg := bucketValue selectedMetric x.2.2, target := x.2.2.target,
    baseline := x.2.2.baseline }

/-- The labels tell the months apart: two dates of the records have the same
label exactly when their months start at the same second. -/
def LabelsFaithful (lib : JsLib) (dates : List Dayjs) : Prop :=
  ∀ d1 ∈ dates, ∀ d2 ∈ dates,
    (lib.formatMMMYY d1 = lib.formatMMMYY d2 ↔ d1.startOfMonth.unix = d2.startOfMonth.unix)

/-! ## Rounded arithmetic -/

/-- The rounding of a result by the arithmetic of the numbers: `fl` maps the
exact value of a sum, difference, product or quotient to the number that is
stored; `NaN` stays `NaN`. -/
def JsNum.rnd (fl : ℚ → ℚ) : JsNum → JsNum
  | JsNum.nan => JsNum.nan
  | JsNum.fin q => JsNum.fin (fl q)

/-- The running total of a `reduce((sum, x) => sum + x, 0)` over the values
`qs`: every addition is rounded by `fl`. -/
def flSum (fl : ℚ → ℚ) (qs : List ℚ) : ℚ :=
  qs.foldl (fun a q => fl (a + q)) 0

/-- The function `calculateKPIs` (lines 479-512) with the arithmetic of the
numbers made explicit: the result of every `+`, `-`, `/` and `*` is rounded
by `fl`.  With `fl64` this is the arithmetic of the doubles of JavaScript;
with the identity it is `calculateKPIs`, which computes exactly. -/
def calculateKPIsFl (fl : ℚ → ℚ)
    (chargesData denialsData openARData ncrDataInput : Option (List Row)) : KPIs :=
  let safeCharges := safeArray chargesData
  let safeDenials := safeArray denialsData
  let safeOpenAR := safeArray openARData
  let safeNcr := safeArray ncrDataInput
  let totalPayments :=
    safeCharges.foldl (fun sum r => (sum + r.Paid_Amount.orElse (JsNum.fin 0)).rnd fl)
      (JsNum.fin 0)
  let totalBilled :=
    safeCharges.foldl (fun sum r => (sum + r.Billed_Amount.orElse (JsNum.fin 0)).rnd fl)
      (JsNum.fin 0)
  let totalClaims :=
    safeCharges.foldl (fun sum r => (sum + r.visit.orElse (JsNum.fin 0)).rnd fl) (JsNum.fin 0)
  let deniedCount := (safeDenials.filter isDeniedStatus).length
  let totalDenialRows := safeDenials.length
  let denialRate :=
    if totalDenialRows > 0 then
      ((JsNum.ofNat deniedCount / JsNum.ofNat totalDenialRows).rnd fl * JsNum.fin 100).rnd fl
    else JsNum.fin 0
  let firstPassClaimsCount := (safeDenials.filter (fun r => r.Is_First_Pass_Resolution)).length
  let firstPassRate :=
    if totalDenialRows > 0 then
      ((JsNum.ofNat firstPassClaimsCount / JsNum.ofNat totalDenialRows).rnd fl
        * JsNum.fin 100).rnd fl
    else JsNum.fin 0
  let cleanClaimValues :=
    (safeCharges.map (fun r => r.Is_Clean_Claim.orElse (JsNum.fin 0))).filter
      (fun val => !val.isNaN && val.ge (JsNum.fin 0) && val.le (JsNum.fin 100))
  let gcr :=
    if totalBilled.strictEq (JsNum.fin 0) then JsNum.fin 0
    else ((totalPayments / totalBilled).rnd fl * JsNum.fin 100).rnd fl
  let cleanClaimRate :=
    if cleanClaimValues.length > 0 then
      (cleanClaimValues.foldl (fun sum val => (sum + val).rnd fl) (JsNum.fin 0) /
        JsNum.ofNat cleanClaimValues.length).rnd fl
    else JsNum.fin 0
  let totalOpenAR :=
    safeOpenAR.foldl (fun sum r => (sum + r.Open_AR_Amount.orElse (JsNum.fin 0)).rnd fl)
      (JsNum.fin 0)
  let ncrPaid :=
    safeNcr.foldl (fun sum r => (sum + r.Paid_Amount.orElse (JsNum.fin 0)).rnd fl)
      (JsNum.fin 0)
  let ncrBilled :=
    safeNcr.foldl (fun sum r => (sum + r.Billed_Amount.orElse (JsNum.fin 0)).rnd fl)
      (JsNum.fin 0)
  let ncrAdj :=
    safeNcr.foldl (fun sum r => (sum + r.Adjustment_Amount.orElse (JsNum.fin 0)).rnd fl)
      (JsNum.fin 0)
  let netBilled := (ncrBilled - ncrAdj).rnd fl
  let ncr :=
    if netBilled.gt (JsNum.fin 0) then ((ncrPaid / netBilled).rnd fl * JsNum.fin 100).rnd fl
    else JsNum.fin 0
  { totalPayments := totalPayments, totalClaims := totalClaims, gcr := gcr, ncr := ncr,
    denialRate := denialRate, firstPassRate := firstPassRate, cleanClaimRate := cleanClaimRate,
    totalDenials := JsNum.ofNat deniedCount, totalOpenAR := totalOpenAR }

/-- Rounding to the nearest integer, a tie going to the even one. -/
def roundHalfEven (x : ℚ) : Int :=
  let f := Int.floor x
  let r := x - (f : ℚ)
  if r < 1 / 2 then f
  else if 1 / 2 < r then f + 1
  else if f % 2 = 0 then f else f + 1

/-- The rounding of an exact value to the nearest double (IEEE 754
binary64, ties to even): 53 significant bits for a normal number, the unit
`2 ^ (-1074)` below `2 ^ (-1022)`.  A value beyond the largest double, which
JavaScript turns into `Infinity`, is outside the number model and is rounded
in the same way. -/
def fl64 (q : ℚ) : ℚ :=
  if q = 0 then 0
  else
    let e : Int := max (Int.log 2 |q|) (-1022) - 52
    (roundHalfEven (q / (2 : ℚ) ^ e) : ℚ) * (2 : ℚ) ^ e

/-! ## Writing numbers -/
/-- The character of a decimal digit. -/
def digitChar (d : Nat) : Char := Char.ofNat (d + 48)

/-- The decimal digits of a natural number, most significant first; `0` for
the number 0. -/
def natToString (n : Nat) : List Char :=
  if n = 0 then ['0'] else (Nat.digits 10 n).reverse.map digitChar

/-- The least `f` such that `d` divides `10 ^ f`, when there is one: the
number of decimals of a decimal number of denominator `d`. -/
def decimalScale (d : Nat) : Nat :=
  ((List.range (Nat.log 2 d + 2)).find? (fun f => decide (d ∣ 10 ^ f))).getD 0

/-- The conversion `String(n)` of a number, `Number::toString` of ECMAScript
in radix 10, on the exact value `q`.  With `k` the number of digits of `q`
without trailing zeros and `n` the position of the decimal point after the
first of them: the digits followed by zeros when `k ≤ n ≤ 21`; the digits
with a point after the first `n` of them when `0 < n ≤ 21`; `0.`, zeros and
the digits when `-6 < n ≤ 0`; otherwise the exponent notation, with a point
after the first digit when there are several.  A negative number has a
leading `-`.  The numbers of the program are decimal (their denominator
divides a power of 10); a double is written with its shortest digits, the
exact value with all its digits. -/
def numberToString (q : ℚ) : String :=
  if q = 0 then "0"
  else
    let f := decimalScale q.den
    let le := Nat.digits 10 (q.num.natAbs * (10 ^ f / q.den))
    let z := (le.takeWhile (fun d => d == 0)).length
    let ds := ((le.dropWhile (fun d => d == 0)).reverse).map digitChar
    let k : Int := ds.length
    let n : Int := k + z - f
    let body : List Char :=
      if k ≤ n ∧ n ≤ 21 then ds ++ List.replicate (n - k).toNat '0'
      else if 0 < n ∧ n ≤ 21 then ds.take n.toNat ++ '.' :: ds.drop n.toNat
      else if -6 < n ∧ n ≤ 0 then '0' :: '.' :: (List.replicate (-n).toNat '0' ++ ds)
      else
        let expChars := (if n - 1 < 0 then '-' else '+') :: natToString (n - 1).natAbs
        if k = 1 then ds ++ 'e' :: expChars
        else ds.take 1 ++ '.' :: (ds.drop 1 ++ 'e' :: expChars)
    String.mk ((if q < 0 then ['-'] else []) ++ body)

/-- A character that is no white space, no comma and no double quote. -/
def plainChar (c : Char) : Bool := !isJsWhiteSpace c && c != ',' && c != '"'


/-! ## Arithmetic of the number model -/

@[simp] theorem JsNum.fin_add_fin (a b : ℚ) : JsNum.fin a + JsNum.fin b = JsNum.fin (a + b) := rfl

@[simp] theorem JsNum.fin_sub_fin (a b : ℚ) : JsNum.fin a - JsNum.fin b = JsNum.fin (a - b) := rfl

@[simp] theorem JsNum.fin_mul_fin (a b : ℚ) : JsNum.fin a * JsNum.fin b = JsNum.fin (a * b) := rfl

@[simp] theorem JsNum.fin_div_fin (a b : ℚ) :
    JsNum.fin a / JsNum.fin b = if b = 0 then JsNum.nan else JsNum.fin (a / b) := rfl

@[simp] theorem JsNum.le_fin (a b : ℚ) : (JsNum.fin a).le (JsNum.fin b) = decide (a ≤ b) := rfl

@[simp] theorem JsNum.lt_fin (a b : ℚ) : (JsNum.fin a).lt (JsNum.fin b) = decide (a < b) := rfl

@[simp] theorem JsNum.ge_fin (a b : ℚ) : (JsNum.fin a).ge (JsNum.fin b) = decide (b ≤ a) := rfl

@[simp] theorem JsNum.gt_fin (a b : ℚ) : (JsNum.fin a).gt (JsNum.fin b) = decide (b < a) := rfl

@[simp] theorem JsNum.strictEq_fin (a b : ℚ) :
    (JsNum.fin a).strictEq (JsNum.fin b) = decide (a = b) := rfl

@[simp] theorem JsNum.isNaN_fin (a : ℚ) : (JsNum.fin a).isNaN = false := rfl

@[simp] theorem JsNum.isNaN_nan : JsNum.nan.isNaN = true := rfl

@[simp] theorem JsNum.toRat_fin (a : ℚ) : (JsNum.fin a).toRat = a := rfl

@[simp] theorem JsNum.toRat_nan : JsNum.nan.toRat = 0 := rfl

/-- Reading `x || 0` gives the amount of `x`: a falsy number is `0` or `NaN`. -/
@[simp] theorem JsNum.orElse_zero (x : JsNum) : x.orElse (JsNum.fin 0) = JsNum.fin x.toRat := by
  cases x with
  | nan => rfl
  | fin q =>
    by_cases h : q = 0
    · simp [JsNum.orElse, JsNum.truthy, h]
    · simp [JsNum.orElse, JsNum.truthy, h]

/-- A `reduce` that adds `f r || 0` to a finite start value is the start value
plus the total amount. -/
theorem foldl_add_orElse (f : Row → JsNum) (rows : List Row) (a : ℚ) :
    rows.foldl (fun sum r => sum + (f r).orElse (JsNum.fin 0)) (JsNum.fin a)
      = JsNum.fin (a + (rows.map (fun r => (f r).toRat)).sum) := by
  induction rows generalizing a with
  | nil => simp
  | cons r rs ih =>
    simp only [List.foldl_cons, List.map_cons, List.sum_cons]
    rw [JsNum.orElse_zero, JsNum.fin_add_fin, ih, add_assoc]

/-- A `reduce` that adds up finite values is their sum. -/
theorem foldl_add_fin (qs : List ℚ) (a : ℚ) :
    (qs.map JsNum.fin).foldl (fun sum val => sum + val) (JsNum.fin a)
      = JsNum.fin (a + qs.sum) := by
  induction qs generalizing a with
  | nil => simp
  | cons q qs ih =>
    simp only [List.map_cons, List.foldl_cons, List.sum_cons]
    rw [JsNum.fin_add_fin, ih, add_assoc]

/-- The value of `gcr` in terms of the two totals over the charges. -/
theorem gcr_eq (c d o n : Option (List Row)) :
    (calculateKPIs c d o n).gcr =
      if ((safeArray c).map (fun r => r.Billed_Amount.toRat)).sum = 0 then JsNum.fin 0
      else JsNum.fin (((safeArray c).map (fun r => r.Paid_Amount.toRat)).sum /
        ((safeArray c).map (fun r => r.Billed_Amount.toRat)).sum * 100) := by
  simp only [calculateKPIs]
  rw [foldl_add_orElse (fun r => r.Billed_Amount), foldl_add_orElse (fun r => r.Paid_Amount)]
  by_cases h : ((safeArray c).map (fun r => r.Billed_Amount.toRat)).sum = 0
  · simp [h]
  · simp [h]

/-- The value of `ncr` in terms of the three totals over the NCR records. -/
theorem ncr_eq (c d o n : Option (List Row)) :
    (calculateKPIs c d o n).ncr =
      if 0 < ((safeArray n).map (fun r => r.Billed_Amount.toRat)).sum -
          ((safeArray n).map (fun r => r.Adjustment_Amount.toRat)).sum then
        JsNum.fin (((safeArray n).map (fun r => r.Paid_Amount.toRat)).sum /
          (((safeArray n).map (fun r => r.Billed_Amount.toRat)).sum -
            ((safeArray n).map (fun r => r.Adjustment_Amount.toRat)).sum) * 100)
      else JsNum.fin 0 := by
  simp only [calculateKPIs]
  rw [foldl_add_orElse (fun r => r.Billed_Amount), foldl_add_orElse (fun r => r.Paid_Amount),
    foldl_add_orElse (fun r => r.Adjustment_Amount)]
  by_cases h : 0 < ((safeArray n).map (fun r => r.Billed_Amount.toRat)).sum -
      ((safeArray n).map (fun r => r.Adjustment_Amount.toRat)).sum
  · have h2 := ne_of_gt h
    simp [h, h2]
  · simp [h]

/-- The value of `denialRate` and of `firstPassRate` in terms of counts. -/
theorem denial_rates_eq (c d o n : Option (List Row)) :
    (calculateKPIs c d o n).denialRate =
        (if 0 < (safeArray d).length then
          JsNum.fin (((safeArray d).countP isDeniedStatus : ℚ) / ((safeArray d).length : ℚ) * 100)
        else JsNum.fin 0) ∧
      (calculateKPIs c d o n).firstPassRate =
        (if 0 < (safeArray d).length then
          JsNum.fin (((safeArray d).countP (fun r => r.Is_First_Pass_Resolution) : ℚ) /
            ((safeArray d).length : ℚ) * 100)
        else JsNum.fin 0) := by
  simp only [calculateKPIs, JsNum.ofNat, List.countP_eq_length_filter]
  by_cases h : 0 < (safeArray d).length
  · have h2 : ((safeArray d).length : ℚ) ≠ 0 := by
      exact_mod_cast Nat.pos_iff_ne_zero.mp h
    simp [h, h2]
  · simp [h]

/-- The value of `cleanClaimRate`: the code reads each score through
`Number(x || 0)`, that is as its amount, and averages the amounts in
`[0, 100]`. -/
theorem cleanClaimRate_eq (c d o n : Option (List Row)) :
    (calculateKPIs c d o n).cleanClaimRate =
      if 0 < (((safeArray c).map (fun r => r.Is_Clean_Claim.toRat)).filter
          (fun q => decide (0 ≤ q) && decide (q ≤ 100))).length then
        JsNum.fin ((((safeArray c).map (fun r => r.Is_Clean_Claim.toRat)).filter
            (fun q => decide (0 ≤ q) && decide (q ≤ 100))).sum /
          ((((safeArray c).map (fun r => r.Is_Clean_Claim.toRat)).filter
            (fun q => decide (0 ≤ q) && decide (q ≤ 100))).length : ℚ))
      else JsNum.fin 0 := by
  have hmap : (safeArray c).map (fun r => r.Is_Clean_Claim.orElse (JsNum.fin 0))
      = ((safeArray c).map (fun r => r.Is_Clean_Claim.toRat)).map JsNum.fin := by
    simp [List.map_map, Function.comp_def]
  have hfilter : ∀ qs : List ℚ,
      (qs.map JsNum.fin).filter
          (fun val => !val.isNaN && val.ge (JsNum.fin 0) && val.le (JsNum.fin 100))
        = (qs.filter (fun q => decide (0 ≤ q) && decide (q ≤ 100))).map JsNum.fin := by
    intro qs
    induction qs with
    | nil => rfl
    | cons q qs ih =>
      by_cases hq : 0 ≤ q ∧ q ≤ 100
      · simp [List.filter_cons, hq.1, hq.2, ih]
      · have : ¬ (0 ≤ q ∧ q ≤ 100) := hq
        simp only [List.map_cons, List.filter_cons, JsNum.isNaN_fin, JsNum.ge_fin, JsNum.le_fin,
          Bool.not_false, Bool.true_and, ih]
        simp [this]
  simp only [calculateKPIs]
  rw [hmap, hfilter, foldl_add_fin, List.length_map]
  by_cases h : 0 < (((safeArray c).map (fun r => r.Is_Clean_Claim.toRat)).filter
      (fun q => decide (0 ≤ q) && decide (q ≤ 100))).length
  · have h2 : ((((safeArray c).map (fun r => r.Is_Clean_Claim.toRat)).filter
        (fun q => decide (0 ≤ q) && decide (q ≤ 100))).length : ℚ) ≠ 0 := by
      exact_mod_cast Nat.pos_iff_ne_zero.mp h
    simp [h, h2, JsNum.ofNat]
  · simp [h]

/-! ## Claims on `calculateKPIs` -/

/-- C1, at the input where the code departs from it: a single charge
with `Billed_Amount = -100` and `Paid_Amount = 50` has a summed billed
amount that is not greater than 0, yet `calculateKPIs` returns
`gcr = 50 / -100 * 100 = -50` and not 0, because the guard is
`totalBilled === 0` and not `totalBilled > 0`. -/
theorem gcr_negative_billed_total :
    ¬ (0 < ([({ Billed_Amount := JsNum.fin (-100), Paid_Amount := JsNum.fin 50 } : Row)].map
        (fun r => r.Billed_Amount.toRat)).sum) ∧
      (calculateKPIs
        (some [{ Billed_Amount := JsNum.fin (-100), Paid_Amount := JsNum.fin 50 }])
        none none none).gcr = JsNum.fin (-50) ∧
      (calculateKPIs
        (some [{ Billed_Amount := JsNum.fin (-100), Paid_Amount := JsNum.fin 50 }])
        none none none).gcr ≠ JsNum.fin 0 := by
  refine ⟨by norm_num, ?_, ?_⟩
  · rw [gcr_eq]
    simp [safeArray]
    norm_num
  · rw [gcr_eq]
    simp [safeArray]

theorem roundHalfEven_near (x : ℚ) (m : Int) (h : |x - (m : ℚ)| < 1 / 2) :
    roundHalfEven x = m := by
  have h1 := abs_lt.1 h
  have hf1 : ((Int.floor x : Int) : ℚ) ≤ x := Int.floor_le x
  have hf2 : x < ((Int.floor x : Int) : ℚ) + 1 := Int.lt_floor_add_one x
  have hle : Int.floor x ≤ m := by
    have : ((Int.floor x : Int) : ℚ) < (m : ℚ) + 1 := by linarith [h1.2]
    have : Int.floor x < m + 1 := by exact_mod_cast this
    omega
  have hge : m - 1 ≤ Int.floor x := by
    have : ((m : ℚ) - 1) - 1 < ((Int.floor x : Int) : ℚ) := by linarith [h1.1]
    have : (m - 1) - 1 < Int.floor x := by exact_mod_cast this
    omega
  rcases (by omega : Int.floor x = m ∨ Int.floor x = m - 1) with hfl | hfl
  · unfold roundHalfEven
    simp only [hfl]
    rw [if_pos (by linarith [h1.2])]
  · unfold roundHalfEven
    simp only [hfl]
    have hr : ¬ (x - ((m - 1 : Int) : ℚ) < 1 / 2) := by
      push_cast
      linarith [h1.1]
    have hr2 : 1 / 2 < x - ((m - 1 : Int) : ℚ) := by
      push_cast
      linarith [h1.1]
    rw [if_neg hr, if_pos hr2]
    omega

theorem roundHalfEven_tie (x : ℚ) (m : Int) (hm : m % 2 = 0)
    (hx : x = (m : ℚ) - 1 / 2 ∨ x = (m : ℚ) + 1 / 2) : roundHalfEven x = m := by
  rcases hx with hx | hx
  · have hfl : Int.floor x = m - 1 := by
      rw [Int.floor_eq_iff]
      push_cast
      constructor <;> linarith
    unfold roundHalfEven
    simp only [hfl]
    have hr : x - ((m - 1 : Int) : ℚ) = 1 / 2 := by
      push_cast
      linarith
    rw [hr, if_neg (lt_irrefl _), if_neg (lt_irrefl _)]
    have : ¬ ((m - 1) % 2 = 0) := by omega
    rw [if_neg this]
    omega
  · have hfl : Int.floor x = m := by
      rw [Int.floor_eq_iff]
      constructor <;> linarith
    unfold roundHalfEven
    simp only [hfl]
    have hr : x - (m : ℚ) = 1 / 2 := by linarith
    rw [hr, if_neg (lt_irrefl _), if_neg (lt_irrefl _), if_pos hm]

theorem int_log_two_eq (q : ℚ) (E : Int) (h1 : (2 : ℚ) ^ E ≤ q) (h2 : q < (2 : ℚ) ^ (E + 1)) :
    Int.log 2 q = E := by
  have hq : 0 < q := lt_of_lt_of_le (by positivity) h1
  have a1 : E ≤ Int.log 2 q := by
    rw [← Int.zpow_le_iff_le_log (by norm_num) hq]
    exact_mod_cast h1
  have a2 : Int.log 2 q < E + 1 := by
    rw [← Int.lt_zpow_iff_log_lt (by norm_num) hq]
    exact_mod_cast h2
  omega

/-- The double nearest to `q`, from the power of two `E` with
`2 ^ E ≤ |q| < 2 ^ (E + 1)` and the rounded significand `m`. -/
theorem fl64_eq (q : ℚ) (E m : Int) (h1 : (2 : ℚ) ^ E ≤ |q|) (h2 : |q| < (2 : ℚ) ^ (E + 1))
    (hE : -1022 ≤ E) (hm : roundHalfEven (q / (2 : ℚ) ^ (E - 52)) = m) :
    fl64 q = (m : ℚ) * (2 : ℚ) ^ (E - 52) := by
  have hq : q ≠ 0 := by
    intro h
    rw [h, abs_zero] at h1
    exact absurd h1 (not_le.2 (by positivity))
  unfold fl64
  rw [if_neg hq]
  simp only [int_log_two_eq |q| E h1 h2, max_eq_left hE, hm]

/-- A value that is a double is its own rounding. -/
theorem fl64_exact (q : ℚ) (E m : Int) (h1 : (2 : ℚ) ^ E ≤ |q|) (h2 : |q| < (2 : ℚ) ^ (E + 1))
    (hE : -1022 ≤ E) (hm : q = (m : ℚ) * (2 : ℚ) ^ (E - 52)) : fl64 q = q := by
  have hp : (2 : ℚ) ^ (E - 52) ≠ 0 := by positivity
  have hr : roundHalfEven (q / (2 : ℚ) ^ (E - 52)) = m := by
    apply roundHalfEven_near
    rw [hm, mul_div_assoc, div_self hp, mul_one, sub_self, abs_zero]
    norm_num
  rw [fl64_eq q E m h1 h2 hE hr, hm]

theorem fl64_zero : fl64 0 = 0 := by simp [fl64]

@[simp] theorem JsNum.rnd_fin (fl : ℚ → ℚ) (q : ℚ) :
    (JsNum.fin q).rnd fl = JsNum.fin (fl q) := rfl

@[simp] theorem JsNum.rnd_nan (fl : ℚ → ℚ) : JsNum.nan.rnd fl = JsNum.nan := rfl

/-- A `reduce` that adds up a field with `|| 0`, every addition rounded, is
the rounded running total of the amounts of the field. -/
theorem foldl_add_orElse_fl (fl : ℚ → ℚ) (f : Row → JsNum) (rows : List Row) (a : ℚ) :
    rows.foldl (fun sum r => (sum + (f r).orElse (JsNum.fin 0)).rnd fl) (JsNum.fin a)
      = JsNum.fin ((rows.map (fun r => (f r).toRat)).foldl (fun a q => fl (a + q)) a) := by
  induction rows generalizing a with
  | nil => simp
  | cons r rs ih =>
    simp only [List.foldl_cons, List.map_cons]
    rw [JsNum.orElse_zero, JsNum.fin_add_fin, JsNum.rnd_fin, ih]

/-- The value of `ncr` under a rounding `fl`, in terms of the three rounded
running totals over the NCR records. -/
theorem ncr_eq_fl (fl : ℚ → ℚ) (c d o n : Option (List Row)) :
    (calculateKPIsFl fl c d o n).ncr =
      if 0 < fl (flSum fl ((safeArray n).map (fun r => r.Billed_Amount.toRat)) -
          flSum fl ((safeArray n).map (fun r => r.Adjustment_Amount.toRat))) then
        JsNum.fin (fl (fl (flSum fl ((safeArray n).map (fun r => r.Paid_Amount.toRat)) /
          fl (flSum fl ((safeArray n).map (fun r => r.Billed_Amount.toRat)) -
            flSum fl ((safeArray n).map (fun r => r.Adjustment_Amount.toRat)))) * 100))
      else JsNum.fin 0 := by
  simp only [calculateKPIsFl, flSum]
  rw [foldl_add_orElse_fl fl (fun r => r.Billed_Amount),
    foldl_add_orElse_fl fl (fun r => r.Paid_Amount),
    foldl_add_orElse_fl fl (fun r => r.Adjustment_Amount)]
  simp only [JsNum.fin_sub_fin, JsNum.rnd_fin, JsNum.gt_fin, decide_eq_true_eq]
  split
  · rename_i h
    simp [ne_of_gt h]
  · rfl

/-- The value of `gcr` under a rounding `fl`, in terms of the two rounded
running totals over the charges. -/
theorem gcr_eq_fl (fl : ℚ → ℚ) (c d o n : Option (List Row)) :
    (calculateKPIsFl fl c d o n).gcr =
      if flSum fl ((safeArray c).map (fun r => r.Billed_Amount.toRat)) = 0 then JsNum.fin 0
      else JsNum.fin (fl (fl (flSum fl ((safeArray c).map (fun r => r.Paid_Amount.toRat)) /
        flSum fl ((safeArray c).map (fun r => r.Billed_Amount.toRat))) * 100)) := by
  simp only [calculateKPIsFl, flSum]
  rw [foldl_add_orElse_fl fl (fun r => r.Billed_Amount),
    foldl_add_orElse_fl fl (fun r => r.Paid_Amount)]
  simp only [JsNum.strictEq_fin, decide_eq_true_eq]
  split
  · rfl
  · rename_i h
    simp [h]

/-- With the identity as rounding, `calculateKPIsFl` is `calculateKPIs`. -/
theorem calculateKPIsFl_id (c d o n : Option (List Row)) :
    calculateKPIsFl id c d o n = calculateKPIs c d o n := by
  have hr : ∀ x : JsNum, x.rnd id = x := by
    intro x
    cases x <;> rfl
  simp only [calculateKPIsFl, calculateKPIs, hr]

/-- C2: zero-denominator safety of `calculateKPIs`, for every rounding `fl`
of the arithmetic of the numbers (the doubles of JavaScript, `fl64`,
included), the totals being the running totals the code computes, rounded at
every addition.  If the total billed amount of the charges is 0 then
`gcr = 0`; if the net billed amount of the NCR collection (total billed
minus total adjustments) is at most 0 then `ncr = 0`; if there is no denial
row then `denialRate = 0` and `firstPassRate = 0`. -/
theorem zero_denominator_safety (fl : ℚ → ℚ) (c d o n : Option (List Row)) :
    (flSum fl ((safeArray c).map (fun r => r.Billed_Amount.toRat)) = 0 →
        (calculateKPIsFl fl c d o n).gcr = JsNum.fin 0) ∧
      (fl (flSum fl ((safeArray n).map (fun r => r.Billed_Amount.toRat)) -
          flSum fl ((safeArray n).map (fun r => r.Adjustment_Amount.toRat))) ≤ 0 →
        (calculateKPIsFl fl c d o n).ncr = JsNum.fin 0) ∧
      ((safeArray d).length = 0 →
        (calculateKPIsFl fl c d o n).denialRate = JsNum.fin 0 ∧
          (calculateKPIsFl fl c d o n).firstPassRate = JsNum.fin 0) := by
  refine ⟨?_, ?_, ?_⟩
  · intro h
    rw [gcr_eq_fl, if_pos h]
  · intro h
    rw [ncr_eq_fl, if_neg (not_lt.mpr h)]
  · intro h
    simp [calculateKPIsFl, h]

/-- C3: for every NCR record collection and every rounding `fl` of the
arithmetic of the numbers (the doubles of JavaScript, `fl64`, included),
`ncr` is `(sum of Paid_Amount / netBilled) * 100` when `netBilled > 0` and 0
otherwise, where `netBilled` is the sum of the NCR records' `Billed_Amount`
minus the sum of their `Adjustment_Amount`; the sums are the running totals
of the code, rounded at every addition (an amount that is `NaN` adds
nothing), and the difference, the quotient and the product are rounded as
well. -/
theorem ncr_formula (fl : ℚ → ℚ) (c d o : Option (List Row)) (ncrRows : List Row) :
    (calculateKPIsFl fl c d o (some ncrRows)).ncr =
      if 0 < fl (flSum fl (ncrRows.map (fun r => r.Billed_Amount.toRat)) -
          flSum fl (ncrRows.map (fun r => r.Adjustment_Amount.toRat))) then
        JsNum.fin (fl (fl (flSum fl (ncrRows.map (fun r => r.Paid_Amount.toRat)) /
          fl (flSum fl (ncrRows.map (fun r => r.Billed_Amount.toRat)) -
            flSum fl (ncrRows.map (fun r => r.Adjustment_Amount.toRat)))) * 100))
      else JsNum.fin 0 :=
  ncr_eq_fl fl c d o (some ncrRows)

/-- The doubles of the example of C2 are their own roundings. -/
theorem fl64_small_values :
    fl64 100 = 100 ∧ fl64 150 = 150 ∧ fl64 (-50) = -50 := by
  refine ⟨?_, ?_, ?_⟩
  · apply fl64_exact 100 6 (100 * 2 ^ 46) <;> norm_num
  · apply fl64_exact 150 7 (150 * 2 ^ 45) <;> norm_num
  · apply fl64_exact (-50) 5 (-(50 * 2 ^ 47)) <;> norm_num

/-- C2 at a concrete input, in the arithmetic of the doubles: charges
billing 0 in total, an NCR collection whose adjustments exceed the billed
amount, and no denial row. -/
theorem zero_denominator_safety_witness :
    (calculateKPIsFl fl64 (some [{ Billed_Amount := JsNum.fin 0, Paid_Amount := JsNum.fin 5 }])
        (some []) none
        (some [{ Billed_Amount := JsNum.fin 100, Adjustment_Amount := JsNum.fin 150,
                 Paid_Amount := JsNum.fin 10 }])).gcr = JsNum.fin 0 ∧
      (calculateKPIsFl fl64 (some [{ Billed_Amount := JsNum.fin 0, Paid_Amount := JsNum.fin 5 }])
        (some []) none
        (some [{ Billed_Amount := JsNum.fin 100, Adjustment_Amount := JsNum.fin 150,
                 Paid_Amount := JsNum.fin 10 }])).ncr = JsNum.fin 0 ∧
      (calculateKPIsFl fl64 (some [{ Billed_Amount := JsNum.fin 0, Paid_Amount := JsNum.fin 5 }])
        (some []) none
        (some [{ Billed_Amount := JsNum.fin 100, Adjustment_Amount := JsNum.fin 150,
                 Paid_Amount := JsNum.fin 10 }])).denialRate = JsNum.fin 0 ∧
      (calculateKPIsFl fl64 (some [{ Billed_Amount := JsNum.fin 0, Paid_Amount := JsNum.fin 5 }])
        (some []) none
        (some [{ Billed_Amount := JsNum.fin 100, Adjustment_Amount := JsNum.fin 150,
                 Paid_Amount := JsNum.fin 10 }])).firstPassRate = JsNum.fin 0 :=
  ⟨(zero_denominator_safety fl64 _ _ _ _).1 (by simp [safeArray, flSum, fl64_zero]),
   (zero_denominator_safety fl64 _ _ _ _).2.1 (by
     obtain ⟨h1, h2, h3⟩ := fl64_small_values
     have h4 : (100 : ℚ) - 150 = -50 := by norm_num
     simp [safeArray, flSum, h1, h2, h4, h3]),
   (zero_denominator_safety fl64 _ _ _ _).2.2 (by simp [safeArray])⟩

theorem flSum_two (fl : ℚ → ℚ) (a b : ℚ) : flSum fl [a, b] = fl (fl (0 + a) + b) := rfl

theorem flSum_three (fl : ℚ → ℚ) (a b c : ℚ) :
    flSum fl [a, b, c] = fl (fl (fl (0 + a) + b) + c) := rfl

/-- The roundings of the sums of the doubles nearest to 0.1, 0.2 and 0.3:
`0.1 + 0.2` is rounded up, at a tie, to the double above the one nearest to
0.3, and the difference of the two is `2 ^ (-54)`. -/
theorem fl64_tenths :
    fl64 (3602879701896397 / 36028797018963968) = 3602879701896397 / 36028797018963968 ∧
      fl64 (3602879701896397 / 36028797018963968 + 3602879701896397 / 18014398509481984)
        = 5404319552844596 / 18014398509481984 ∧
      fl64 (5404319552844595 / 18014398509481984) = 5404319552844595 / 18014398509481984 ∧
      fl64 (5404319552844596 / 18014398509481984 - 5404319552844595 / 18014398509481984)
        = 1 / 18014398509481984 ∧
      fl64 (5404319552844596 / 18014398509481984 + -(5404319552844595 / 18014398509481984))
        = 1 / 18014398509481984 := by
  refine ⟨?_, ?_, ?_, ?_, ?_⟩
  · apply fl64_exact _ (-4) 7205759403792794 <;> norm_num [abs_div]
  · rw [fl64_eq _ (-2) 5404319552844596 (by norm_num [abs_div]) (by norm_num [abs_div])
      (by norm_num) (roundHalfEven_tie _ _ (by norm_num) (Or.inl (by norm_num)))]
    norm_num
  · apply fl64_exact _ (-2) 5404319552844595 <;> norm_num [abs_div]
  · have h : (5404319552844596 : ℚ) / 18014398509481984 - 5404319552844595 / 18014398509481984
        = 1 / 18014398509481984 := by norm_num
    rw [h]
    apply fl64_exact _ (-54) (2 ^ 52) <;> norm_num [abs_div]
  · have h : (5404319552844596 : ℚ) / 18014398509481984
        + -(5404319552844595 / 18014398509481984) = 1 / 18014398509481984 := by norm_num
    rw [h]
    apply fl64_exact _ (-54) (2 ^ 52) <;> norm_num [abs_div]

/-- The roundings of the quotients and products of the two examples. -/
theorem fl64_large_values :
    fl64 2 = 2 ∧ fl64 15 = 15 ∧
      fl64 (2 / (1 / 18014398509481984)) = 36028797018963968 ∧
      fl64 (36028797018963968 * 100) = 3602879701896396800 ∧
      fl64 (15 / (1 / 18014398509481984)) = 270215977642229760 ∧
      fl64 (270215977642229760 * 100) = 27021597764222976000 := by
  refine ⟨?_, ?_, ?_, ?_, ?_, ?_⟩
  · apply fl64_exact 2 1 (2 ^ 52) <;> norm_num
  · apply fl64_exact 15 3 (15 * 2 ^ 49) <;> norm_num
  · have h : (2 : ℚ) / (1 / 18014398509481984) = 36028797018963968 := by norm_num
    rw [h]
    apply fl64_exact _ 55 (2 ^ 52) <;> norm_num
  · have h : (36028797018963968 : ℚ) * 100 = 3602879701896396800 := by norm_num
    rw [h]
    apply fl64_exact _ 61 (100 * 2 ^ 46) <;> norm_num
  · have h : (15 : ℚ) / (1 / 18014398509481984) = 270215977642229760 := by norm_num
    rw [h]
    apply fl64_exact _ 57 (15 * 2 ^ 49) <;> norm_num
  · have h : (270215977642229760 : ℚ) * 100 = 27021597764222976000 := by norm_num
    rw [h]
    apply fl64_exact _ 64 (1500 * 2 ^ 42) <;> norm_num

/-- C3 in the arithmetic of the doubles, at NCR records billing 0.1 and 0.2
with an adjustment of 0.3 and a payment of 2 (the amounts being the doubles
nearest to these decimals): the rounded total billed exceeds the adjustment
by `2 ^ (-54)`, so `netBilled > 0` and `ncr` is `2 / 2 ^ (-54) * 100`, about
3.6e18, where exact sums would give a net amount of 0. -/
theorem ncr_formula_witness :
    (calculateKPIsFl fl64 none none none
      (some [{ Billed_Amount := JsNum.fin (3602879701896397 / 36028797018963968),
               Paid_Amount := JsNum.fin 2 },
             { Billed_Amount := JsNum.fin (3602879701896397 / 18014398509481984),
               Adjustment_Amount := JsNum.fin (5404319552844595 / 18014398509481984) }])).ncr
      = JsNum.fin 3602879701896396800 := by
  obtain ⟨t1, t2, t3, t4, -⟩ := fl64_tenths
  obtain ⟨l1, -, l3, l4, -, -⟩ := fl64_large_values
  rw [ncr_formula]
  have hB : flSum fl64 [3602879701896397 / 36028797018963968,
      3602879701896397 / 18014398509481984] = 5404319552844596 / 18014398509481984 := by
    rw [flSum_two, zero_add, t1, t2]
  have hA : flSum fl64 [0, 5404319552844595 / 18014398509481984]
      = 5404319552844595 / 18014398509481984 := by
    rw [flSum_two, zero_add, fl64_zero, zero_add, t3]
  have hP : flSum fl64 [2, 0] = 2 := by
    rw [flSum_two, zero_add, l1, add_zero, l1]
  have e1 : List.map (fun r : Row => r.Billed_Amount.toRat)
      [{ Billed_Amount := JsNum.fin (3602879701896397 / 36028797018963968),
         Paid_Amount := JsNum.fin 2 },
       { Billed_Amount := JsNum.fin (3602879701896397 / 18014398509481984),
         Adjustment_Amount := JsNum.fin (5404319552844595 / 18014398509481984) }]
      = [3602879701896397 / 36028797018963968, 3602879701896397 / 18014398509481984] := rfl
  have e2 : List.map (fun r : Row => r.Adjustment_Amount.toRat)
      [{ Billed_Amount := JsNum.fin (3602879701896397 / 36028797018963968),
         Paid_Amount := JsNum.fin 2 },
       { Billed_Amount := JsNum.fin (3602879701896397 / 18014398509481984),
         Adjustment_Amount := JsNum.fin (5404319552844595 / 18014398509481984) }]
      = [0, 5404319552844595 / 18014398509481984] := rfl
  have e3 : List.map (fun r : Row => r.Paid_Amount.toRat)
      [{ Billed_Amount := JsNum.fin (3602879701896397 / 36028797018963968),
         Paid_Amount := JsNum.fin 2 },
       { Billed_Amount := JsNum.fin (3602879701896397 / 18014398509481984),
         Adjustment_Amount := JsNum.fin (5404319552844595 / 18014398509481984) }]
      = [2, 0] := rfl
  have hpos : (0 : ℚ) < 1 / 18014398509481984 := by norm_num
  rw [e1, e2, e3, hB, hA, hP, t4, if_pos hpos, l3, l4]

/-- The guard of `gcr` in the arithmetic of the doubles, at charges billing
0.1, 0.2 and -0.3 with a payment of 15: the rounded total billed is
`2 ^ (-54)`, not 0, so the guard `totalBilled === 0` does not apply and
`gcr` is `15 / 2 ^ (-54) * 100`, about 2.7e19. -/
theorem gcr_of_rounded_total :
    (calculateKPIsFl fl64
      (some [{ Billed_Amount := JsNum.fin (3602879701896397 / 36028797018963968),
               Paid_Amount := JsNum.fin 15 },
             { Billed_Amount := JsNum.fin (3602879701896397 / 18014398509481984) },
             { Billed_Amount := JsNum.fin (-(5404319552844595 / 18014398509481984)) }])
      none none none).gcr = JsNum.fin 27021597764222976000 := by
  obtain ⟨t1, t2, -, -, t5⟩ := fl64_tenths
  obtain ⟨-, l2, -, -, l5, l6⟩ := fl64_large_values
  rw [gcr_eq_fl]
  have hB : flSum fl64 [3602879701896397 / 36028797018963968,
      3602879701896397 / 18014398509481984, -(5404319552844595 / 18014398509481984)]
      = 1 / 18014398509481984 := by
    rw [flSum_three, zero_add, t1, t2, t5]
  have hP : flSum fl64 [15, 0, 0] = 15 := by
    rw [flSum_three, zero_add, l2, add_zero, add_zero, l2, l2]
  have e1 : (safeArray (some
      [({ Billed_Amount := JsNum.fin (3602879701896397 / 36028797018963968),
          Paid_Amount := JsNum.fin 15 } : Row),
       { Billed_Amount := JsNum.fin (3602879701896397 / 18014398509481984) },
       { Billed_Amount := JsNum.fin (-(5404319552844595 / 18014398509481984)) }])).map
      (fun r => r.Billed_Amount.toRat)
      = [3602879701896397 / 36028797018963968, 3602879701896397 / 18014398509481984,
         -(5404319552844595 / 18014398509481984)] := rfl
  have e2 : (safeArray (some
      [({ Billed_Amount := JsNum.fin (3602879701896397 / 36028797018963968),
          Paid_Amount := JsNum.fin 15 } : Row),
       { Billed_Amount := JsNum.fin (3602879701896397 / 18014398509481984) },
       { Billed_Amount := JsNum.fin (-(5404319552844595 / 18014398509481984)) }])).map
      (fun r => r.Paid_Amount.toRat) = [15, 0, 0] := rfl
  have hne : ¬ ((1 : ℚ) / 18014398509481984 = 0) := by norm_num
  rw [e1, e2, hB, hP, if_neg hne, l5, l6]

/-- C4: `ncr` depends on the NCR record collection only: two calls of
`calculateKPIs` that differ in their charges alone return the same `ncr`. -/
theorem ncr_independent_of_charges (c1 c2 d o n : Option (List Row)) :
    (calculateKPIs c1 d o n).ncr = (calculateKPIs c2 d o n).ncr := rfl

/-- C5: for every list of denial rows, `denialRate` is
`deniedCount / rows * 100` when there is at least one row and 0 otherwise,
`deniedCount` being the number of rows whose `Claim_Status`, lower-cased and
trimmed, equals `"denied"`.  Four rows of which two read "Denied" in some
case and with some blanks around give 50. -/
theorem denialRate_formula (c o n : Option (List Row)) (denials : List Row) :
    (calculateKPIs c (some denials) o n).denialRate =
        (if 0 < denials.length then
          JsNum.fin ((denials.countP
              (fun r => trim (toLowerCase (orEmpty r.Claim_Status)) == "denied") : ℚ) /
            (denials.length : ℚ) * 100)
        else JsNum.fin 0) ∧
      (calculateKPIs c
        (some [{ Claim_Status := some "Denied" }, { Claim_Status := some " \tDENIED \n" },
               { Claim_Status := some "Paid" }, { Claim_Status := some "Not denied" }])
        o n).denialRate = JsNum.fin 50 := by
  refine ⟨(denial_rates_eq c (some denials) o n).1, ?_⟩
  rw [(denial_rates_eq c _ o n).1]
  have hcount : ([{ Claim_Status := some "Denied" }, { Claim_Status := some " \tDENIED \n" },
      { Claim_Status := some "Paid" }, { Claim_Status := some "Not denied" }] : List Row).countP
      isDeniedStatus = 2 := by decide
  simp only [safeArray, hcount]
  norm_num

/-- C6 as stated fails: of the two scores `NaN` and 50 only 50 lies in
`[0, 100]`, so the stated mean is 50, but `calculateKPIs` reads the `NaN`
score through `Number(x || 0)` as 0, keeps it, and returns 25. -/
theorem cleanClaimRate_nan_counts_as_zero :
    ([JsNum.nan, JsNum.fin 50].filter
        (fun v => v.ge (JsNum.fin 0) && v.le (JsNum.fin 100)) = [JsNum.fin 50]) ∧
      (calculateKPIs (some [{ Is_Clean_Claim := JsNum.nan }, { Is_Clean_Claim := JsNum.fin 50 }])
        none none none).cleanClaimRate = JsNum.fin 25 ∧
      (calculateKPIs (some [{ Is_Clean_Claim := JsNum.nan }, { Is_Clean_Claim := JsNum.fin 50 }])
        none none none).cleanClaimRate ≠ JsNum.fin 50 := by
  have h : (calculateKPIs
      (some [{ Is_Clean_Claim := JsNum.nan }, { Is_Clean_Claim := JsNum.fin 50 }])
      none none none).cleanClaimRate = JsNum.fin 25 := by
    rw [cleanClaimRate_eq]
    simp [safeArray]
    norm_num
  refine ⟨?_, h, ?_⟩
  · have h100 : (50 : ℚ) ≤ 100 := by norm_num
    simp [List.filter_cons, JsNum.ge, JsNum.le, h100]
  · rw [h]
    intro h2
    injection h2 with h3
    norm_num at h3

/-- C6, amended: for every list of charge records, `cleanClaimRate` is the
arithmetic mean of exactly those `Is_Clean_Claim` values, a `NaN` value
being read as 0, that lie in `[0, 100]`, and 0 when no value qualifies; a
value outside `[0, 100]` is left out of the mean and not clamped: the scores
50 and 150 give 50. -/
theorem cleanClaimRate_formula (d o n : Option (List Row)) (charges : List Row) :
    (calculateKPIs (some charges) d o n).cleanClaimRate =
        (if 0 < ((charges.map (fun r => r.Is_Clean_Claim.toRat)).filter
            (fun q => decide (0 ≤ q) && decide (q ≤ 100))).length then
          JsNum.fin (((charges.map (fun r => r.Is_Clean_Claim.toRat)).filter
              (fun q => decide (0 ≤ q) && decide (q ≤ 100))).sum /
            (((charges.map (fun r => r.Is_Clean_Claim.toRat)).filter
              (fun q => decide (0 ≤ q) && decide (q ≤ 100))).length : ℚ))
        else JsNum.fin 0) ∧
      (calculateKPIs (some [{ Is_Clean_Claim := JsNum.fin 50 }, { Is_Clean_Claim := JsNum.fin 150 }])
        d o n).cleanClaimRate = JsNum.fin 50 := by
  refine ⟨cleanClaimRate_eq (some charges) d o n, ?_⟩
  rw [cleanClaimRate_eq]
  simp [safeArray]
  norm_num

/-! ## Claims on the period and the partition -/

/-- Rounding a whole number with `Math.round` gives that number. -/
theorem floor_int_add_half (m : Int) : Int.floor ((m : ℚ) + 1 / 2) = m := by
  rw [Int.floor_int_add]
  have h : Int.floor ((1 : ℚ) / 2) = 0 := by
    rw [Int.floor_eq_iff]
    constructor <;> norm_num
  rw [h, add_zero]

/-- Adding a whole number of days. -/
theorem addDays_int (t m : Int) :
    (Dayjs.ms t).addDays (JsNum.fin (m : ℚ)) = Dayjs.ms (t + m * MILLISECONDS_A_DAY) := by
  simp only [Dayjs.addDays, floor_int_add_half]

/-- Subtracting a whole number of days. -/
theorem subtractDays_int (t m : Int) :
    (Dayjs.ms t).subtractDays (JsNum.fin (m : ℚ)) = Dayjs.ms (t - m * MILLISECONDS_A_DAY) := by
  have h : (m : ℚ) * (-1) = ((-m : Int) : ℚ) := by push_cast; ring
  simp only [Dayjs.subtractDays, JsNum.fin_mul_fin, h, addDays_int]
  congr 1
  ring

/-- The period computed from two valid dates with `start <= end`: the
duration is the truncated day difference plus one, the previous window ends
one day before `start` and starts `duration - 1` days earlier. -/
theorem resolvePeriod_valid (s e : Int) (h : s ≤ e) :
    resolvePeriod (Dayjs.ms s) (Dayjs.ms e) =
      { startTs := JsNum.fin (s : ℚ), endTs := JsNum.fin (e : ℚ),
        durationDays := JsNum.fin (((Int.tdiv (e - s) MILLISECONDS_A_DAY + 1 : Int)) : ℚ),
        prevStartObj := Dayjs.ms (s - MILLISECONDS_A_DAY -
          Int.tdiv (e - s) MILLISECONDS_A_DAY * MILLISECONDS_A_DAY),
        prevEndObj := Dayjs.ms (s - MILLISECONDS_A_DAY),
        prevStartTs := JsNum.fin ((s - MILLISECONDS_A_DAY -
          Int.tdiv (e - s) MILLISECONDS_A_DAY * MILLISECONDS_A_DAY : Int) : ℚ),
        prevEndTs := JsNum.fin ((s - MILLISECONDS_A_DAY : Int) : ℚ) } := by
  have hk : 0 ≤ Int.tdiv (e - s) MILLISECONDS_A_DAY :=
    Int.tdiv_nonneg (by omega) (by decide)
  generalize hkdef : Int.tdiv (e - s) MILLISECONDS_A_DAY = k at hk
  have hdiff : (Dayjs.ms e).diffDays (Dayjs.ms s) + JsNum.fin 1 = JsNum.fin ((k + 1 : Int) : ℚ) := by
    simp only [Dayjs.diffDays, hkdef, JsNum.fin_add_fin]
    push_cast
    rfl
  have hdur : (if (JsNum.fin ((k + 1 : Int) : ℚ)).le (JsNum.fin 1) then JsNum.fin 1
      else JsNum.fin ((k + 1 : Int) : ℚ)) = JsNum.fin ((k + 1 : Int) : ℚ) := by
    by_cases h0 : k = 0
    · subst h0
      simp
    · have : ¬ ((k : ℚ) + 1 ≤ 1) := by
        intro hle
        have : (k : ℚ) ≤ 0 := by linarith
        have : k ≤ 0 := by exact_mod_cast this
        omega
      simp [this]
  have hsub1 : (JsNum.fin ((k + 1 : Int) : ℚ)) - JsNum.fin 1 = JsNum.fin (k : ℚ) := by
    simp
  have hone : (JsNum.fin 1) = JsNum.fin ((1 : Int) : ℚ) := by simp
  simp only [resolvePeriod, hdiff, hdur, hsub1, Dayjs.clone]
  rw [hone, subtractDays_int, subtractDays_int]
  simp [Dayjs.isValid, Dayjs.valueOf]

/-- C7: period symmetry.  For two valid dates with `start <= end` the
previous window ends one day before `start`, and its inclusive day count
(`prevEnd.diff(prevStart, 'day') + 1`) equals the inclusive day count of the
current window (`end.diff(start, 'day') + 1`), a whole number of at least
one day.  When `start` and `end` are a whole number of days apart, as two
calendar dates are, the two windows have the same length in milliseconds as
well. -/
theorem period_symmetry (s e : Int) (h : s ≤ e) :
    (resolvePeriod (Dayjs.ms s) (Dayjs.ms e)).prevEndObj
        = (Dayjs.ms s).subtractDays (JsNum.fin 1) ∧
      (resolvePeriod (Dayjs.ms s) (Dayjs.ms e)).prevEndObj
        = Dayjs.ms (s - MILLISECONDS_A_DAY) ∧
      (resolvePeriod (Dayjs.ms s) (Dayjs.ms e)).prevEndObj.diffDays
          (resolvePeriod (Dayjs.ms s) (Dayjs.ms e)).prevStartObj + JsNum.fin 1
        = (Dayjs.ms e).diffDays (Dayjs.ms s) + JsNum.fin 1 ∧
      (∃ n : Int, 1 ≤ n ∧ (Dayjs.ms e).diffDays (Dayjs.ms s) + JsNum.fin 1 = JsNum.fin (n : ℚ)) ∧
      (MILLISECONDS_A_DAY ∣ e - s →
        (resolvePeriod (Dayjs.ms s) (Dayjs.ms e)).prevEndTs
            - (resolvePeriod (Dayjs.ms s) (Dayjs.ms e)).prevStartTs
            + JsNum.fin (MILLISECONDS_A_DAY : ℚ)
          = JsNum.fin ((e - s + MILLISECONDS_A_DAY : Int) : ℚ)) := by
  have hk : 0 ≤ Int.tdiv (e - s) MILLISECONDS_A_DAY :=
    Int.tdiv_nonneg (by omega) (by decide)
  have hone : (JsNum.fin 1) = JsNum.fin ((1 : Int) : ℚ) := by simp
  rw [resolvePeriod_valid s e h]
  refine ⟨?_, rfl, ?_, ⟨Int.tdiv (e - s) MILLISECONDS_A_DAY + 1, by omega, ?_⟩, ?_⟩
  · rw [hone, subtractDays_int, one_mul]
  · have hd : (s - MILLISECONDS_A_DAY - (s - MILLISECONDS_A_DAY -
        Int.tdiv (e - s) MILLISECONDS_A_DAY * MILLISECONDS_A_DAY))
        = Int.tdiv (e - s) MILLISECONDS_A_DAY * MILLISECONDS_A_DAY := by ring
    simp only [Dayjs.diffDays, hd]
    rw [Int.mul_tdiv_cancel _ (by decide)]
  · simp only [Dayjs.diffDays, JsNum.fin_add_fin]
    push_cast
    rfl
  · intro hdvd
    have hmul : Int.tdiv (e - s) MILLISECONDS_A_DAY * MILLISECONDS_A_DAY = e - s :=
      Int.tdiv_mul_cancel hdvd
    simp only [JsNum.fin_sub_fin, JsNum.fin_add_fin]
    congr 1
    have : ((Int.tdiv (e - s) MILLISECONDS_A_DAY * MILLISECONDS_A_DAY : Int) : ℚ)
        = ((e - s : Int) : ℚ) := by rw [hmul]
    push_cast at this ⊢
    linarith

/-- C7 at 1 January 2024 to 31 January 2024 (UTC midnights, 30 days
apart): the previous window ends on 31 December 2023 and both windows span
31 days. -/
theorem period_symmetry_witness :
    (1704067200000 : Int) ≤ 1706659200000 ∧
      MILLISECONDS_A_DAY ∣ (1706659200000 : Int) - 1704067200000 ∧
      (resolvePeriod (Dayjs.ms 1704067200000) (Dayjs.ms 1706659200000)).prevEndObj
        = Dayjs.ms (1704067200000 - MILLISECONDS_A_DAY) ∧
      (resolvePeriod (Dayjs.ms 1704067200000) (Dayjs.ms 1706659200000)).prevEndTs
          - (resolvePeriod (Dayjs.ms 1704067200000) (Dayjs.ms 1706659200000)).prevStartTs
          + JsNum.fin (MILLISECONDS_A_DAY : ℚ)
        = JsNum.fin ((1706659200000 - 1704067200000 + MILLISECONDS_A_DAY : Int) : ℚ) :=
  ⟨by decide, ⟨30, by decide⟩,
   (period_symmetry 1704067200000 1706659200000 (by decide)).2.1,
   (period_symmetry 1704067200000 1706659200000 (by decide)).2.2.2.2 ⟨30, by decide⟩⟩

/-- C8: for every five collections and every range, each subset returned by
the partition is exactly the records of its collection whose timestamp
lies in the window, both bounds included: `ts_ced` for charges and NCR
records, `ts_dos` for denials, open-AR and aging records; the current
subsets use `[startTs, endTs]` and the previous subsets
`[prevStartTs, prevEndTs]`. -/
theorem partition_exact (charges denials openAR agingData ncrData : Option (List Row))
    (startObj endObj : Dayjs) :
    (partitionRecords charges denials openAR agingData ncrData startObj endObj).filteredCharges
        = (safeArray charges).filter (fun r =>
            (resolvePeriod startObj endObj).startTs.le r.ts_ced &&
              r.ts_ced.le (resolvePeriod startObj endObj).endTs) ∧
      (partitionRecords charges denials openAR agingData ncrData startObj endObj).filteredNCR
        = (safeArray ncrData).filter (fun r =>
            (resolvePeriod startObj endObj).startTs.le r.ts_ced &&
              r.ts_ced.le (resolvePeriod startObj endObj).endTs) ∧
      (partitionRecords charges denials openAR agingData ncrData startObj endObj).filteredDenials
        = (safeArray denials).filter (fun r =>
            (resolvePeriod startObj endObj).startTs.le r.ts_dos &&
              r.ts_dos.le (resolvePeriod startObj endObj).endTs) ∧
      (partitionRecords charges denials openAR agingData ncrData startObj endObj).filteredOpenAR
        = (safeArray openAR).filter (fun r =>
            (resolvePeriod startObj endObj).startTs.le r.ts_dos &&
              r.ts_dos.le (resolvePeriod startObj endObj).endTs) ∧
      (partitionRecords charges denials openAR agingData ncrData startObj endObj).filteredAging
        = (safeArray agingData).filter (fun r =>
            (resolvePeriod startObj endObj).startTs.le r.ts_dos &&
              r.ts_dos.le (resolvePeriod startObj endObj).endTs) ∧
      (partitionRecords charges denials openAR agingData ncrData startObj endObj).prevCharges
        = (safeArray charges).filter (fun r =>
            (resolvePeriod startObj endObj).prevStartTs.le r.ts_ced &&
              r.ts_ced.le (resolvePeriod startObj endObj).prevEndTs) ∧
      (partitionRecords charges denials openAR agingData ncrData startObj endObj).prevNCR
        = (safeArray ncrData).filter (fun r =>
            (resolvePeriod startObj endObj).prevStartTs.le r.ts_ced &&
              r.ts_ced.le (resolvePeriod startObj endObj).prevEndTs) ∧
      (partitionRecords charges denials openAR agingData ncrData startObj endObj).prevDenials
        = (safeArray denials).filter (fun r =>
            (resolvePeriod startObj endObj).prevStartTs.le r.ts_dos &&
              r.ts_dos.le (resolvePeriod startObj endObj).prevEndTs) ∧
      (partitionRecords charges denials openAR agingData ncrData startObj endObj).prevOpenAR
        = (safeArray openAR).filter (fun r =>
            (resolvePeriod startObj endObj).prevStartTs.le r.ts_dos &&
              r.ts_dos.le (resolvePeriod startObj endObj).prevEndTs) ∧
      (partitionRecords charges denials openAR agingData ncrData startObj endObj).prevAging
        = (safeArray agingData).filter (fun r =>
            (resolvePeriod startObj endObj).prevStartTs.le r.ts_dos &&
              r.ts_dos.le (resolvePeriod startObj endObj).prevEndTs) :=
  ⟨rfl, rfl, rfl, rfl, rfl, rfl, rfl, rfl, rfl, rfl⟩

/-- C9, at the inputs where the code departs from it.  A charge without
entry date has `ts_ced = 0`.  With the range 31 December 1969 to
2 January 1970 it is kept in the current subset, and with the range
2 January 1970 to 3 January 1970 (previous window 31 December 1969 to
1 January 1970) it is kept in the previous subset: the filter compares
`ts` with the bounds and nothing else. -/
theorem partition_keeps_zero_timestamp :
    (partitionRecords (some [{ ts_ced := JsNum.fin 0 }]) none none none none
        (Dayjs.ms (-86400000)) (Dayjs.ms 86400000)).filteredCharges
        = [{ ts_ced := JsNum.fin 0 }] ∧
      (partitionRecords (some [{ ts_ced := JsNum.fin 0 }]) none none none none
        (Dayjs.ms 86400000) (Dayjs.ms 172800000)).prevCharges
        = [{ ts_ced := JsNum.fin 0 }] := by
  constructor
  · simp [partitionRecords, filterByTs, Row.ts, safeArray,
      resolvePeriod_valid (-86400000) 86400000 (by decide)]
  · have hk : Int.tdiv (172800000 - 86400000) MILLISECONDS_A_DAY = 1 := by decide
    simp [partitionRecords, filterByTs, Row.ts, safeArray,
      resolvePeriod_valid 86400000 172800000 (by decide), hk, MILLISECONDS_A_DAY]

/-! ## Claims on the normalization -/

/-- C10 as stated fails: a row whose two date cells hold text that is no
date gets `ts_dos = NaN` and `ts_ced = NaN`, not 0: the `dayjs` object of
an unparseable string is truthy and its `valueOf()` is `NaN`. -/
theorem ts_of_unparseable_date_is_nan :
    sampleLib.dayjs "not a date" = Dayjs.invalid ∧
      (normalizeRow sampleLib
        { Date_of_Service := some "not a date", Charge_Entry_Date := some "not a date" }).ts_dos
        = JsNum.nan ∧
      (normalizeRow sampleLib
        { Date_of_Service := some "not a date", Charge_Entry_Date := some "not a date" }).ts_ced
        = JsNum.nan ∧
      JsNum.nan ≠ JsNum.fin 0 := by
  refine ⟨by decide, by decide, by decide, ?_⟩
  intro h
  cases h

/-- C10, amended: for every raw row, normalization stores `ts_dos = 0` when
the `Date_of_Service` cell is absent or empty, `NaN` when it holds text that
`dayjs` cannot parse, and otherwise the epoch milliseconds of the parsed
date; `ts_ced` is obtained from `Charge_Entry_Date` in the same way. -/
theorem normalize_timestamps (lib : JsLib) (r : RawRow) :
    (normalizeRow lib r).ts_dos =
        (match r.Date_of_Service with
          | none => JsNum.fin 0
          | some s =>
            if s = "" then JsNum.fin 0
            else match lib.dayjs s with
              | Dayjs.invalid => JsNum.nan
              | Dayjs.ms t => JsNum.fin (t : ℚ)) ∧
      (normalizeRow lib r).ts_ced =
        (match r.Charge_Entry_Date with
          | none => JsNum.fin 0
          | some s =>
            if s = "" then JsNum.fin 0
            else match lib.dayjs s with
              | Dayjs.invalid => JsNum.nan
              | Dayjs.ms t => JsNum.fin (t : ℚ)) := by
  have key : ∀ x : Option String, valueOfOrZero (dayjsOrNull lib x) =
      (match x with
        | none => JsNum.fin 0
        | some s =>
          if s = "" then JsNum.fin 0
          else match lib.dayjs s with
            | Dayjs.invalid => JsNum.nan
            | Dayjs.ms t => JsNum.fin (t : ℚ)) := by
    intro x
    cases x with
    | none => rfl
    | some s =>
      by_cases hs : s = ""
      · simp [dayjsOrNull, strTruthy, valueOfOrZero, hs]
      · simp only [dayjsOrNull, strTruthy, valueOfOrZero, orEmpty, hs, bne_iff_ne, ne_eq,
          not_false_eq_true, if_true, Option.getD_some, if_false]
        cases lib.dayjs s <;> rfl
  exact ⟨key r.Date_of_Service, key r.Charge_Entry_Date⟩

/-! ## Claims on the comparison with the baseline -/

/-- The degenerate branch of `trend`. -/
theorem trend_degenerate_eq (current previous : JsNum) (isIncreaseGood : Bool)
    (decimals : Fin 101) (h : previous = JsNum.fin 0 ∨ previous.isFinite = false) :
    trend current previous isIncreaseGood decimals =
      { percentChange := toFixed current decimals, arrow := "▲", color := "#6b7280",
        previousValue := "0", isPositive := true } := by
  rcases h with h | h
  · subst h
    simp [trend]
  · simp [trend, h]

/-- The regular branch of `trend`. -/
theorem trend_regular_eq (c p : ℚ) (hp : p ≠ 0) (isIncreaseGood : Bool) (decimals : Fin 101) :
    trend (JsNum.fin c) (JsNum.fin p) isIncreaseGood decimals =
      { percentChange := toFixed (JsNum.fin |c - p|) decimals,
        arrow := if 0 ≤ c - p then "▲" else "▼",
        color := if decide (0 ≤ c - p) = isIncreaseGood then "#10b981" else "#ef4444",
        previousValue := toFixed (JsNum.fin p) decimals,
        isPositive := decide (0 ≤ c - p) } := by
  simp [trend, hp, JsNum.isFinite, JsNum.abs]

/-- Formatting 0 with two decimals. -/
theorem toFixed_zero_two : toFixed (JsNum.fin 0) 2 = "0.00" := by
  have h : Int.floor ((2 : ℚ)⁻¹) = 0 := by
    rw [Int.floor_eq_iff]
    constructor <;> norm_num
  simp [toFixed, h]
  decide

/-- C13: trend degeneracy.  For every finite current value `x`, negative
ones included, every `increaseIsGood` flag and every `decimals`, a baseline
that is 0 or not finite gives `isPositive = true`, the up arrow, the
neutral gray `#6b7280` and `delta = x` formatted to `decimals`; the color is
never the red `#ef4444`. -/
theorem trend_degeneracy (x : ℚ) (previous : JsNum) (isIncreaseGood : Bool)
    (decimals : Fin 101) (h : previous = JsNum.fin 0 ∨ previous.isFinite = false) :
    (trend (JsNum.fin x) previous isIncreaseGood decimals).isPositive = true ∧
      (trend (JsNum.fin x) previous isIncreaseGood decimals).arrow = "▲" ∧
      (trend (JsNum.fin x) previous isIncreaseGood decimals).color = "#6b7280" ∧
      (trend (JsNum.fin x) previous isIncreaseGood decimals).percentChange
        = toFixed (JsNum.fin x) decimals ∧
      (trend (JsNum.fin x) previous isIncreaseGood decimals).color ≠ "#ef4444" := by
  rw [trend_degenerate_eq _ _ _ _ h]
  refine ⟨rfl, rfl, rfl, rfl, ?_⟩
  show "#6b7280" ≠ "#ef4444"
  decide

/-- C13 at the current value -5 with the baseline 0, for a metric whose
increase is bad, and with the baseline `NaN`. -/
theorem trend_degeneracy_witness :
    (JsNum.fin 0 = JsNum.fin 0 ∨ (JsNum.fin 0).isFinite = false) ∧
      (trend (JsNum.fin (-5)) (JsNum.fin 0) false 2).isPositive = true ∧
      (trend (JsNum.fin (-5)) (JsNum.fin 0) false 2).color = "#6b7280" ∧
      (trend (JsNum.fin (-5)) JsNum.nan true 0).color = "#6b7280" :=
  ⟨Or.inl rfl,
   (trend_degeneracy (-5) (JsNum.fin 0) false 2 (Or.inl rfl)).1,
   (trend_degeneracy (-5) (JsNum.fin 0) false 2 (Or.inl rfl)).2.2.1,
   (trend_degeneracy (-5) JsNum.nan true 0 (Or.inr rfl)).2.2.1⟩

/-- C14: for every finite current value and every finite non-zero baseline,
`trend` returns `delta = |current - previous|` formatted to `decimals`,
`isPositive = (current - previous >= 0)`, the up arrow when `isPositive` and
the down arrow otherwise, and the green `#10b981` when `isPositive` equals
`increaseIsGood`, the red `#ef4444` otherwise. -/
theorem trend_regular (c p : ℚ) (hp : p ≠ 0) (isIncreaseGood : Bool) (decimals : Fin 101) :
    (trend (JsNum.fin c) (JsNum.fin p) isIncreaseGood decimals).percentChange
        = toFixed (JsNum.fin |c - p|) decimals ∧
      ((trend (JsNum.fin c) (JsNum.fin p) isIncreaseGood decimals).isPositive = true
        ↔ 0 ≤ c - p) ∧
      (trend (JsNum.fin c) (JsNum.fin p) isIncreaseGood decimals).arrow
        = (if (trend (JsNum.fin c) (JsNum.fin p) isIncreaseGood decimals).isPositive
            then "▲" else "▼") ∧
      (trend (JsNum.fin c) (JsNum.fin p) isIncreaseGood decimals).color
        = (if (trend (JsNum.fin c) (JsNum.fin p) isIncreaseGood decimals).isPositive
              = isIncreaseGood
            then "#10b981" else "#ef4444") := by
  rw [trend_regular_eq c p hp]
  refine ⟨rfl, by simp, ?_, rfl⟩
  by_cases h : 0 ≤ c - p <;> simp [h]

/-- C14 at current 30 and baseline 40: a drop, good for a metric whose
increase is bad and bad for the others. -/
theorem trend_regular_witness :
    (40 : ℚ) ≠ 0 ∧
      (trend (JsNum.fin 30) (JsNum.fin 40) false 2).color = "#10b981" ∧
      (trend (JsNum.fin 30) (JsNum.fin 40) true 2).color = "#ef4444" ∧
      (trend (JsNum.fin 30) (JsNum.fin 40) true 2).arrow = "▼" := by
  have hp : (40 : ℚ) ≠ 0 := by norm_num
  have hneg : ¬ ((0 : ℚ) ≤ 30 - 40) := by norm_num
  have h1 := trend_regular 30 40 hp false 2
  have h2 := trend_regular 30 40 hp true 2
  have f1 : (trend (JsNum.fin 30) (JsNum.fin 40) false 2).isPositive = false := by
    cases hb : (trend (JsNum.fin 30) (JsNum.fin 40) false 2).isPositive
    · rfl
    · exact absurd (h1.2.1.mp hb) hneg
  have f2 : (trend (JsNum.fin 30) (JsNum.fin 40) true 2).isPositive = false := by
    cases hb : (trend (JsNum.fin 30) (JsNum.fin 40) true 2).isPositive
    · rfl
    · exact absurd (h2.2.1.mp hb) hneg
  refine ⟨hp, ?_, ?_, ?_⟩
  · rw [h1.2.2.2, f1]; rfl
  · rw [h2.2.2.2, f2]; rfl
  · rw [h2.2.2.1, f2]; rfl

/-- C30: an unchanged value of a metric whose increase is bad is signalled
in red.  For every finite non-zero `v`, `trend(v, v, false)` returns the
delta 0 (`"0.00"` with two decimals), `isPositive = true`, the up arrow and
the red `#ef4444`, whereas `trend(v, v, true)` returns the green `#10b981`;
`kpisWithTrend` calls `trend` with `false` for the denial rate. -/
theorem unchanged_value_is_red_when_increase_is_bad (v : ℚ) (hv : v ≠ 0)
    (decimals : Fin 101) :
    (trend (JsNum.fin v) (JsNum.fin v) false decimals).percentChange
        = toFixed (JsNum.fin 0) decimals ∧
      (trend (JsNum.fin v) (JsNum.fin v) false 2).percentChange = "0.00" ∧
      (trend (JsNum.fin v) (JsNum.fin v) false decimals).isPositive = true ∧
      (trend (JsNum.fin v) (JsNum.fin v) false decimals).arrow = "▲" ∧
      (trend (JsNum.fin v) (JsNum.fin v) false decimals).color = "#ef4444" ∧
      (trend (JsNum.fin v) (JsNum.fin v) true decimals).color = "#10b981" ∧
      (∀ (currentKPIs : KPIs) (prevKPIs : PrevKPIs),
        (kpisWithTrend currentKPIs prevKPIs).denialRate
          = trend currentKPIs.denialRate prevKPIs.denialRate false 2) := by
  have e1 := trend_regular_eq v v hv false decimals
  have e2 := trend_regular_eq v v hv true decimals
  have e3 := trend_regular_eq v v hv false 2
  simp only [sub_self, abs_zero, le_refl, decide_True, if_true] at e1 e2 e3
  rw [e1, e2, e3]
  refine ⟨rfl, toFixed_zero_two, rfl, rfl, by simp, rfl, fun _ _ => rfl⟩

/-- C30 at `v = 12.5`. -/
theorem unchanged_value_is_red_witness :
    ((25 : ℚ) / 2) ≠ 0 ∧
      (trend (JsNum.fin (25 / 2)) (JsNum.fin (25 / 2)) false 2).color = "#ef4444" ∧
      (trend (JsNum.fin (25 / 2)) (JsNum.fin (25 / 2)) true 2).color = "#10b981" :=
  ⟨by norm_num,
   (unchanged_value_is_red_when_increase_is_bad (25 / 2) (by norm_num) 2).2.2.2.2.1,
   (unchanged_value_is_red_when_increase_is_bad (25 / 2) (by norm_num) 2).2.2.2.2.2.1⟩

/-- C19: `getAveragePrevKPIs` returns, for each of its 19 fields, the sum of
that field over the 4 records of `CLIENT_PREV_KPIS` divided by 4, an
unweighted mean; `totalPayments` is 108750 and `totalClaims` is
`(9469 + 510 + 9367 + 600) / 4`. -/
theorem average_prev_kpis_unweighted :
    CLIENT_PREV_KPIS.length = 4 ∧
      getAveragePrevKPIs.totalPayments = JsNum.fin 108750 ∧
      getAveragePrevKPIs.totalClaims = JsNum.fin ((9469 + 510 + 9367 + 600) / 4) ∧
      getAveragePrevKPIs.totalPayments = JsNum.fin
        ((CLIENT_PREV_KPIS.map (fun e => e.2.totalPayments.toRat)).sum / 4) ∧
      getAveragePrevKPIs.totalClaims = JsNum.fin
        ((CLIENT_PREV_KPIS.map (fun e => e.2.totalClaims.toRat)).sum / 4) ∧
      getAveragePrevKPIs.gcr = JsNum.fin
        ((CLIENT_PREV_KPIS.map (fun e => e.2.gcr.toRat)).sum / 4) ∧
      getAveragePrevKPIs.ncr = JsNum.fin
        ((CLIENT_PREV_KPIS.map (fun e => e.2.ncr.toRat)).sum / 4) ∧
      getAveragePrevKPIs.denialRate = JsNum.fin
        ((CLIENT_PREV_KPIS.map (fun e => e.2.denialRate.toRat)).sum / 4) ∧
      getAveragePrevKPIs.firstPassRate = JsNum.fin
        ((CLIENT_PREV_KPIS.map (fun e => e.2.firstPassRate.toRat)).sum / 4) ∧
      getAveragePrevKPIs.cleanClaimRate = JsNum.fin
        ((CLIENT_PREV_KPIS.map (fun e => e.2.cleanClaimRate.toRat)).sum / 4) ∧
      getAveragePrevKPIs.totalDenials = JsNum.fin
        ((CLIENT_PREV_KPIS.map (fun e => e.2.totalDenials.toRat)).sum / 4) ∧
      getAveragePrevKPIs.totalOpenAR = JsNum.fin
        ((CLIENT_PREV_KPIS.map (fun e => e.2.totalOpenAR.toRat)).sum / 4) ∧
      getAveragePrevKPIs.GCR_Target = JsNum.fin
        ((CLIENT_PREV_KPIS.map (fun e => e.2.GCR_Target.toRat)).sum / 4) ∧
      getAveragePrevKPIs.GCR_Baseline = JsNum.fin
        ((CLIENT_PREV_KPIS.map (fun e => e.2.GCR_Baseline.toRat)).sum / 4) ∧
      getAveragePrevKPIs.NCR_Target = JsNum.fin
        ((CLIENT_PREV_KPIS.map (fun e => e.2.NCR_Target.toRat)).sum / 4) ∧
      getAveragePrevKPIs.NCR_Baseline = JsNum.fin
        ((CLIENT_PREV_KPIS.map (fun e => e.2.NCR_Baseline.toRat)).sum / 4) ∧
      getAveragePrevKPIs.CCR_Target = JsNum.fin
        ((CLIENT_PREV_KPIS.map (fun e => e.2.CCR_Target.toRat)).sum / 4) ∧
      getAveragePrevKPIs.CCR_Baseline = JsNum.fin
        ((CLIENT_PREV_KPIS.map (fun e => e.2.CCR_Baseline.toRat)).sum / 4) ∧
      getAveragePrevKPIs.FPR_Target = JsNum.fin
        ((CLIENT_PREV_KPIS.map (fun e => e.2.FPR_Target.toRat)).sum / 4) ∧
      getAveragePrevKPIs.FPR_Baseline = JsNum.fin
        ((CLIENT_PREV_KPIS.map (fun e => e.2.FPR_Baseline.toRat)).sum / 4) ∧
      getAveragePrevKPIs.Denial_Rate_Target = JsNum.fin
        ((CLIENT_PREV_KPIS.map (fun e => e.2.Denial_Rate_Target.toRat)).sum / 4) ∧
      getAveragePrevKPIs.Denial_Rate_Baseline = JsNum.fin
        ((CLIENT_PREV_KPIS.map (fun e => e.2.Denial_Rate_Baseline.toRat)).sum / 4) := by
  simp only [getAveragePrevKPIs, CLIENT_PREV_KPIS, JsNum.ofNat, List.map, List.foldl,
    List.length, List.sum_cons, List.sum_nil, JsNum.fin_add_fin, JsNum.fin_div_fin,
    JsNum.toRat_fin]
  norm_num

/-- C24: `calculateKPIs` is a total function, and when each of its four
arguments is an empty list or no array at all, every one of the nine KPIs
it returns is 0. -/
theorem calculateKPIs_zero_on_empty (c d o n : Option (List Row))
    (hc : c = none ∨ c = some []) (hd : d = none ∨ d = some [])
    (ho : o = none ∨ o = some []) (hn : n = none ∨ n = some []) :
    calculateKPIs c d o n =
      { totalPayments := JsNum.fin 0, totalClaims := JsNum.fin 0, gcr := JsNum.fin 0,
        ncr := JsNum.fin 0, denialRate := JsNum.fin 0, firstPassRate := JsNum.fin 0,
        cleanClaimRate := JsNum.fin 0, totalDenials := JsNum.fin 0,
        totalOpenAR := JsNum.fin 0 } := by
  rcases hc with rfl | rfl <;> rcases hd with rfl | rfl <;> rcases ho with rfl | rfl <;>
    rcases hn with rfl | rfl <;> simp [calculateKPIs, safeArray, JsNum.ofNat]

/-- C24 at the arguments `undefined`, `[]`, `null` and `[]`. -/
theorem calculateKPIs_zero_on_empty_witness :
    (calculateKPIs none (some []) none (some [])).gcr = JsNum.fin 0 ∧
      (calculateKPIs none (some []) none (some [])).totalOpenAR = JsNum.fin 0 :=
  ⟨by rw [calculateKPIs_zero_on_empty none (some []) none (some [])
      (Or.inl rfl) (Or.inr rfl) (Or.inl rfl) (Or.inr rfl)],
   by rw [calculateKPIs_zero_on_empty none (some []) none (some [])
      (Or.inl rfl) (Or.inr rfl) (Or.inl rfl) (Or.inr rfl)]⟩

/-! ## Further claims on the period and the partition -/

/-- Subtracting a finite number of days from a valid date gives a valid
date. -/
theorem subtractDays_fin_isValid (t : Int) (q : ℚ) :
    ((Dayjs.ms t).subtractDays (JsNum.fin q)).isValid = true := by
  simp [Dayjs.subtractDays, Dayjs.addDays, Dayjs.isValid]

/-- For two valid dates, in whatever order, the previous window ends one
day before the start. -/
theorem resolvePeriod_prevEnd_valid (s e : Int) :
    (resolvePeriod (Dayjs.ms s) (Dayjs.ms e)).prevEndObj
      = Dayjs.ms (s - MILLISECONDS_A_DAY) := by
  have hone : (JsNum.fin 1) = JsNum.fin ((1 : Int) : ℚ) := by simp
  have hend : (Dayjs.ms s).subtractDays (JsNum.fin 1) = Dayjs.ms (s - MILLISECONDS_A_DAY) := by
    rw [hone, subtractDays_int, one_mul]
  simp only [resolvePeriod, hend, Dayjs.clone, Dayjs.diffDays, JsNum.fin_add_fin,
    JsNum.le_fin]
  split_ifs with h1 h2 h2
  · simp only [JsNum.fin_sub_fin, subtractDays_fin_isValid] at h2
    simp [Dayjs.isValid] at h2
  · rfl
  · simp only [JsNum.fin_sub_fin, subtractDays_fin_isValid] at h2
    simp [Dayjs.isValid] at h2
  · rfl

/-- Whatever the two range bounds are, the current window has no lower
bound, or the previous window has no upper bound, or the previous window
ends exactly one day before the current one starts. -/
theorem prevEnd_before_start (startObj endObj : Dayjs) :
    (resolvePeriod startObj endObj).startTs = JsNum.nan ∨
      (resolvePeriod startObj endObj).prevEndTs = JsNum.nan ∨
      ∃ s : Int, (resolvePeriod startObj endObj).startTs = JsNum.fin (s : ℚ) ∧
        (resolvePeriod startObj endObj).prevEndTs
          = JsNum.fin ((s - MILLISECONDS_A_DAY : Int) : ℚ) := by
  cases startObj with
  | invalid => exact Or.inl rfl
  | ms s =>
    cases endObj with
    | invalid =>
      refine Or.inr (Or.inl ?_)
      simp [resolvePeriod, Dayjs.diffDays, Dayjs.subtractDays, Dayjs.addDays, Dayjs.clone,
        Dayjs.isValid, Dayjs.valueOf, JsNum.le]
      rfl
    | ms e =>
      refine Or.inr (Or.inr ⟨s, rfl, ?_⟩)
      have h := resolvePeriod_prevEnd_valid s e
      have hv : (resolvePeriod (Dayjs.ms s) (Dayjs.ms e)).prevEndTs
          = (resolvePeriod (Dayjs.ms s) (Dayjs.ms e)).prevEndObj.valueOf := rfl
      rw [hv, h]
      rfl

/-- A timestamp cannot lie in both windows. -/
theorem not_in_both_windows (startObj endObj : Dayjs) (ts : JsNum)
    (hcur : (ts.ge (resolvePeriod startObj endObj).startTs &&
      ts.le (resolvePeriod startObj endObj).endTs) = true)
    (hprev : (ts.ge (resolvePeriod startObj endObj).prevStartTs &&
      ts.le (resolvePeriod startObj endObj).prevEndTs) = true) : False := by
  simp only [Bool.and_eq_true] at hcur hprev
  rcases prevEnd_before_start startObj endObj with h | h | ⟨s, h1, h2⟩
  · rw [h] at hcur
    cases ts <;> simp [JsNum.ge, JsNum.le] at hcur
  · rw [h] at hprev
    cases ts <;> simp [JsNum.ge, JsNum.le] at hprev
  · rw [h1] at hcur
    rw [h2] at hprev
    cases ts with
    | nan => simp [JsNum.ge, JsNum.le] at hcur
    | fin t =>
      have a : (s : ℚ) ≤ t := by simpa [JsNum.ge, JsNum.le] using hcur.1
      have b : t ≤ ((s - MILLISECONDS_A_DAY : Int) : ℚ) := by
        simpa [JsNum.ge, JsNum.le] using hprev.2
      have c : ((s - MILLISECONDS_A_DAY : Int) : ℚ) < (s : ℚ) := by
        have : s - MILLISECONDS_A_DAY < s := by
          have : (0 : Int) < MILLISECONDS_A_DAY := by decide
          omega
        exact_mod_cast this
      linarith

/-- A record cannot be kept by both closures `filterByTs` and
`filterByTsPrev`. -/
theorem filterByTs_disjoint (startObj endObj : Dayjs) (arr : List Row) (tsKey : TsKey)
    (r : Row)
    (hcur : r ∈ filterByTs (resolvePeriod startObj endObj).startTs
      (resolvePeriod startObj endObj).endTs arr tsKey)
    (hprev : r ∈ filterByTs (resolvePeriod startObj endObj).prevStartTs
      (resolvePeriod startObj endObj).prevEndTs arr tsKey) : False := by
  simp only [filterByTs, List.mem_filter] at hcur hprev
  exact not_in_both_windows startObj endObj (r.ts tsKey) hcur.2 hprev.2

/-- C26: for every pair of range bounds, valid or not and also with the end
before the start, and for every five collections, no record belongs to both
the current-window subset and the previous-window subset of its collection:
the previous window ends one day before the current one starts. -/
theorem windows_disjoint (charges denials openAR agingData ncrData : Option (List Row))
    (startObj endObj : Dayjs) (r : Row) :
    ¬ (r ∈ (partitionRecords charges denials openAR agingData ncrData startObj
          endObj).filteredCharges ∧
        r ∈ (partitionRecords charges denials openAR agingData ncrData startObj
          endObj).prevCharges) ∧
      ¬ (r ∈ (partitionRecords charges denials openAR agingData ncrData startObj
          endObj).filteredDenials ∧
        r ∈ (partitionRecords charges denials openAR agingData ncrData startObj
          endObj).prevDenials) ∧
      ¬ (r ∈ (partitionRecords charges denials openAR agingData ncrData startObj
          endObj).filteredOpenAR ∧
        r ∈ (partitionRecords charges denials openAR agingData ncrData startObj
          endObj).prevOpenAR) ∧
      ¬ (r ∈ (partitionRecords charges denials openAR agingData ncrData startObj
          endObj).filteredAging ∧
        r ∈ (partitionRecords charges denials openAR agingData ncrData startObj
          endObj).prevAging) ∧
      ¬ (r ∈ (partitionRecords charges denials openAR agingData ncrData startObj
          endObj).filteredNCR ∧
        r ∈ (partitionRecords charges denials openAR agingData ncrData startObj
          endObj).prevNCR) ∧
      (∀ s e : Int, (resolvePeriod (Dayjs.ms s) (Dayjs.ms e)).prevEndTs
        = JsNum.fin ((s - MILLISECONDS_A_DAY : Int) : ℚ)) := by
  refine ⟨?_, ?_, ?_, ?_, ?_, ?_⟩
  · rintro ⟨h1, h2⟩
    exact filterByTs_disjoint startObj endObj _ _ r h1 h2
  · rintro ⟨h1, h2⟩
    exact filterByTs_disjoint startObj endObj _ _ r h1 h2
  · rintro ⟨h1, h2⟩
    exact filterByTs_disjoint startObj endObj _ _ r h1 h2
  · rintro ⟨h1, h2⟩
    exact filterByTs_disjoint startObj endObj _ _ r h1 h2
  · rintro ⟨h1, h2⟩
    exact filterByTs_disjoint startObj endObj _ _ r h1 h2
  · intro s e
    have hv : (resolvePeriod (Dayjs.ms s) (Dayjs.ms e)).prevEndTs
        = (resolvePeriod (Dayjs.ms s) (Dayjs.ms e)).prevEndObj.valueOf := rfl
    rw [hv, resolvePeriod_prevEnd_valid s e]
    rfl

/-- C27: for two valid dates with `start <= end` the previous window of the
Dashboard is the previous window of the detail pages, bound for bound; for
valid dates the two differ only when `end < start`, as they do for a range
that ends five days before it starts. -/
theorem dashboard_period_matches_detail_pages (s e : Int) (h : s ≤ e) :
    (resolvePeriod (Dayjs.ms s) (Dayjs.ms e)).prevEndObj
        = (detailPeriod (Dayjs.ms s) (Dayjs.ms e)).prevEnd ∧
      (resolvePeriod (Dayjs.ms s) (Dayjs.ms e)).prevStartObj
        = (detailPeriod (Dayjs.ms s) (Dayjs.ms e)).prevStart ∧
      (resolvePeriod (Dayjs.ms (5 * MILLISECONDS_A_DAY)) (Dayjs.ms 0)).prevStartObj
        ≠ (detailPeriod (Dayjs.ms (5 * MILLISECONDS_A_DAY)) (Dayjs.ms 0)).prevStart := by
  have hone : (JsNum.fin 1) = JsNum.fin ((1 : Int) : ℚ) := by simp
  rw [resolvePeriod_valid s e h]
  refine ⟨?_, ?_, ?_⟩
  · simp only [detailPeriod]
    rw [hone, subtractDays_int, one_mul]
  · simp only [detailPeriod, Dayjs.diffDays]
    rw [hone, subtractDays_int, subtractDays_int, one_mul]
  · have hk : Int.tdiv (0 - 5 * MILLISECONDS_A_DAY) MILLISECONDS_A_DAY = -5 := by decide
    have hneg : ((-5 : Int) : ℚ) = -5 := by norm_num
    simp only [resolvePeriod, detailPeriod, Dayjs.diffDays, hk, hneg, Dayjs.clone]
    rw [hone, subtractDays_int]
    norm_num [Dayjs.subtractDays, Dayjs.addDays, Dayjs.isValid, MILLISECONDS_A_DAY]

/-- C27 at the range 1 January 1970 to 3 January 1970. -/
theorem dashboard_period_matches_detail_pages_witness :
    (0 : Int) ≤ 2 * MILLISECONDS_A_DAY ∧
      (resolvePeriod (Dayjs.ms 0) (Dayjs.ms (2 * MILLISECONDS_A_DAY))).prevEndObj
        = (detailPeriod (Dayjs.ms 0) (Dayjs.ms (2 * MILLISECONDS_A_DAY))).prevEnd ∧
      (resolvePeriod (Dayjs.ms 0) (Dayjs.ms (2 * MILLISECONDS_A_DAY))).prevStartObj
        = (detailPeriod (Dayjs.ms 0) (Dayjs.ms (2 * MILLISECONDS_A_DAY))).prevStart :=
  ⟨by decide,
   (dashboard_period_matches_detail_pages 0 (2 * MILLISECONDS_A_DAY) (by decide)).1,
   (dashboard_period_matches_detail_pages 0 (2 * MILLISECONDS_A_DAY) (by decide)).2.1⟩

/-! ## Claims on the bulk upload -/

/-- C20: a selection that does not hold exactly 5 files sets the rejection
message and leaves the five collections as they were; a selection of exactly
5 files clears the message. -/
theorem upload_file_count (lib : JsLib) (st : UploadState) (files : List UploadFile) :
    (files.length ≠ 5 →
        (handleFileUpload lib st files).uploadError
          = "Please select exactly 5 files: Charges, Denials, OpenAR, Aging, and NCR Data." ∧
        (handleFileUpload lib st files).charges = st.charges ∧
        (handleFileUpload lib st files).denials = st.denials ∧
        (handleFileUpload lib st files).openAR = st.openAR ∧
        (handleFileUpload lib st files).agingData = st.agingData ∧
        (handleFileUpload lib st files).ncrData = st.ncrData) ∧
      (files.length = 5 → (handleFileUpload lib st files).uploadError = "") := by
  constructor
  · intro h
    simp [handleFileUpload, h]
  · intro h
    simp [handleFileUpload, h]

/-- C20 at a selection of 3 files, of 7 files and of 5 files. -/
theorem upload_file_count_witness :
    (handleFileUpload sampleLib
        { charges := [{ visit := JsNum.fin 1 }], denials := [], openAR := [], agingData := [],
          ncrData := [], uploadError := "" }
        [⟨"charges.csv", []⟩, ⟨"denial.csv", []⟩, ⟨"openar.csv", []⟩]).charges
        = [{ visit := JsNum.fin 1 }] ∧
      (handleFileUpload sampleLib
        { charges := [], denials := [], openAR := [], agingData := [], ncrData := [],
          uploadError := "" }
        [⟨"a", []⟩, ⟨"b", []⟩, ⟨"c", []⟩, ⟨"d", []⟩, ⟨"e", []⟩, ⟨"f", []⟩,
          ⟨"g", []⟩]).uploadError
        = "Please select exactly 5 files: Charges, Denials, OpenAR, Aging, and NCR Data." ∧
      (handleFileUpload sampleLib
        { charges := [], denials := [], openAR := [], agingData := [], ncrData := [],
          uploadError := "old" }
        [⟨"charges.csv", []⟩, ⟨"denial.csv", []⟩, ⟨"openar.csv", []⟩, ⟨"aging.csv", []⟩,
          ⟨"ncrdata.csv", []⟩]).uploadError = "" :=
  ⟨((upload_file_count sampleLib _ _).1 (by decide)).2.1,
   ((upload_file_count sampleLib _ _).1 (by decide)).1,
   (upload_file_count sampleLib _ _).2 (by decide)⟩

/-- C21 as stated fails: the file `ncr_march.csv` contains `ncr`, but it
also contains `ar` and not `aging`, and the open-AR test comes before the
NCR test, so its rows become the open-AR collection and the NCR collection
stays empty; likewise `open_aging.csv` goes to open AR and not to aging. -/
theorem ncr_file_routed_to_open_ar :
    includes "ncr_march.csv" "ncr" = true ∧
      (routeFile {} "ncr_march.csv" [{ visit := JsNum.fin 1 }]).newOpenAR
        = [{ visit := JsNum.fin 1 }] ∧
      (routeFile {} "ncr_march.csv" [{ visit := JsNum.fin 1 }]).newNcrData = [] ∧
      (routeFile {} "open_aging.csv" [{ visit := JsNum.fin 1 }]).newOpenAR
        = [{ visit := JsNum.fin 1 }] ∧
      (routeFile {} "open_aging.csv" [{ visit := JsNum.fin 1 }]).newAging = [] := by
  have h1 : includes "ncr_march.csv" "charge" = false := by decide
  have h2 : includes "ncr_march.csv" "denial" = false := by decide
  have h3 : includes "ncr_march.csv" "ar" = true := by decide
  have h4 : includes "ncr_march.csv" "aging" = false := by decide
  have g1 : includes "open_aging.csv" "charge" = false := by decide
  have g2 : includes "open_aging.csv" "denial" = false := by decide
  have g3 : includes "open_aging.csv" "open" = true := by decide
  refine ⟨by decide, ?_, ?_, ?_, ?_⟩
  · simp [routeFile, h1, h2, h3, h4]
  · simp [routeFile, h1, h2, h3, h4]
  · simp [routeFile, g1, g2, g3]
  · simp [routeFile, g1, g2, g3]

/-- The routing loop leaves a collection empty when no round writes it. -/
theorem foldl_routeFile_inv (P : Routed → Prop) (l : List (String × List Row))
    (init : Routed) (h0 : P init)
    (hstep : ∀ acc pr, pr ∈ l → P acc → P (routeFile acc pr.1 pr.2)) :
    P (l.foldl (fun acc pr => routeFile acc pr.1 pr.2) init) := by
  induction l generalizing init with
  | nil => exact h0
  | cons pr rest ih =>
    simp only [List.foldl_cons]
    apply ih
    · exact hstep init pr (List.mem_cons_self _ _) h0
    · intro acc pr2 hmem hacc
      exact hstep acc pr2 (List.mem_cons_of_mem _ hmem) hacc

/-- C21, amended: the rows of a file go to the collection selected by the
first matching test on the lower-cased name, in the order of the code:
contains `charge`: charges; contains `denial`: denials; contains `openar` or
`open` or (`ar` and not `aging`): open AR; contains `aging`: aging; contains
`ncr`: NCR; a name matching no test changes nothing.  The six cases cover
every name: a name that fails the first three tests and contains `aging`
goes to aging whether or not it contains `ar`, and one that fails them and
does not contain `aging` does not contain `ar` either.  After an upload of
5 files a collection for which no file name passes its test is empty. -/
theorem routing_order (acc : Routed) (name : String) (data : List Row) :
    (includes name "charge" = true →
        routeFile acc name data = { acc with newCharges := data }) ∧
      (includes name "charge" = false → includes name "denial" = true →
        routeFile acc name data = { acc with newDenials := data }) ∧
      (includes name "charge" = false → includes name "denial" = false →
        (includes name "openar" = true ∨ includes name "open" = true ∨
          (includes name "ar" = true ∧ includes name "aging" = false)) →
        routeFile acc name data = { acc with newOpenAR := data }) ∧
      (includes name "charge" = false → includes name "denial" = false →
        includes name "openar" = false → includes name "open" = false →
        includes name "aging" = true →
        routeFile acc name data = { acc with newAging := data }) ∧
      (includes name "charge" = false → includes name "denial" = false →
        includes name "openar" = false → includes name "open" = false →
        includes name "ar" = false → includes name "aging" = false →
        includes name "ncr" = true →
        routeFile acc name data = { acc with newNcrData := data }) ∧
      (includes name "charge" = false → includes name "denial" = false →
        includes name "open" = false → includes name "ar" = false →
        includes name "aging" = false → includes name "ncr" = false →
        includes name "openar" = false →
        routeFile acc name data = acc) ∧
      (∀ (lib : JsLib) (st : UploadState) (files : List UploadFile), files.length = 5 →
        ((∀ f ∈ files, includes (toLowerCase f.name) "charge" = false) →
          (handleFileUpload lib st files).charges = []) ∧
        ((∀ f ∈ files, includes (toLowerCase f.name) "denial" = false) →
          (handleFileUpload lib st files).denials = []) ∧
        ((∀ f ∈ files, includes (toLowerCase f.name) "openar" = false ∧
            includes (toLowerCase f.name) "open" = false ∧
            (includes (toLowerCase f.name) "ar" = false ∨
              includes (toLowerCase f.name) "aging" = true)) →
          (handleFileUpload lib st files).openAR = []) ∧
        ((∀ f ∈ files, includes (toLowerCase f.name) "aging" = false) →
          (handleFileUpload lib st files).agingData = []) ∧
        ((∀ f ∈ files, includes (toLowerCase f.name) "ncr" = false) →
          (handleFileUpload lib st files).ncrData = [])) := by
  refine ⟨?_, ?_, ?_, ?_, ?_, ?_, ?_⟩
  · intro h; simp [routeFile, h]
  · intro h1 h2; simp [routeFile, h1, h2]
  · intro h1 h2 h3
    rcases h3 with h | h | ⟨h, h'⟩ <;> simp [routeFile, h1, h2, h, *]
  · intro h1 h2 h3 h4 h6; simp [routeFile, h1, h2, h3, h4, h6]
  · intro h1 h2 h3 h4 h5 h6 h7; simp [routeFile, h1, h2, h3, h4, h5, h6, h7]
  · intro h1 h2 h3 h4 h5 h6 h7; simp [routeFile, h1, h2, h3, h4, h5, h6, h7]
  · intro lib st files hlen
    have hne : ¬ files.length ≠ 5 := by simp [hlen]
    simp only [handleFileUpload, hne, if_false]
    refine ⟨?_, ?_, ?_, ?_, ?_⟩
    · intro h
      apply foldl_routeFile_inv (fun a => a.newCharges = [])
      · rfl
      · intro acc pr hmem hacc
        simp only [List.mem_map] at hmem
        obtain ⟨f, hf, rfl⟩ := hmem
        have := h f hf
        simp only [routeFile, this, Bool.false_eq_true, if_false]
        split_ifs <;> simpa using hacc
    · intro h
      apply foldl_routeFile_inv (fun a => a.newDenials = [])
      · rfl
      · intro acc pr hmem hacc
        simp only [List.mem_map] at hmem
        obtain ⟨f, hf, rfl⟩ := hmem
        have := h f hf
        simp only [routeFile, this, Bool.false_eq_true, if_false]
        split_ifs <;> simpa using hacc
    · intro h
      apply foldl_routeFile_inv (fun a => a.newOpenAR = [])
      · rfl
      · intro acc pr hmem hacc
        simp only [List.mem_map] at hmem
        obtain ⟨f, hf, rfl⟩ := hmem
        have h1 := (h f hf).1
        have h2 := (h f hf).2.1
        have h3 : (includes (toLowerCase f.name) "ar" &&
            !includes (toLowerCase f.name) "aging") = false := by
          rcases (h f hf).2.2 with h3 | h3 <;> simp [h3]
        simp only [routeFile, h1, h2, h3, Bool.false_eq_true, if_false, Bool.or_self]
        split_ifs <;> simpa using hacc
    · intro h
      apply foldl_routeFile_inv (fun a => a.newAging = [])
      · rfl
      · intro acc pr hmem hacc
        simp only [List.mem_map] at hmem
        obtain ⟨f, hf, rfl⟩ := hmem
        have := h f hf
        simp only [routeFile, this, Bool.false_eq_true, if_false]
        split_ifs <;> simpa using hacc
    · intro h
      apply foldl_routeFile_inv (fun a => a.newNcrData = [])
      · rfl
      · intro acc pr hmem hacc
        simp only [List.mem_map] at hmem
        obtain ⟨f, hf, rfl⟩ := hmem
        have := h f hf
        simp only [routeFile, this, Bool.false_eq_true, if_false]
        split_ifs <;> simpa using hacc

/-- C21, amended, at the names `charges.csv`, `ncr_march.csv` and
`march_aging.csv` (which contains both `ar` and `aging`) and at an upload of
five files none of which is an NCR file. -/
theorem routing_order_witness :
    includes "charges.csv" "charge" = true ∧
      routeFile {} "charges.csv" [{ visit := JsNum.fin 1 }]
        = { newCharges := [{ visit := JsNum.fin 1 }] } ∧
      routeFile {} "ncr_march.csv" [{ visit := JsNum.fin 1 }]
        = { newOpenAR := [{ visit := JsNum.fin 1 }] } ∧
      (includes "march_aging.csv" "ar" = true ∧ includes "march_aging.csv" "aging" = true ∧
        routeFile {} "march_aging.csv" [{ visit := JsNum.fin 1 }]
          = { newAging := [{ visit := JsNum.fin 1 }] }) ∧
      (handleFileUpload sampleLib
        { charges := [], denials := [], openAR := [], agingData := [],
          ncrData := [{ visit := JsNum.fin 1 }], uploadError := "" }
        [⟨"Charges.csv", []⟩, ⟨"denial.csv", []⟩, ⟨"openar.csv", []⟩, ⟨"aging.csv", []⟩,
          ⟨"other.csv", []⟩]).ncrData = [] :=
  ⟨by decide,
   (routing_order {} "charges.csv" [{ visit := JsNum.fin 1 }]).1 (by decide),
   (routing_order {} "ncr_march.csv" [{ visit := JsNum.fin 1 }]).2.2.1 (by decide) (by decide)
     (Or.inr (Or.inr ⟨by decide, by decide⟩)),
   ⟨by decide, by decide,
    (routing_order {} "march_aging.csv" [{ visit := JsNum.fin 1 }]).2.2.2.1 (by decide)
      (by decide) (by decide) (by decide) (by decide)⟩,
   ((routing_order {} "" []).2.2.2.2.2.2 sampleLib _ _ (by decide)).2.2.2.2 (by decide)⟩

/-! ## Further claims on the normalization -/

/-- C22 as stated fails: the cell `" Yes "`, with a blank on either side,
does not match any of the four words, whatever the case, yet the
normalized flag is true, because the code trims the lower-cased value
before it compares. -/
theorem first_pass_flag_trims :
    toLowerCase " Yes " ∉ ["true", "yes", "y", "1"] ∧
      (normalizeRow sampleLib { Is_First_Pass_Resolution := some " Yes " }).Is_First_Pass_Resolution
        = true := by
  constructor
  · decide
  · decide

/-- C22, amended: for every raw row the normalized `Is_First_Pass_Resolution`
flag is true if and only if the source value (the `Is_First_Pass_Resolution`
cell when it is not empty, else the `First_Pass` cell), lower-cased and
trimmed, is one of `true`, `yes`, `y`, `1`; it is false for an absent or
empty value and for every other string. -/
theorem first_pass_flag (lib : JsLib) (r : RawRow) :
    (normalizeRow lib r).Is_First_Pass_Resolution =
      (match orCell r.Is_First_Pass_Resolution r.First_Pass with
        | none => false
        | some s => decide (s ≠ "") &&
            decide (trim (toLowerCase s) ∈ ["true", "yes", "y", "1"])) := by
  simp only [normalizeRow]
  cases h : orCell r.Is_First_Pass_Resolution r.First_Pass with
  | none => simp [strTruthy]
  | some v =>
    by_cases hv : v = ""
    · simp [strTruthy, hv]
    · simp [strTruthy, hv, orEmpty, List.contains]

/-! ## Claims on the lag and on the detail pages -/

/-- The whole-day differences `calculateLag` averages: one for each record
whose two dates both parse. -/
theorem calculateLag_eq (lib : JsLib) (data : List Row) (k1 k2 : Row → Option String) :
    calculateLag lib data k1 k2 =
      (if (List.filterMap (fun r =>
              (match dayjsOfField lib (k1 r), dayjsOfField lib (k2 r) with
              | Dayjs.ms a, Dayjs.ms b => some (Int.tdiv (b - a) MILLISECONDS_A_DAY)
              | _, _ => none : Option Int)) data).length = 0 then JsNum.fin 0
        else JsNum.fin ((Int.floor
          ((List.map (fun k : Int => (k : ℚ)) (List.filterMap (fun r =>
              (match dayjsOfField lib (k1 r), dayjsOfField lib (k2 r) with
              | Dayjs.ms a, Dayjs.ms b => some (Int.tdiv (b - a) MILLISECONDS_A_DAY)
              | _, _ => none : Option Int)) data)).sum /
            ((List.filterMap (fun r =>
              (match dayjsOfField lib (k1 r), dayjsOfField lib (k2 r) with
              | Dayjs.ms a, Dayjs.ms b => some (Int.tdiv (b - a) MILLISECONDS_A_DAY)
              | _, _ => none : Option Int)) data).length : ℚ) + 1 / 2) : Int) : ℚ)) := by
  have hdiffs : (data.map (fun r =>
      if (dayjsOfField lib (k1 r)).isValid && (dayjsOfField lib (k2 r)).isValid
      then some ((dayjsOfField lib (k2 r)).diffDays (dayjsOfField lib (k1 r))) else none)).filterMap
        (fun d => match d with
          | none => none
          | some v => if !v.isNaN then some v else none)
      = List.map JsNum.fin (List.map (fun k : Int => (k : ℚ)) (List.filterMap (fun r =>
              (match dayjsOfField lib (k1 r), dayjsOfField lib (k2 r) with
              | Dayjs.ms a, Dayjs.ms b => some (Int.tdiv (b - a) MILLISECONDS_A_DAY)
              | _, _ => none : Option Int)) data)) := by
    induction data with
    | nil => rfl
    | cons r rs ih =>
      simp only [List.map_cons, List.filterMap_cons]
      rw [ih]
      cases h1 : dayjsOfField lib (k1 r) <;> cases h2 : dayjsOfField lib (k2 r) <;>
        simp [Dayjs.isValid, Dayjs.diffDays, JsNum.isNaN]
  simp only [calculateLag]
  rw [hdiffs, foldl_add_fin]
  simp only [List.length_map, zero_add]
  by_cases h : (List.filterMap (fun r =>
              (match dayjsOfField lib (k1 r), dayjsOfField lib (k2 r) with
              | Dayjs.ms a, Dayjs.ms b => some (Int.tdiv (b - a) MILLISECONDS_A_DAY)
              | _, _ => none : Option Int)) data).length = 0
  · rw [if_pos h, if_pos h]
  · have h2 : ((List.filterMap (fun r =>
              (match dayjsOfField lib (k1 r), dayjsOfField lib (k2 r) with
              | Dayjs.ms a, Dayjs.ms b => some (Int.tdiv (b - a) MILLISECONDS_A_DAY)
              | _, _ => none : Option Int)) data).length : ℚ) ≠ 0 := by exact_mod_cast h
    rw [if_neg h, if_neg h]
    simp [h2, JsNum.ofNat, JsNum.round]

/-- C23: for every list of charge records, `chargeLag` is the mean of the
whole-day differences (entry date minus service date, truncated to days),
taken over exactly the records whose two dates both parse and rounded with
`Math.round`; it is 0 when no record has both dates valid. -/
theorem chargeLag_rounded_mean (lib : JsLib) (charges : List Row) :
    chargeLag lib charges =
      (if (List.filterMap (fun r =>
              (match dayjsOfField lib r.Date_of_Service, dayjsOfField lib r.Charge_Entry_Date with
              | Dayjs.ms a, Dayjs.ms b => some (Int.tdiv (b - a) MILLISECONDS_A_DAY)
              | _, _ => none : Option Int)) charges).length = 0 then JsNum.fin 0
        else JsNum.fin ((Int.floor
          ((List.map (fun k : Int => (k : ℚ)) (List.filterMap (fun r =>
              (match dayjsOfField lib r.Date_of_Service, dayjsOfField lib r.Charge_Entry_Date with
              | Dayjs.ms a, Dayjs.ms b => some (Int.tdiv (b - a) MILLISECONDS_A_DAY)
              | _, _ => none : Option Int)) charges)).sum /
            ((List.filterMap (fun r =>
              (match dayjsOfField lib r.Date_of_Service, dayjsOfField lib r.Charge_Entry_Date with
              | Dayjs.ms a, Dayjs.ms b => some (Int.tdiv (b - a) MILLISECONDS_A_DAY)
              | _, _ => none : Option Int)) charges).length : ℚ) + 1 / 2) : Int) : ℚ)) :=
  calculateLag_eq lib charges (fun r => r.Date_of_Service) (fun r => r.Charge_Entry_Date)

/-- C25, at the input where the code departs from it: with the visit column
present and holding 0 in the first row and 2 in the second, the visit values
sum to 2, but `getMetrics` reads the 0 through `d.visit || 1` as 1 and
returns `totalClaims = 3`. -/
theorem total_claims_counts_zero_visit_as_one :
    totalPageVisit sampleLib (some "0") = JsNum.fin 0 ∧
      (([({ visit := JsNum.fin 0 } : Row), { visit := JsNum.fin 2 }].map
        (fun d => d.visit.toRat)).sum = 2) ∧
      (totalPageGetMetrics [{ visit := JsNum.fin 0 }, { visit := JsNum.fin 2 }]).totalClaims
        = JsNum.fin 3 := by
  refine ⟨by decide, by norm_num, ?_⟩
  simp [totalPageGetMetrics, JsNum.orElse, JsNum.truthy]
  norm_num

/-! ## Denied rows: Dashboard against Denial page -/

/-- A list starts with each of its initial segments. -/
theorem startsWithChars_append (sub b : List Char) : startsWithChars (sub ++ b) sub = true := by
  induction sub with
  | nil => cases b <;> rfl
  | cons c cs ih => simp [startsWithChars, ih]

/-- A list includes each of its contiguous runs. -/
theorem includesChars_append (a sub b : List Char) :
    includesChars (a ++ (sub ++ b)) sub = true := by
  induction a with
  | nil =>
    cases h : sub ++ b with
    | nil =>
      have hsub : sub = [] := (List.append_eq_nil.mp h).1
      subst hsub
      rfl
    | cons c cs =>
      have := startsWithChars_append sub b
      rw [h] at this
      simp [includesChars, this]
  | cons c cs ih =>
    show (startsWithChars (c :: (cs ++ (sub ++ b))) sub
      || includesChars (cs ++ (sub ++ b)) sub) = true
    rw [ih, Bool.or_true]

/-- The trimmed string is a contiguous run of the string. -/
theorem trim_data_decomp (x : String) :
    ∃ pre post : List Char, x.data = pre ++ ((trim x).data ++ post) := by
  refine ⟨x.data.takeWhile isJsWhiteSpace,
    (((x.data.dropWhile isJsWhiteSpace).reverse).takeWhile isJsWhiteSpace).reverse, ?_⟩
  have h1 : x.data = x.data.takeWhile isJsWhiteSpace ++ x.data.dropWhile isJsWhiteSpace :=
    (List.takeWhile_append_dropWhile _ _).symm
  have h2 : (x.data.dropWhile isJsWhiteSpace).reverse
      = ((x.data.dropWhile isJsWhiteSpace).reverse).takeWhile isJsWhiteSpace ++
        ((x.data.dropWhile isJsWhiteSpace).reverse).dropWhile isJsWhiteSpace :=
    (List.takeWhile_append_dropWhile _ _).symm
  have h3 : x.data.dropWhile isJsWhiteSpace
      = (((x.data.dropWhile isJsWhiteSpace).reverse).dropWhile isJsWhiteSpace).reverse ++
        (((x.data.dropWhile isJsWhiteSpace).reverse).takeWhile isJsWhiteSpace).reverse := by
    have := congrArg List.reverse h2
    rw [List.reverse_reverse, List.reverse_append] at this
    exact this
  calc x.data = x.data.takeWhile isJsWhiteSpace ++ x.data.dropWhile isJsWhiteSpace := h1
    _ = _ := by
      rw [trim]
      exact congrArg (fun l => x.data.takeWhile isJsWhiteSpace ++ l) h3

/-- A string includes its trimmed form. -/
theorem includes_trim (x : String) : includes x (trim x) = true := by
  obtain ⟨pre, post, h⟩ := trim_data_decomp x
  rw [includes, h]
  exact includesChars_append _ _ _

/-- A row the Dashboard counts as denied is counted as denied by the Denial
page. -/
theorem denied_dashboard_imp_page (r : Row) (h : isDeniedStatus r = true) :
    isDeniedOnDenialPage r.Claim_Status = true := by
  have heq : trim (toLowerCase (orEmpty r.Claim_Status)) = "denied" := by
    simpa [isDeniedStatus] using h
  have hinc := includes_trim (toLowerCase (orEmpty r.Claim_Status))
  rw [heq] at hinc
  have htruthy : strTruthy r.Claim_Status = true := by
    cases hs : r.Claim_Status with
    | none =>
      rw [hs] at heq
      exact absurd heq (by decide)
    | some v =>
      by_cases hv : v = ""
      · rw [hs, hv] at heq
        exact absurd heq (by decide)
      · simp [strTruthy, hv]
  simp [isDeniedOnDenialPage, htruthy, hinc]

/-- The test of the Denial page is the containment test alone: a status
that contains `denied` is not empty. -/
theorem isDeniedOnDenialPage_iff (status : Option String) :
    isDeniedOnDenialPage status = includes (toLowerCase (orEmpty status)) "denied" := by
  cases status with
  | none => decide
  | some v =>
    by_cases hv : v = ""
    · subst hv
      decide
    · simp [isDeniedOnDenialPage, strTruthy, hv]

/-- Counting with a weaker test gives at least as much, and as much exactly
when the two tests agree on the list. -/
theorem countP_le_and_eq_iff {α : Type} (p q : α → Bool) (l : List α)
    (hpq : ∀ x, p x = true → q x = true) :
    l.countP p ≤ l.countP q ∧
      (l.countP p = l.countP q ↔ ∀ x ∈ l, q x = true → p x = true) := by
  induction l with
  | nil => simp
  | cons a rest ih =>
    obtain ⟨ih1, ih2⟩ := ih
    by_cases hp : p a = true
    · have hq := hpq a hp
      simp only [List.countP_cons, hp, hq, if_true, List.mem_cons, forall_eq_or_imp]
      refine ⟨by omega, ?_⟩
      constructor
      · intro h
        exact ⟨fun _ => trivial, ih2.mp (by omega)⟩
      · intro h
        have := ih2.mpr h.2
        omega
    · by_cases hq : q a = true
      · simp only [List.countP_cons, hp, hq, if_true, if_false, List.mem_cons,
          forall_eq_or_imp, Bool.false_eq_true]
        refine ⟨by omega, ?_⟩
        constructor
        · intro h
          omega
        · intro h
          exact absurd (h.1 trivial) (by simp)
      · simp only [List.countP_cons, hp, hq, if_false, List.mem_cons, forall_eq_or_imp,
          Bool.false_eq_true]
        refine ⟨by omega, ?_⟩
        constructor
        · intro h
          exact ⟨fun hf => absurd hf (by simp), ih2.mp (by omega)⟩
        · intro h
          have := ih2.mpr h.2
          omega

/-- The denial rate of the Denial page in terms of its count. -/
theorem denialPage_rate_eq {α : Type} (status : α → Option String) (amount : α → JsNum)
    (dataset : List α) :
    (denialPageGetMetrics status amount dataset).denialRate =
      (if 0 < dataset.length then
        JsNum.fin ((dataset.countP (fun d => isDeniedOnDenialPage (status d)) : ℚ) /
          (dataset.length : ℚ) * 100)
      else JsNum.fin 0) := by
  simp only [denialPageGetMetrics, JsNum.ofNat, List.countP_eq_length_filter]
  by_cases h : 0 < dataset.length
  · have h2 : (dataset.length : ℚ) ≠ 0 := by
      exact_mod_cast Nat.pos_iff_ne_zero.mp h
    simp [h, h2]
  · simp [h]

/-- C28: for every list of denial rows, the rows the Denial page counts as
denied (`Claim_Status` lower-cased contains `denied`) are at least as many
as the rows the Dashboard counts as denied (`Claim_Status` lower-cased and
trimmed equals `denied`); so the `denialRate` of the Denial page is at least
the `denialRate` of the Dashboard on the same rows, and the two rates are
equal exactly when no row has a status that contains `denied` without being
equal to it after trimming. -/
theorem denial_page_rate_ge_dashboard (c o n : Option (List Row)) (amount : Row → JsNum)
    (rows : List Row) :
    (rows.filter (fun r => trim (toLowerCase (orEmpty r.Claim_Status)) == "denied")).length
        ≤ (denialPageGetMetrics (fun r : Row => r.Claim_Status) amount rows).totalDenials ∧
      (denialPageGetMetrics (fun r : Row => r.Claim_Status) amount rows).totalDenials
        = (rows.filter (fun r =>
            includes (toLowerCase (orEmpty r.Claim_Status)) "denied")).length ∧
      (calculateKPIs c (some rows) o n).denialRate.le
        (denialPageGetMetrics (fun r : Row => r.Claim_Status) amount rows).denialRate = true ∧
      ((calculateKPIs c (some rows) o n).denialRate
          = (denialPageGetMetrics (fun r : Row => r.Claim_Status) amount rows).denialRate ↔
        ∀ r ∈ rows, includes (toLowerCase (orEmpty r.Claim_Status)) "denied" = true →
          trim (toLowerCase (orEmpty r.Claim_Status)) = "denied") := by
  obtain ⟨hle, hiff⟩ := countP_le_and_eq_iff isDeniedStatus
    (fun r : Row => isDeniedOnDenialPage r.Claim_Status) rows denied_dashboard_imp_page
  have hfun : (fun r : Row => isDeniedOnDenialPage r.Claim_Status)
      = (fun r : Row => includes (toLowerCase (orEmpty r.Claim_Status)) "denied") := by
    funext r
    exact isDeniedOnDenialPage_iff _
  have hcond : (∀ r ∈ rows, isDeniedOnDenialPage r.Claim_Status = true → isDeniedStatus r = true)
      ↔ (∀ r ∈ rows, includes (toLowerCase (orEmpty r.Claim_Status)) "denied" = true →
          trim (toLowerCase (orEmpty r.Claim_Status)) = "denied") := by
    constructor
    · intro h r hr hinc
      have := h r hr (by rw [isDeniedOnDenialPage_iff]; exact hinc)
      simpa [isDeniedStatus] using this
    · intro h r hr hpage
      rw [isDeniedOnDenialPage_iff] at hpage
      have := h r hr hpage
      simp [isDeniedStatus, this]
  rw [← hcond, ← hiff]
  have hdash := (denial_rates_eq c (some rows) o n).1
  have hpage := denialPage_rate_eq (fun r : Row => r.Claim_Status) amount rows
  simp only [safeArray] at hdash
  refine ⟨?_, ?_, ?_, ?_⟩
  · have : (rows.filter (fun r => trim (toLowerCase (orEmpty r.Claim_Status)) == "denied"))
        = rows.filter isDeniedStatus := rfl
    rw [this]
    simp only [denialPageGetMetrics]
    rw [← List.countP_eq_length_filter, ← List.countP_eq_length_filter]
    exact hle
  · simp only [denialPageGetMetrics]
    rw [hfun]
  · rw [hdash, hpage]
    by_cases hlen : 0 < rows.length
    · have hpos : (0 : ℚ) < (rows.length : ℚ) := by exact_mod_cast hlen
      have hc : ((rows.countP isDeniedStatus : ℕ) : ℚ)
          ≤ ((rows.countP (fun r : Row => isDeniedOnDenialPage r.Claim_Status) : ℕ) : ℚ) := by
        exact_mod_cast hle
      simp only [hlen, if_true, JsNum.le_fin, decide_eq_true_eq]
      have := div_le_div_of_nonneg_right hc (le_of_lt hpos)
      linarith
    · simp [hlen]
  · rw [hdash, hpage]
    by_cases hlen : 0 < rows.length
    · have hpos : (0 : ℚ) < (rows.length : ℚ) := by exact_mod_cast hlen
      have hne : (rows.length : ℚ) ≠ 0 := ne_of_gt hpos
      simp only [hlen, if_true]
      constructor
      · intro h
        injection h with h
        have h2 : ((rows.countP isDeniedStatus : ℕ) : ℚ)
            = ((rows.countP (fun r : Row => isDeniedOnDenialPage r.Claim_Status) : ℕ) : ℚ) := by
          field_simp at h
          exact_mod_cast h
        exact_mod_cast h2
      · intro h
        rw [h]
    · have hnil : rows = [] := by
        cases rows with
        | nil => rfl
        | cons a b => simp at hlen
      subst hnil
      simp

/-! ## Claims on the aging buckets -/

/-- One round of the aging loop on finite accumulators: the amount of the
row goes to the bucket of its age, a `NaN` age or amount being read as 0,
and a row with a negative age changes nothing. -/
theorem agingStep_fin (a b c d : ℚ) (r : Row) :
    agingStep
        { b0_30 := JsNum.fin a, b31_60 := JsNum.fin b, b61_90 := JsNum.fin c,
          b90plus := JsNum.fin d } r =
      { b0_30 := JsNum.fin (a + if 0 ≤ r.aging.toRat ∧ r.aging.toRat ≤ 30 then r.Aging_Amount.toRat else 0),
        b31_60 := JsNum.fin (b + if 30 < r.aging.toRat ∧ r.aging.toRat ≤ 60 then r.Aging_Amount.toRat else 0),
        b61_90 := JsNum.fin (c + if 60 < r.aging.toRat ∧ r.aging.toRat ≤ 90 then r.Aging_Amount.toRat else 0),
        b90plus := JsNum.fin (d + if 90 < r.aging.toRat then r.Aging_Amount.toRat else 0) } := by
  simp only [agingStep, JsNum.orElse_zero, JsNum.isNaN_fin, JsNum.lt_fin, JsNum.le_fin,
    Bool.false_or, Bool.or_false, decide_eq_true_eq, JsNum.fin_add_fin]
  by_cases h0 : r.aging.toRat < 0
  · have n1 : ¬ (0 ≤ r.aging.toRat) := not_le.mpr h0
    have n2 : ¬ (30 < r.aging.toRat) := by intro h; linarith
    have n3 : ¬ (60 < r.aging.toRat) := by intro h; linarith
    have n4 : ¬ (90 < r.aging.toRat) := by intro h; linarith
    simp [h0, n1, n2, n3, n4]
  · have p0 : 0 ≤ r.aging.toRat := not_lt.mp h0
    by_cases h30 : r.aging.toRat ≤ 30
    · have n2 : ¬ (30 < r.aging.toRat) := not_lt.mpr h30
      have n3 : ¬ (60 < r.aging.toRat) := by intro h; linarith
      have n4 : ¬ (90 < r.aging.toRat) := by intro h; linarith
      simp [h0, p0, h30, n2, n3, n4]
    · have p30 : 30 < r.aging.toRat := not_le.mp h30
      by_cases h60 : r.aging.toRat ≤ 60
      · have n3 : ¬ (60 < r.aging.toRat) := not_lt.mpr h60
        have n4 : ¬ (90 < r.aging.toRat) := by intro h; linarith
        simp [h0, p0, h30, p30, h60, n3, n4]
      · have p60 : 60 < r.aging.toRat := not_le.mp h60
        by_cases h90 : r.aging.toRat ≤ 90
        · have n4 : ¬ (90 < r.aging.toRat) := not_lt.mpr h90
          simp [h0, p0, h30, p30, h60, p60, h90, n4]
        · have p90 : 90 < r.aging.toRat := not_le.mp h90
          simp [h0, p0, h30, p30, h60, p60, h90, p90]

/-- The aging loop on finite accumulators. -/
theorem foldl_agingStep (l : List Row) (a b c d : ℚ) :
    l.foldl agingStep
        { b0_30 := JsNum.fin a, b31_60 := JsNum.fin b, b61_90 := JsNum.fin c,
          b90plus := JsNum.fin d } =
      { b0_30 := JsNum.fin (a + (List.map (fun r : Row => if 0 ≤ r.aging.toRat ∧ r.aging.toRat ≤ 30 then r.Aging_Amount.toRat else 0) l).sum),
        b31_60 := JsNum.fin (b + (List.map (fun r : Row => if 30 < r.aging.toRat ∧ r.aging.toRat ≤ 60 then r.Aging_Amount.toRat else 0) l).sum),
        b61_90 := JsNum.fin (c + (List.map (fun r : Row => if 60 < r.aging.toRat ∧ r.aging.toRat ≤ 90 then r.Aging_Amount.toRat else 0) l).sum),
        b90plus := JsNum.fin (d + (List.map (fun r : Row => if 90 < r.aging.toRat then r.Aging_Amount.toRat else 0) l).sum) } := by
  induction l generalizing a b c d with
  | nil => simp
  | cons r rs ih =>
    simp only [List.foldl_cons, List.map_cons, List.sum_cons]
    rw [agingStep_fin, ih]
    simp only [add_assoc]

/-- The four bucket sums add up to the amounts of the rows with an age of
at least 0. -/
theorem aging_buckets_total (l : List Row) :
    (List.map (fun r : Row => if 0 ≤ r.aging.toRat ∧ r.aging.toRat ≤ 30 then r.Aging_Amount.toRat else 0) l).sum + (List.map (fun r : Row => if 30 < r.aging.toRat ∧ r.aging.toRat ≤ 60 then r.Aging_Amount.toRat else 0) l).sum +
      (List.map (fun r : Row => if 60 < r.aging.toRat ∧ r.aging.toRat ≤ 90 then r.Aging_Amount.toRat else 0) l).sum + (List.map (fun r : Row => if 90 < r.aging.toRat then r.Aging_Amount.toRat else 0) l).sum
      = (List.map (fun r : Row => if 0 ≤ r.aging.toRat then r.Aging_Amount.toRat else 0) l).sum := by
  induction l with
  | nil => simp
  | cons r rs ih =>
    simp only [List.map_cons, List.sum_cons]
    rw [← ih]
    by_cases h0 : 0 ≤ r.aging.toRat
    · by_cases h30 : r.aging.toRat ≤ 30
      · have n2 : ¬ (30 < r.aging.toRat) := not_lt.mpr h30
        have n3 : ¬ (60 < r.aging.toRat) := by intro h; linarith
        have n4 : ¬ (90 < r.aging.toRat) := by intro h; linarith
        simp only [h0, h30, n2, n3, n4, and_self, false_and, if_true, if_false]
        ring
      · have p30 : 30 < r.aging.toRat := not_le.mp h30
        by_cases h60 : r.aging.toRat ≤ 60
        · have n3 : ¬ (60 < r.aging.toRat) := not_lt.mpr h60
          have n4 : ¬ (90 < r.aging.toRat) := by intro h; linarith
          simp only [h0, h30, p30, h60, n3, n4, and_self, and_false, false_and, true_and,
            if_true, if_false]
          ring
        · have p60 : 60 < r.aging.toRat := not_le.mp h60
          by_cases h90 : r.aging.toRat ≤ 90
          · have n4 : ¬ (90 < r.aging.toRat) := not_lt.mpr h90
            simp only [h0, h30, p30, h60, p60, h90, n4, and_self, and_false, false_and,
              true_and, if_true, if_false]
            ring
          · have p90 : 90 < r.aging.toRat := not_le.mp h90
            simp only [h0, h30, p30, h60, p60, h90, p90, and_self, and_false, false_and,
              true_and, if_true, if_false]
            ring
    · have n1 : ¬ (30 < r.aging.toRat) := by intro h; linarith
      have n2 : ¬ (60 < r.aging.toRat) := by intro h; linarith
      have n3 : ¬ (90 < r.aging.toRat) := by intro h; linarith
      simp only [h0, n1, n2, n3, false_and, if_false]
      ring

/-- The value of `arAgingPieData`: four entries, each with the sum of its
bucket and the share of that sum in the total of the four. -/
theorem arAgingPieData_eq (lib : JsLib) (agingData : List Row) (endObj : Dayjs) :
    arAgingPieData lib agingData endObj =
      [{ name := "0-30 Days",
          value := if 0 < ((List.map (fun r : Row => if 0 ≤ r.aging.toRat ∧ r.aging.toRat ≤ 30 then r.Aging_Amount.toRat else 0) (agingData.filter (fun row => row.month == lib.formatMMMYY endObj))).sum +
          (List.map (fun r : Row => if 30 < r.aging.toRat ∧ r.aging.toRat ≤ 60 then r.Aging_Amount.toRat else 0) (agingData.filter (fun row => row.month == lib.formatMMMYY endObj))).sum +
          (List.map (fun r : Row => if 60 < r.aging.toRat ∧ r.aging.toRat ≤ 90 then r.Aging_Amount.toRat else 0) (agingData.filter (fun row => row.month == lib.formatMMMYY endObj))).sum +
          (List.map (fun r : Row => if 90 < r.aging.toRat then r.Aging_Amount.toRat else 0) (agingData.filter (fun row => row.month == lib.formatMMMYY endObj))).sum)
            then JsNum.fin ((List.map (fun r : Row => if 0 ≤ r.aging.toRat ∧ r.aging.toRat ≤ 30 then r.Aging_Amount.toRat else 0) (agingData.filter (fun row => row.month == lib.formatMMMYY endObj))).sum / ((List.map (fun r : Row => if 0 ≤ r.aging.toRat ∧ r.aging.toRat ≤ 30 then r.Aging_Amount.toRat else 0) (agingData.filter (fun row => row.month == lib.formatMMMYY endObj))).sum +
          (List.map (fun r : Row => if 30 < r.aging.toRat ∧ r.aging.toRat ≤ 60 then r.Aging_Amount.toRat else 0) (agingData.filter (fun row => row.month == lib.formatMMMYY endObj))).sum +
          (List.map (fun r : Row => if 60 < r.aging.toRat ∧ r.aging.toRat ≤ 90 then r.Aging_Amount.toRat else 0) (agingData.filter (fun row => row.month == lib.formatMMMYY endObj))).sum +
          (List.map (fun r : Row => if 90 < r.aging.toRat then r.Aging_Amount.toRat else 0) (agingData.filter (fun row => row.month == lib.formatMMMYY endObj))).sum) * 100)
            else JsNum.fin 0,
          rawAmount := JsNum.fin (List.map (fun r : Row => if 0 ≤ r.aging.toRat ∧ r.aging.toRat ≤ 30 then r.Aging_Amount.toRat else 0) (agingData.filter (fun row => row.month == lib.formatMMMYY endObj))).sum },
       { name := "31-60 Days",
          value := if 0 < ((List.map (fun r : Row => if 0 ≤ r.aging.toRat ∧ r.aging.toRat ≤ 30 then r.Aging_Amount.toRat else 0) (agingData.filter (fun row => row.month == lib.formatMMMYY endObj))).sum +
          (List.map (fun r : Row => if 30 < r.aging.toRat ∧ r.aging.toRat ≤ 60 then r.Aging_Amount.toRat else 0) (agingData.filter (fun row => row.month == lib.formatMMMYY endObj))).sum +
          (List.map (fun r : Row => if 60 < r.aging.toRat ∧ r.aging.toRat ≤ 90 then r.Aging_Amount.toRat else 0) (agingData.filter (fun row => row.month == lib.formatMMMYY endObj))).sum +
          (List.map (fun r : Row => if 90 < r.aging.toRat then r.Aging_Amount.toRat else 0) (agingData.filter (fun row => row.month == lib.formatMMMYY endObj))).sum)
            then JsNum.fin ((List.map (fun r : Row => if 30 < r.aging.toRat ∧ r.aging.toRat ≤ 60 then r.Aging_Amount.toRat else 0) (agingData.filter (fun row => row.month == lib.formatMMMYY endObj))).sum / ((List.map (fun r : Row => if 0 ≤ r.aging.toRat ∧ r.aging.toRat ≤ 30 then r.Aging_Amount.toRat else 0) (agingData.filter (fun row => row.month == lib.formatMMMYY endObj))).sum +
          (List.map (fun r : Row => if 30 < r.aging.toRat ∧ r.aging.toRat ≤ 60 then r.Aging_Amount.toRat else 0) (agingData.filter (fun row => row.month == lib.formatMMMYY endObj))).sum +
          (List.map (fun r : Row => if 60 < r.aging.toRat ∧ r.aging.toRat ≤ 90 then r.Aging_Amount.toRat else 0) (agingData.filter (fun row => row.month == lib.formatMMMYY endObj))).sum +
          (List.map (fun r : Row => if 90 < r.aging.toRat then r.Aging_Amount.toRat else 0) (agingData.filter (fun row => row.month == lib.formatMMMYY endObj))).sum) * 100)
            else JsNum.fin 0,
          rawAmount := JsNum.fin (List.map (fun r : Row => if 30 < r.aging.toRat ∧ r.aging.toRat ≤ 60 then r.Aging_Amount.toRat else 0) (agingData.filter (fun row => row.month == lib.formatMMMYY endObj))).sum },
       { name := "61-90 Days",
          value := if 0 < ((List.map (fun r : Row => if 0 ≤ r.aging.toRat ∧ r.aging.toRat ≤ 30 then r.Aging_Amount.toRat else 0) (agingData.filter (fun row => row.month == lib.formatMMMYY endObj))).sum +
          (List.map (fun r : Row => if 30 < r.aging.toRat ∧ r.aging.toRat ≤ 60 then r.Aging_Amount.toRat else 0) (agingData.filter (fun row => row.month == lib.formatMMMYY endObj))).sum +
          (List.map (fun r : Row => if 60 < r.aging.toRat ∧ r.aging.toRat ≤ 90 then r.Aging_Amount.toRat else 0) (agingData.filter (fun row => row.month == lib.formatMMMYY endObj))).sum +
          (List.map (fun r : Row => if 90 < r.aging.toRat then r.Aging_Amount.toRat else 0) (agingData.filter (fun row => row.month == lib.formatMMMYY endObj))).sum)
            then JsNum.fin ((List.map (fun r : Row => if 60 < r.aging.toRat ∧ r.aging.toRat ≤ 90 then r.Aging_Amount.toRat else 0) (agingData.filter (fun row => row.month == lib.formatMMMYY endObj))).sum / ((List.map (fun r : Row => if 0 ≤ r.aging.toRat ∧ r.aging.toRat ≤ 30 then r.Aging_Amount.toRat else 0) (agingData.filter (fun row => row.month == lib.formatMMMYY endObj))).sum +
          (List.map (fun r : Row => if 30 < r.aging.toRat ∧ r.aging.toRat ≤ 60 then r.Aging_Amount.toRat else 0) (agingData.filter (fun row => row.month == lib.formatMMMYY endObj))).sum +
          (List.map (fun r : Row => if 60 < r.aging.toRat ∧ r.aging.toRat ≤ 90 then r.Aging_Amount.toRat else 0) (agingData.filter (fun row => row.month == lib.formatMMMYY endObj))).sum +
          (List.map (fun r : Row => if 90 < r.aging.toRat then r.Aging_Amount.toRat else 0) (agingData.filter (fun row => row.month == lib.formatMMMYY endObj))).sum) * 100)
            else JsNum.fin 0,
          rawAmount := JsNum.fin (List.map (fun r : Row => if 60 < r.aging.toRat ∧ r.aging.toRat ≤ 90 then r.Aging_Amount.toRat else 0) (agingData.filter (fun row => row.month == lib.formatMMMYY endObj))).sum },
       { name := "90+ Days",
          value := if 0 < ((List.map (fun r : Row => if 0 ≤ r.aging.toRat ∧ r.aging.toRat ≤ 30 then r.Aging_Amount.toRat else 0) (agingData.filter (fun row => row.month == lib.formatMMMYY endObj))).sum +
          (List.map (fun r : Row => if 30 < r.aging.toRat ∧ r.aging.toRat ≤ 60 then r.Aging_Amount.toRat else 0) (agingData.filter (fun row => row.month == lib.formatMMMYY endObj))).sum +
          (List.map (fun r : Row => if 60 < r.aging.toRat ∧ r.aging.toRat ≤ 90 then r.Aging_Amount.toRat else 0) (agingData.filter (fun row => row.month == lib.formatMMMYY endObj))).sum +
          (List.map (fun r : Row => if 90 < r.aging.toRat then r.Aging_Amount.toRat else 0) (agingData.filter (fun row => row.month == lib.formatMMMYY endObj))).sum)
            then JsNum.fin ((List.map (fun r : Row => if 90 < r.aging.toRat then r.Aging_Amount.toRat else 0) (agingData.filter (fun row => row.month == lib.formatMMMYY endObj))).sum / ((List.map (fun r : Row => if 0 ≤ r.aging.toRat ∧ r.aging.toRat ≤ 30 then r.Aging_Amount.toRat else 0) (agingData.filter (fun row => row.month == lib.formatMMMYY endObj))).sum +
          (List.map (fun r : Row => if 30 < r.aging.toRat ∧ r.aging.toRat ≤ 60 then r.Aging_Amount.toRat else 0) (agingData.filter (fun row => row.month == lib.formatMMMYY endObj))).sum +
          (List.map (fun r : Row => if 60 < r.aging.toRat ∧ r.aging.toRat ≤ 90 then r.Aging_Amount.toRat else 0) (agingData.filter (fun row => row.month == lib.formatMMMYY endObj))).sum +
          (List.map (fun r : Row => if 90 < r.aging.toRat then r.Aging_Amount.toRat else 0) (agingData.filter (fun row => row.month == lib.formatMMMYY endObj))).sum) * 100)
            else JsNum.fin 0,
          rawAmount := JsNum.fin (List.map (fun r : Row => if 90 < r.aging.toRat then r.Aging_Amount.toRat else 0) (agingData.filter (fun row => row.month == lib.formatMMMYY endObj))).sum }] := by
  simp only [arAgingPieData]
  have hinit : ({} : AgingBuckets) =
      { b0_30 := JsNum.fin 0, b31_60 := JsNum.fin 0,
        b61_90 := JsNum.fin 0, b90plus := JsNum.fin 0 } := rfl
  rw [hinit, foldl_agingStep]
  simp only [List.map, List.foldl, JsNum.fin_add_fin, zero_add, JsNum.gt_fin,
    decide_eq_true_eq]
  by_cases h : 0 < ((List.map (fun r : Row => if 0 ≤ r.aging.toRat ∧ r.aging.toRat ≤ 30 then r.Aging_Amount.toRat else 0) (agingData.filter (fun row => row.month == lib.formatMMMYY endObj))).sum +
          (List.map (fun r : Row => if 30 < r.aging.toRat ∧ r.aging.toRat ≤ 60 then r.Aging_Amount.toRat else 0) (agingData.filter (fun row => row.month == lib.formatMMMYY endObj))).sum +
          (List.map (fun r : Row => if 60 < r.aging.toRat ∧ r.aging.toRat ≤ 90 then r.Aging_Amount.toRat else 0) (agingData.filter (fun row => row.month == lib.formatMMMYY endObj))).sum +
          (List.map (fun r : Row => if 90 < r.aging.toRat then r.Aging_Amount.toRat else 0) (agingData.filter (fun row => row.month == lib.formatMMMYY endObj))).sum)
  · have hne : ((List.map (fun r : Row => if 0 ≤ r.aging.toRat ∧ r.aging.toRat ≤ 30 then r.Aging_Amount.toRat else 0) (agingData.filter (fun row => row.month == lib.formatMMMYY endObj))).sum +
          (List.map (fun r : Row => if 30 < r.aging.toRat ∧ r.aging.toRat ≤ 60 then r.Aging_Amount.toRat else 0) (agingData.filter (fun row => row.month == lib.formatMMMYY endObj))).sum +
          (List.map (fun r : Row => if 60 < r.aging.toRat ∧ r.aging.toRat ≤ 90 then r.Aging_Amount.toRat else 0) (agingData.filter (fun row => row.month == lib.formatMMMYY endObj))).sum +
          (List.map (fun r : Row => if 90 < r.aging.toRat then r.Aging_Amount.toRat else 0) (agingData.filter (fun row => row.month == lib.formatMMMYY endObj))).sum) ≠ 0 := ne_of_gt h
    simp [h, hne]
  · simp [h]

/-- C29 as stated fails: a row of the end month whose age is `NaN` has no
numeric age, yet its amount of 100 is added to the first bucket, because the
age is read through `Number(item.aging || 0)` as 0. -/
theorem nan_age_counts_in_first_bucket :
    JsNum.nan.ge (JsNum.fin 0) = false ∧
      (arAgingPieData sampleLib
        [{ month := "Jan 24", aging := JsNum.nan, Aging_Amount := JsNum.fin 100 }]
        (Dayjs.ms 1704412800000)).map (fun e => e.rawAmount)
        = [JsNum.fin 100, JsNum.fin 0, JsNum.fin 0, JsNum.fin 0] := by
  have hm : sampleLib.formatMMMYY (Dayjs.ms 1704412800000) = "Jan 24" := by decide
  refine ⟨rfl, ?_⟩
  rw [arAgingPieData_eq]
  simp [hm, List.filter]

/-- C29, amended: among the aging rows whose month label equals the label
of the end date, every row whose age, a `NaN` age being read as 0, is at
least 0 adds its amount, a `NaN` amount being read as 0, to exactly one of
the four buckets (age up to 30; above 30 up to 60; above 60 up to 90; above
90), and every other row adds nothing.  So the four `rawAmount` values sum
to the total amount of these rows; when that total is above 0 the four
percentages sum to 100, and when it is 0 or below all four are 0. -/
theorem aging_pie_buckets (lib : JsLib) (agingData : List Row) (endObj : Dayjs) :
    (arAgingPieData lib agingData endObj).map (fun e => e.name)
        = ["0-30 Days", "31-60 Days", "61-90 Days", "90+ Days"] ∧
      (arAgingPieData lib agingData endObj).map (fun e => e.rawAmount)
        = [JsNum.fin (List.map (fun r : Row => if 0 ≤ r.aging.toRat ∧ r.aging.toRat ≤ 30 then r.Aging_Amount.toRat else 0) (agingData.filter (fun row => row.month == lib.formatMMMYY endObj))).sum,
           JsNum.fin (List.map (fun r : Row => if 30 < r.aging.toRat ∧ r.aging.toRat ≤ 60 then r.Aging_Amount.toRat else 0) (agingData.filter (fun row => row.month == lib.formatMMMYY endObj))).sum,
           JsNum.fin (List.map (fun r : Row => if 60 < r.aging.toRat ∧ r.aging.toRat ≤ 90 then r.Aging_Amount.toRat else 0) (agingData.filter (fun row => row.month == lib.formatMMMYY endObj))).sum,
           JsNum.fin (List.map (fun r : Row => if 90 < r.aging.toRat then r.Aging_Amount.toRat else 0) (agingData.filter (fun row => row.month == lib.formatMMMYY endObj))).sum] ∧
      ((arAgingPieData lib agingData endObj).map (fun e => e.rawAmount.toRat)).sum
        = (List.map (fun r : Row => if 0 ≤ r.aging.toRat then r.Aging_Amount.toRat else 0) (agingData.filter (fun row => row.month == lib.formatMMMYY endObj))).sum ∧
      (0 < (List.map (fun r : Row => if 0 ≤ r.aging.toRat then r.Aging_Amount.toRat else 0) (agingData.filter (fun row => row.month == lib.formatMMMYY endObj))).sum →
        ((arAgingPieData lib agingData endObj).map (fun e => e.value.toRat)).sum = 100 ∧
          ∀ e ∈ (arAgingPieData lib agingData endObj), e.value ≠ JsNum.nan) ∧
      ((List.map (fun r : Row => if 0 ≤ r.aging.toRat then r.Aging_Amount.toRat else 0) (agingData.filter (fun row => row.month == lib.formatMMMYY endObj))).sum ≤ 0 →
        (arAgingPieData lib agingData endObj).map (fun e => e.value)
          = [JsNum.fin 0, JsNum.fin 0, JsNum.fin 0, JsNum.fin 0]) := by
  have htot := aging_buckets_total (agingData.filter (fun row => row.month == lib.formatMMMYY endObj))
  rw [arAgingPieData_eq]
  rw [← htot]
  refine ⟨rfl, rfl, ?_, ?_, ?_⟩
  · simp only [List.map, List.sum_cons, List.sum_nil, JsNum.toRat_fin]
    ring
  · intro hpos
    have hne := ne_of_gt hpos
    have hpos2 : 0 < ((List.map (fun r : Row => if 0 ≤ r.aging.toRat ∧ r.aging.toRat ≤ 30 then r.Aging_Amount.toRat else 0) (agingData.filter (fun row => row.month == lib.formatMMMYY endObj))).sum +
          (List.map (fun r : Row => if 30 < r.aging.toRat ∧ r.aging.toRat ≤ 60 then r.Aging_Amount.toRat else 0) (agingData.filter (fun row => row.month == lib.formatMMMYY endObj))).sum +
          (List.map (fun r : Row => if 60 < r.aging.toRat ∧ r.aging.toRat ≤ 90 then r.Aging_Amount.toRat else 0) (agingData.filter (fun row => row.month == lib.formatMMMYY endObj))).sum +
          (List.map (fun r : Row => if 90 < r.aging.toRat then r.Aging_Amount.toRat else 0) (agingData.filter (fun row => row.month == lib.formatMMMYY endObj))).sum) := by
      have e : ((List.map (fun r : Row => if 0 ≤ r.aging.toRat ∧ r.aging.toRat ≤ 30 then r.Aging_Amount.toRat else 0) (agingData.filter (fun row => row.month == lib.formatMMMYY endObj))).sum +
          (List.map (fun r : Row => if 30 < r.aging.toRat ∧ r.aging.toRat ≤ 60 then r.Aging_Amount.toRat else 0) (agingData.filter (fun row => row.month == lib.formatMMMYY endObj))).sum +
          (List.map (fun r : Row => if 60 < r.aging.toRat ∧ r.aging.toRat ≤ 90 then r.Aging_Amount.toRat else 0) (agingData.filter (fun row => row.month == lib.formatMMMYY endObj))).sum +
          (List.map (fun r : Row => if 90 < r.aging.toRat then r.Aging_Amount.toRat else 0) (agingData.filter (fun row => row.month == lib.formatMMMYY endObj))).sum) = (List.map (fun r : Row => if 0 ≤ r.aging.toRat ∧ r.aging.toRat ≤ 30 then r.Aging_Amount.toRat else 0) (agingData.filter (fun row => row.month == lib.formatMMMYY endObj))).sum + (List.map (fun r : Row => if 30 < r.aging.toRat ∧ r.aging.toRat ≤ 60 then r.Aging_Amount.toRat else 0) (agingData.filter (fun row => row.month == lib.formatMMMYY endObj))).sum + (List.map (fun r : Row => if 60 < r.aging.toRat ∧ r.aging.toRat ≤ 90 then r.Aging_Amount.toRat else 0) (agingData.filter (fun row => row.month == lib.formatMMMYY endObj))).sum + (List.map (fun r : Row => if 90 < r.aging.toRat then r.Aging_Amount.toRat else 0) (agingData.filter (fun row => row.month == lib.formatMMMYY endObj))).sum := rfl
      rw [e]
      exact hpos
    constructor
    · simp only [List.map, List.sum_cons, List.sum_nil, hpos2, if_true, JsNum.toRat_fin]
      have hne2 : ((List.map (fun r : Row => if 0 ≤ r.aging.toRat ∧ r.aging.toRat ≤ 30 then r.Aging_Amount.toRat else 0) (agingData.filter (fun row => row.month == lib.formatMMMYY endObj))).sum +
          (List.map (fun r : Row => if 30 < r.aging.toRat ∧ r.aging.toRat ≤ 60 then r.Aging_Amount.toRat else 0) (agingData.filter (fun row => row.month == lib.formatMMMYY endObj))).sum +
          (List.map (fun r : Row => if 60 < r.aging.toRat ∧ r.aging.toRat ≤ 90 then r.Aging_Amount.toRat else 0) (agingData.filter (fun row => row.month == lib.formatMMMYY endObj))).sum +
          (List.map (fun r : Row => if 90 < r.aging.toRat then r.Aging_Amount.toRat else 0) (agingData.filter (fun row => row.month == lib.formatMMMYY endObj))).sum) ≠ 0 := ne_of_gt hpos2
      field_simp
      ring
    · intro e he
      simp only [hpos2, if_true, List.mem_cons, List.mem_singleton, List.not_mem_nil,
        or_false] at he
      rcases he with rfl | rfl | rfl | rfl <;> simp
  · intro hle
    have hn : ¬ (0 < ((List.map (fun r : Row => if 0 ≤ r.aging.toRat ∧ r.aging.toRat ≤ 30 then r.Aging_Amount.toRat else 0) (agingData.filter (fun row => row.month == lib.formatMMMYY endObj))).sum +
          (List.map (fun r : Row => if 30 < r.aging.toRat ∧ r.aging.toRat ≤ 60 then r.Aging_Amount.toRat else 0) (agingData.filter (fun row => row.month == lib.formatMMMYY endObj))).sum +
          (List.map (fun r : Row => if 60 < r.aging.toRat ∧ r.aging.toRat ≤ 90 then r.Aging_Amount.toRat else 0) (agingData.filter (fun row => row.month == lib.formatMMMYY endObj))).sum +
          (List.map (fun r : Row => if 90 < r.aging.toRat then r.Aging_Amount.toRat else 0) (agingData.filter (fun row => row.month == lib.formatMMMYY endObj))).sum)) := by
      have e : ((List.map (fun r : Row => if 0 ≤ r.aging.toRat ∧ r.aging.toRat ≤ 30 then r.Aging_Amount.toRat else 0) (agingData.filter (fun row => row.month == lib.formatMMMYY endObj))).sum +
          (List.map (fun r : Row => if 30 < r.aging.toRat ∧ r.aging.toRat ≤ 60 then r.Aging_Amount.toRat else 0) (agingData.filter (fun row => row.month == lib.formatMMMYY endObj))).sum +
          (List.map (fun r : Row => if 60 < r.aging.toRat ∧ r.aging.toRat ≤ 90 then r.Aging_Amount.toRat else 0) (agingData.filter (fun row => row.month == lib.formatMMMYY endObj))).sum +
          (List.map (fun r : Row => if 90 < r.aging.toRat then r.Aging_Amount.toRat else 0) (agingData.filter (fun row => row.month == lib.formatMMMYY endObj))).sum) = (List.map (fun r : Row => if 0 ≤ r.aging.toRat ∧ r.aging.toRat ≤ 30 then r.Aging_Amount.toRat else 0) (agingData.filter (fun row => row.month == lib.formatMMMYY endObj))).sum + (List.map (fun r : Row => if 30 < r.aging.toRat ∧ r.aging.toRat ≤ 60 then r.Aging_Amount.toRat else 0) (agingData.filter (fun row => row.month == lib.formatMMMYY endObj))).sum + (List.map (fun r : Row => if 60 < r.aging.toRat ∧ r.aging.toRat ≤ 90 then r.Aging_Amount.toRat else 0) (agingData.filter (fun row => row.month == lib.formatMMMYY endObj))).sum + (List.map (fun r : Row => if 90 < r.aging.toRat then r.Aging_Amount.toRat else 0) (agingData.filter (fun row => row.month == lib.formatMMMYY endObj))).sum := rfl
      rw [e]
      exact not_lt.mpr hle
    simp only [List.map, hn, if_false]

/-- C29, amended, at two rows of the end month, aged 10 and 45 days, and at
an empty collection. -/
theorem aging_pie_buckets_witness :
    ((arAgingPieData sampleLib
        [{ month := "Jan 24", aging := JsNum.fin 10, Aging_Amount := JsNum.fin 100 },
         { month := "Jan 24", aging := JsNum.fin 45, Aging_Amount := JsNum.fin 300 }]
        (Dayjs.ms 1704412800000)).map (fun e => e.value.toRat)).sum = 100 ∧
      (arAgingPieData sampleLib [] (Dayjs.ms 1704412800000)).map (fun e => e.value)
        = [JsNum.fin 0, JsNum.fin 0, JsNum.fin 0, JsNum.fin 0] := by
  have hm : sampleLib.formatMMMYY (Dayjs.ms 1704412800000) = "Jan 24" := by decide
  refine ⟨((aging_pie_buckets sampleLib _ _).2.2.2.1 ?_).1,
    (aging_pie_buckets sampleLib [] _).2.2.2.2 ?_⟩
  · simp [hm, List.filter]
    norm_num
  · simp

/-! ## Claims on the amount coercion -/

/-- Evaluation of `jsNumber` from the parsed literal. -/
theorem jsNumber_of_parse (s : String) (neg : Bool) (m : Nat) (e : Int)
    (h : parseNumeric s = some (neg, m, e)) :
    jsNumber s = JsNum.fin ((if neg then -1 else 1) * (m : ℚ) * (10 : ℚ) ^ e) := by
  simp [jsNumber, h]

/-- The text `0` is the number 0. -/
theorem jsNumber_zero : jsNumber "0" = JsNum.fin 0 := by
  rw [jsNumber_of_parse "0" false 0 0 (by decide)]
  simp

/-- The amount text of an absent or empty cell is `0`. -/
theorem stripAmount_falsy (x : Option String) (h : strTruthy x = false) :
    stripAmount x = "0" := by
  simp only [stripAmount, orCell, h, Bool.false_eq_true, if_false]
  decide

/-- C11 as stated fails: the cell `abc` is normalized to `NaN` and the
cell `-5` to the negative number -5. -/
theorem amount_can_be_nan_or_negative :
    (normalizeRow numLib { Billed_Amount := some "abc", Paid_Amount := some "-5" }).Billed_Amount
        = JsNum.nan ∧
      (normalizeRow numLib { Billed_Amount := some "abc", Paid_Amount := some "-5" }).Paid_Amount
        = JsNum.fin (-5) ∧
      (-5 : ℚ) < 0 := by
  refine ⟨?_, ?_, by norm_num⟩
  · have h : parseNumeric (stripAmount (some "abc")) = none := by decide
    show jsNumber (stripAmount (some "abc")) = JsNum.nan
    simp [jsNumber, h]
  · have h : parseNumeric (stripAmount (some "-5")) = some (true, 5, 0) := by decide
    show jsNumber (stripAmount (some "-5")) = JsNum.fin (-5)
    rw [jsNumber_of_parse _ _ _ _ h]
    norm_num

/-- C11, amended: after normalization each amount field is `Number` of the
text of its cell with every comma and double quote removed (for
`Open_AR_Amount` the cell `apenaramount` when `Open_AR_Amount` is empty):
0 for an absent or empty cell, `NaN` for text that is no numeric literal,
and otherwise the value of the literal, which may be negative; so
`"1,234.50"` gives 1234.5. -/
theorem amount_fields (lib : JsLib) (r : RawRow) :
    (normalizeRow lib r).Billed_Amount = lib.toNumber (stripAmount r.Billed_Amount) ∧
      (normalizeRow lib r).Paid_Amount = lib.toNumber (stripAmount r.Paid_Amount) ∧
      (normalizeRow lib r).Adjustment_Amount = lib.toNumber (stripAmount r.Adjustment_Amount) ∧
      (normalizeRow lib r).Open_AR_Amount
        = lib.toNumber (stripAmount (orCell r.Open_AR_Amount r.apenaramount)) ∧
      (∀ x : Option String, stripAmount x
        = removeCommasQuotes (match x with
            | none => "0"
            | some s => if s = "" then "0" else s)) ∧
      jsNumber "0" = JsNum.fin 0 ∧
      (∀ s : String, parseNumeric s = none → jsNumber s = JsNum.nan) ∧
      (∀ (s : String) (neg : Bool) (m : Nat) (e : Int), parseNumeric s = some (neg, m, e) →
        jsNumber s = JsNum.fin ((if neg then -1 else 1) * (m : ℚ) * (10 : ℚ) ^ e)) ∧
      jsNumber (stripAmount (some "\"1,234.50\"")) = JsNum.fin (2469 / 2) := by
  refine ⟨rfl, rfl, rfl, rfl, ?_, jsNumber_zero, ?_, jsNumber_of_parse, ?_⟩
  · intro x
    cases x with
    | none => rfl
    | some v =>
      by_cases hv : v = ""
      · subst hv; rfl
      · simp [stripAmount, orCell, strTruthy, hv, orEmpty, removeCommasQuotes]
  · intro s h
    simp [jsNumber, h]
  · have h : parseNumeric (stripAmount (some "\"1,234.50\"")) = some (false, 123450, -2) := by
      decide
    rw [jsNumber_of_parse _ _ _ _ h]
    norm_num

/-- C11, amended, at an absent cell and at the cell `-5`. -/
theorem amount_fields_witness :
    (normalizeRow numLib {}).Billed_Amount = JsNum.fin 0 ∧
      jsNumber "-5" = JsNum.fin (-5) := by
  have h1 := (amount_fields numLib {}).1
  have h2 := (amount_fields numLib {}).2.2.2.2.2.2.2.1 "-5" true 5 0 (by decide)
  refine ⟨?_, ?_⟩
  · rw [h1]
    show jsNumber (stripAmount none) = JsNum.fin 0
    rw [stripAmount_falsy none rfl]
    exact jsNumber_zero
  · rw [h2]
    norm_num

/-- C12 as stated fails: the text `abc` is coerced to `NaN`, and coercing
that `NaN` again gives 0, because `NaN || "0"` is `"0"`. -/
theorem parseAmount_not_idempotent_on_nan :
    parseAmount jsNumber sampleNumToString (JsVal.str "abc") = JsNum.nan ∧
      parseAmount jsNumber sampleNumToString
        (JsVal.num (parseAmount jsNumber sampleNumToString (JsVal.str "abc"))) = JsNum.fin 0 ∧
      JsNum.fin 0 ≠ JsNum.nan := by
  have h : parseAmount jsNumber sampleNumToString (JsVal.str "abc") = JsNum.nan := by
    have hp : parseNumeric (removeCommasQuotes "abc") = none := by decide
    simp [parseAmount, jsNumber, hp]
  refine ⟨h, ?_, by intro h2; cases h2⟩
  rw [h]
  have hz : removeCommasQuotes "0" = "0" := by decide
  simp only [parseAmount, hz]
  exact jsNumber_zero

/-- The amount coercion of the normalization is `parseAmount` on the cell. -/
theorem stripAmount_eq_parseAmount (lib : JsLib) (numToString : ℚ → String)
    (x : Option String) :
    lib.toNumber (stripAmount x) = parseAmount lib.toNumber numToString (cellVal x) := by
  cases x with
  | none => rfl
  | some v =>
    by_cases hv : v = ""
    · subst hv; rfl
    · simp [stripAmount, orCell, strTruthy, hv, orEmpty, parseAmount, cellVal,
        removeCommasQuotes]

/-! ## The text of a number read back -/

theorem digitChar_facts (d : Nat) (h : d < 10) :
    (digitChar d).isDigit = true ∧ (digitChar d).toNat - 48 = d ∧
      isJsWhiteSpace (digitChar d) = false ∧
      digitChar d ≠ '.' ∧ digitChar d ≠ 'e' ∧ digitChar d ≠ 'E' ∧ digitChar d ≠ ',' ∧
      digitChar d ≠ '"' ∧ digitChar d ≠ '-' ∧ digitChar d ≠ '+' ∧
      (digitChar d = '0' ↔ d = 0) := by
  interval_cases d <;> decide


theorem natOfDigits_foldl (cs : List Char) (n : Nat) :
    cs.foldl (fun n c => 10 * n + (c.toNat - 48)) n = n * 10 ^ cs.length + natOfDigits cs := by
  induction cs generalizing n with
  | nil => simp [natOfDigits]
  | cons c cs ih =>
    simp only [List.foldl_cons, List.length_cons, natOfDigits]
    rw [ih, ih (10 * 0 + (c.toNat - 48))]
    ring

theorem natOfDigits_append (a b : List Char) :
    natOfDigits (a ++ b) = natOfDigits a * 10 ^ b.length + natOfDigits b := by
  simp only [natOfDigits, List.foldl_append]
  rw [natOfDigits_foldl]
  rfl

theorem natOfDigits_replicate_zero (z : Nat) : natOfDigits (List.replicate z '0') = 0 := by
  induction z with
  | zero => rfl
  | succ z ih =>
    rw [List.replicate_succ, ← List.singleton_append, natOfDigits_append, ih]
    have : natOfDigits ['0'] = 0 := by decide
    rw [this]
    simp

theorem natOfDigits_digits (l : List Nat) (h : ∀ d ∈ l, d < 10) :
    natOfDigits (l.reverse.map digitChar) = Nat.ofDigits 10 l := by
  induction l with
  | nil => rfl
  | cons d l ih =>
    rw [List.reverse_cons, List.map_append, natOfDigits_append,
      ih (fun x hx => h x (List.mem_cons_of_mem _ hx)), Nat.ofDigits_cons]
    have hd := (digitChar_facts d (h d (List.mem_cons_self _ _))).2.1
    simp only [List.map, List.length_singleton, pow_one, natOfDigits, List.foldl, hd]
    ring

theorem takeWhile_zero_eq_replicate (l : List Nat) :
    l.takeWhile (fun d => d == 0) = List.replicate (l.takeWhile (fun d => d == 0)).length 0 := by
  rw [List.eq_replicate_iff]
  refine ⟨rfl, ?_⟩
  intro b hb
  have := List.mem_takeWhile_imp hb
  simpa using this

theorem ofDigits_replicate_zero (z : Nat) (l : List Nat) :
    Nat.ofDigits 10 (List.replicate z 0 ++ l) = 10 ^ z * Nat.ofDigits 10 l := by
  induction z with
  | zero => simp
  | succ z ih =>
    rw [List.replicate_succ, List.cons_append, Nat.ofDigits_cons, ih]
    ring

/-- The digits of a positive number without its trailing zeros. -/
theorem digits_strip (M : Nat) (hM : M ≠ 0) :
    let le := Nat.digits 10 M
    let z := (le.takeWhile (fun d => d == 0)).length
    let rest := le.dropWhile (fun d => d == 0)
    (∀ d ∈ rest, d < 10) ∧ rest ≠ [] ∧ (∀ h : rest ≠ [], rest.getLast h ≠ 0) ∧
      M = 10 ^ z * Nat.ofDigits 10 rest := by
  intro le z rest
  have hsplit : le = List.replicate z 0 ++ rest := by
    have h := (List.takeWhile_append_dropWhile (fun d => d == 0) le).symm
    rw [takeWhile_zero_eq_replicate] at h
    exact h
  have hM2 : M = 10 ^ z * Nat.ofDigits 10 rest := by
    rw [← ofDigits_replicate_zero, ← hsplit]
    exact (Nat.ofDigits_digits 10 M).symm
  have hne : rest ≠ [] := by
    intro h0
    rw [h0] at hM2
    simp at hM2
    exact hM hM2
  refine ⟨?_, hne, ?_, hM2⟩
  · intro d hd
    have : d ∈ le := by
      rw [hsplit]
      exact List.mem_append_right _ hd
    exact Nat.digits_lt_base (by norm_num) this
  · intro h
    have hle : le ≠ [] := by
      rw [hsplit]
      simp [h]
    have hlast : ∀ (l : List Nat) (hl : l ≠ []), l = List.replicate z 0 ++ rest →
        l.getLast hl = rest.getLast h := by
      intro l hl e
      subst e
      exact List.getLast_append_of_ne_nil h
    rw [← hlast le hle hsplit]
    exact Nat.getLast_digit_ne_zero 10 hM


theorem dropWhile_of_all_false {α : Type} (p : α → Bool) (l : List α)
    (h : ∀ a ∈ l, p a = false) : l.dropWhile p = l := by
  cases l with
  | nil => rfl
  | cons a t => simp [List.dropWhile, h a (List.mem_cons_self _ _)]

theorem takeWhile_of_all_true {α : Type} (p : α → Bool) (l : List α)
    (h : ∀ a ∈ l, p a = true) : l.takeWhile p = l := by
  induction l with
  | nil => rfl
  | cons a t ih =>
    simp only [List.takeWhile, h a (List.mem_cons_self _ _)]
    rw [ih (fun x hx => h x (List.mem_cons_of_mem _ hx))]

theorem dropWhile_of_all_true {α : Type} (p : α → Bool) (l : List α)
    (h : ∀ a ∈ l, p a = true) : l.dropWhile p = [] := by
  induction l with
  | nil => rfl
  | cons a t ih =>
    simp only [List.dropWhile, h a (List.mem_cons_self _ _)]
    exact ih (fun x hx => h x (List.mem_cons_of_mem _ hx))

/-- A text without white space is its own trimmed form. -/
theorem trim_of_no_space (cs : List Char) (h : ∀ c ∈ cs, isJsWhiteSpace c = false) :
    trim (String.mk cs) = String.mk cs := by
  unfold trim
  simp only
  rw [dropWhile_of_all_false _ cs h,
    dropWhile_of_all_false _ cs.reverse (fun c hc => h c (List.mem_reverse.1 hc)),
    List.reverse_reverse]

/-- A text without comma and double quote is not changed by their removal. -/
theorem removeCommasQuotes_of_plain (cs : List Char) (h : ∀ c ∈ cs, c ≠ ',' ∧ c ≠ '"') :
    removeCommasQuotes (String.mk cs) = String.mk cs := by
  unfold removeCommasQuotes
  simp only
  have h1 : cs.filter (fun c => c != ',') = cs := by
    rw [List.filter_eq_self]
    intro c hc
    simpa using (h c hc).1
  have h2 : cs.filter (fun c => c != '"') = cs := by
    rw [List.filter_eq_self]
    intro c hc
    simpa using (h c hc).2
  rw [h1, h2]

/-- The mantissa of a decimal literal: the digits before and after the
point, for a mantissa with and without a point. -/
theorem mantissa_split (I F : List Char) (hI : ∀ c ∈ I, c ≠ '.') :
    ((I ++ '.' :: F).takeWhile (fun c => c != '.') = I ∧
      ((I ++ '.' :: F).dropWhile (fun c => c != '.')).drop 1 = F) ∧
    (I.takeWhile (fun c => c != '.') = I ∧ (I.dropWhile (fun c => c != '.')).drop 1 = []) := by
  have hp : ∀ c ∈ I, (fun c : Char => c != '.') c = true := by
    intro c hc
    simpa using hI c hc
  refine ⟨⟨?_, ?_⟩, ?_, ?_⟩
  · rw [List.takeWhile_append_of_pos hp]
    simp
  · rw [List.dropWhile_append_of_pos hp]
    simp
  · exact takeWhile_of_all_true _ I hp
  · rw [dropWhile_of_all_true _ I hp]
    rfl

/-- The value of an unsigned decimal literal made of a mantissa `M`, whose
digits before and after the point are `I` and `F`, and of an exponent part
`T`, empty or an `e` followed by an exponent that reads `k`. -/
theorem parseUnsignedDecimal_eq (M I F T : List Char) (k : Int)
    (hM : ∀ c ∈ M, c ≠ 'e' ∧ c ≠ 'E')
    (hI : M.takeWhile (fun c => c != '.') = I)
    (hF : (M.dropWhile (fun c => c != '.')).drop 1 = F)
    (hdI : I.all Char.isDigit = true) (hdF : F.all Char.isDigit = true) (hne : I ≠ [])
    (hT : (T = [] ∧ k = 0) ∨ ∃ X, T = 'e' :: X ∧ parseExponent X = some k) :
    parseUnsignedDecimal (M ++ T) = some (natOfDigits (I ++ F), k - (F.length : Int)) := by
  have hp : ∀ c ∈ M, (fun c : Char => c != 'e' && c != 'E') c = true := by
    intro c hc
    simpa using hM c hc
  have hne2 : I.isEmpty = false := by
    cases I with
    | nil => exact absurd rfl hne
    | cons a t => rfl
  rcases hT with ⟨rfl, rfl⟩ | ⟨X, rfl, hX⟩
  · have h1 : (M ++ []).takeWhile (fun c => c != 'e' && c != 'E') = M := by
      rw [List.append_nil]
      exact takeWhile_of_all_true _ M hp
    have h2 : (M ++ []).dropWhile (fun c => c != 'e' && c != 'E') = [] := by
      rw [List.append_nil]
      exact dropWhile_of_all_true _ M hp
    simp only [parseUnsignedDecimal, h1, h2, hI, hF, hdI, hdF, hne2]
    simp
  · have h1 : (M ++ 'e' :: X).takeWhile (fun c => c != 'e' && c != 'E') = M := by
      rw [List.takeWhile_append_of_pos hp]
      simp
    have h2 : (M ++ 'e' :: X).dropWhile (fun c => c != 'e' && c != 'E') = 'e' :: X := by
      rw [List.dropWhile_append_of_pos hp]
      simp
    simp only [parseUnsignedDecimal, h1, h2, hI, hF, hdI, hdF, hne2, hX]
    simp


theorem digits_all_isDigit (l : List Nat) (h : ∀ d ∈ l, d < 10) :
    (l.map digitChar).all Char.isDigit = true := by
  rw [List.all_eq_true]
  intro c hc
  obtain ⟨d, hd, rfl⟩ := List.mem_map.1 hc
  exact (digitChar_facts d (h d hd)).1

theorem natToString_facts (a : Nat) :
    (natToString a).all Char.isDigit = true ∧ natToString a ≠ [] ∧
      natOfDigits (natToString a) = a ∧
      (∀ c ∈ natToString a, isJsWhiteSpace c = false ∧ c ≠ ',' ∧ c ≠ '"') := by
  unfold natToString
  by_cases h : a = 0
  · subst h
    simp only [if_true]
    refine ⟨by decide, by decide, by decide, ?_⟩
    intro c hc
    simp only [List.mem_singleton] at hc
    subst hc
    decide
  · simp only [h, if_false]
    have hlt : ∀ d ∈ (Nat.digits 10 a).reverse, d < 10 := fun d hd =>
      Nat.digits_lt_base (by norm_num) (List.mem_reverse.1 hd)
    refine ⟨digits_all_isDigit _ hlt, ?_, ?_, ?_⟩
    · intro h0
      have h1 : Nat.digits 10 a = [] := by simpa using h0
      exact h (Nat.digits_eq_nil_iff_eq_zero.1 h1)
    · rw [natOfDigits_digits _ (fun d hd => Nat.digits_lt_base (by norm_num) hd)]
      exact Nat.ofDigits_digits 10 a
    · intro c hc
      obtain ⟨d, hd, rfl⟩ := List.mem_map.1 hc
      have hf := digitChar_facts d (hlt d hd)
      exact ⟨hf.2.2.1, hf.2.2.2.2.2.2.1, hf.2.2.2.2.2.2.2.1⟩

/-- The exponent part written for the exponent `e`. -/
theorem parseExponent_written (e : Int) :
    parseExponent ((if e < 0 then '-' else '+') :: natToString e.natAbs) = some e := by
  obtain ⟨h1, h2, h3, -⟩ := natToString_facts e.natAbs
  have hne : (natToString e.natAbs).isEmpty = false := by
    cases h : natToString e.natAbs with
    | nil => exact absurd h h2
    | cons a t => rfl
  by_cases he : e < 0
  · simp only [parseExponent, he, if_true, List.head?_cons, List.drop_succ_cons, List.drop_zero,
      h1, h3, hne]
    simp
    exact ⟨⟨h2, by simpa [List.all_eq_true] using h1⟩, by rw [h3]; omega⟩
  · simp only [parseExponent, he, if_false, List.head?_cons, List.drop_succ_cons, List.drop_zero,
      h1, h3, hne]
    simp
    exact ⟨⟨h2, by simpa [List.all_eq_true] using h1⟩, by rw [h3]; omega⟩

/-- A text that starts with a digit other than `0` is read as an unsigned
decimal literal. -/
theorem parseNumeric_digit (c : Char) (cs : List Char)
    (hs : ∀ x ∈ c :: cs, isJsWhiteSpace x = false)
    (h0 : c ≠ '0') (hm : c ≠ '-') (hp : c ≠ '+') :
    parseNumeric (String.mk (c :: cs))
      = (parseUnsignedDecimal (c :: cs)).map (fun me => (false, me.1, me.2)) := by
  unfold parseNumeric
  rw [trim_of_no_space _ hs]
  simp only
  split <;> simp_all

/-- A text that starts with `0.` is read as an unsigned decimal literal. -/
theorem parseNumeric_zero_point (cs : List Char)
    (hs : ∀ x ∈ '0' :: '.' :: cs, isJsWhiteSpace x = false) :
    parseNumeric (String.mk ('0' :: '.' :: cs))
      = (parseUnsignedDecimal ('0' :: '.' :: cs)).map (fun me => (false, me.1, me.2)) := by
  unfold parseNumeric
  rw [trim_of_no_space _ hs]
  simp only
  split <;> simp_all

/-- A text that starts with `-` is read as a negated unsigned decimal
literal. -/
theorem parseNumeric_minus (cs : List Char)
    (hs : ∀ x ∈ '-' :: cs, isJsWhiteSpace x = false) :
    parseNumeric (String.mk ('-' :: cs))
      = (parseUnsignedDecimal cs).map (fun me => (true, me.1, me.2)) := by
  unfold parseNumeric
  rw [trim_of_no_space _ hs]
  simp only


/-- A number that divides a power of 10 divides the power of 10 found by
`decimalScale`. -/
theorem dvd_pow_decimalScale (d g : Nat) (hd : d ≠ 0) (h : d ∣ 10 ^ g) :
    d ∣ 10 ^ decimalScale d := by
  have hL : d ∣ 10 ^ (Nat.log 2 d + 1) := by
    rw [← Nat.factorization_le_iff_dvd hd (by positivity)]
    have h1 := (Nat.factorization_le_iff_dvd hd (by positivity)).2 h
    rw [Finsupp.le_def] at h1 ⊢
    intro p
    have h2 := h1 p
    rw [Nat.factorization_pow, Finsupp.smul_apply, smul_eq_mul] at h2 ⊢
    by_cases hp : p.Prime
    · by_cases h10 : (10 : Nat).factorization p = 0
      · rw [h10, mul_zero] at h2
        omega
      · have hle : d.factorization p ≤ Nat.log 2 d + 1 := by
          apply Nat.factorization_le_of_le_pow
          have a1 : d < 2 ^ (Nat.log 2 d).succ := Nat.lt_pow_succ_log_self (by norm_num) d
          have a2 : 2 ^ (Nat.log 2 d + 1) ≤ p ^ (Nat.log 2 d + 1) :=
            Nat.pow_le_pow_left hp.two_le _
          exact le_of_lt (lt_of_lt_of_le a1 a2)
        have hpos : 1 ≤ (10 : Nat).factorization p := Nat.one_le_iff_ne_zero.2 h10
        calc d.factorization p ≤ Nat.log 2 d + 1 := hle
          _ = (Nat.log 2 d + 1) * 1 := (mul_one _).symm
          _ ≤ (Nat.log 2 d + 1) * (10 : Nat).factorization p := Nat.mul_le_mul_left _ hpos
    · rw [Nat.factorization_eq_zero_of_non_prime d hp]
      exact Nat.zero_le _
  unfold decimalScale
  cases hf : (List.range (Nat.log 2 d + 2)).find? (fun f => decide (d ∣ 10 ^ f)) with
  | none =>
    rw [List.find?_eq_none] at hf
    have := hf (Nat.log 2 d + 1) (List.mem_range.2 (by omega))
    simp at this
    exact absurd hL this
  | some f =>
    have := List.find?_some hf
    simpa using this

/-- A number read from a literal has a denominator that divides a power of
10. -/
theorem den_dvd_pow_of_decimal (neg : Bool) (m : Nat) (e : Int) :
    ∃ g : Nat, ((if neg then -1 else 1) * (m : ℚ) * (10 : ℚ) ^ e).den ∣ 10 ^ g := by
  by_cases he : 0 ≤ e
  · refine ⟨0, ?_⟩
    obtain ⟨n, rfl⟩ := Int.eq_ofNat_of_zero_le he
    have : ((if neg then -1 else 1) * (m : ℚ) * (10 : ℚ) ^ (n : Int))
        = (((if neg then -1 else 1) * (m : Int) * 10 ^ n : Int) : ℚ) := by
      cases neg <;> simp
    rw [this, Rat.den_intCast]
    simp
  · refine ⟨(-e).toNat, ?_⟩
    have hg : e = -((-e).toNat : Int) := by omega
    have : ((if neg then -1 else 1) * (m : ℚ) * (10 : ℚ) ^ e)
        = Rat.divInt ((if neg then -1 else 1) * (m : Int)) (10 ^ (-e).toNat : Int) := by
      rw [Rat.divInt_eq_div]
      conv_lhs => rw [hg]
      rw [zpow_neg, zpow_natCast]
      cases neg <;> simp [div_eq_mul_inv]
    rw [this]
    have hd := Rat.den_dvd ((if neg then -1 else 1) * (m : Int)) (10 ^ (-e).toNat : Int)
    exact_mod_cast hd

/-- The decimal number `q` as a natural number over a power of 10. -/
theorem abs_eq_scaled (q : ℚ) (g : Nat) (h : q.den ∣ 10 ^ g) :
    |q| = ((q.num.natAbs * (10 ^ decimalScale q.den / q.den) : Nat) : ℚ)
        / (10 : ℚ) ^ decimalScale q.den := by
  have hdvd := dvd_pow_decimalScale q.den g q.den_ne_zero h
  obtain ⟨c, hc⟩ := hdvd
  have hden : (q.den : ℚ) ≠ 0 := by exact_mod_cast q.den_ne_zero
  have hc0 : c ≠ 0 := by
    intro h0
    rw [h0, mul_zero] at hc
    exact absurd hc (by positivity)
  have hcq : (c : ℚ) ≠ 0 := by exact_mod_cast hc0
  have hdiv : 10 ^ decimalScale q.den / q.den = c := by
    rw [hc]
    exact Nat.mul_div_cancel_left c (Nat.pos_of_ne_zero q.den_ne_zero)
  have hpow : (10 : ℚ) ^ decimalScale q.den = (q.den : ℚ) * (c : ℚ) := by
    exact_mod_cast congrArg (fun n : Nat => (n : ℚ)) hc
  rw [hdiv, hpow]
  have habs : |q| = (q.num.natAbs : ℚ) / (q.den : ℚ) := by
    conv_lhs => rw [← Rat.num_div_den q]
    rw [abs_div, Nat.abs_cast]
    congr 1
    rw [Nat.cast_natAbs, Int.cast_abs]
  rw [habs]
  push_cast
  field_simp
  ring


theorem plainChar_digit (d : Nat) (h : d < 10) : plainChar (digitChar d) = true := by
  have hf := digitChar_facts d h
  simp [plainChar, hf.2.2.1, hf.2.2.2.2.2.2.1, hf.2.2.2.2.2.2.2.1]

/-- The digits written for a number without trailing zero: they start with a
digit other than `0`. -/
theorem written_digits (rest : List Nat) (h10 : ∀ d ∈ rest, d < 10) (hne : rest ≠ [])
    (hlast : rest.getLast hne ≠ 0) :
    (∃ c0 tail, rest.reverse.map digitChar = c0 :: tail ∧ c0 ≠ '0' ∧ c0 ≠ '-' ∧ c0 ≠ '+') ∧
      (∀ c ∈ rest.reverse.map digitChar, ∃ d, d < 10 ∧ c = digitChar d) ∧
      (rest.reverse.map digitChar).length = rest.length := by
  refine ⟨?_, ?_, by simp⟩
  · have hsplit : rest = rest.dropLast ++ [rest.getLast hne] :=
      (List.dropLast_append_getLast hne).symm
    have hlt : rest.getLast hne < 10 := h10 _ (List.getLast_mem hne)
    have hf := digitChar_facts _ hlt
    refine ⟨digitChar (rest.getLast hne), rest.dropLast.reverse.map digitChar, ?_, ?_,
      hf.2.2.2.2.2.2.2.2.1, hf.2.2.2.2.2.2.2.2.2.1⟩
    · conv_lhs => rw [hsplit]
      simp
    · intro h0
      exact hlast (hf.2.2.2.2.2.2.2.2.2.2.1 h0)
  · intro c hc
    obtain ⟨d, hd, rfl⟩ := List.mem_map.1 hc
    exact ⟨d, h10 d (List.mem_reverse.1 hd), rfl⟩

/-- The number read from a written text: the sign, then a body that is read
as the unsigned literal of the absolute value. -/
theorem jsNumber_of_body (q : ℚ) (hq : q ≠ 0) (body : List Char) (mant : Nat) (ex : Int)
    (hplain : ∀ c ∈ body, plainChar c = true)
    (hdisp : parseNumeric (String.mk body)
      = (parseUnsignedDecimal body).map (fun me => (false, me.1, me.2)))
    (hparse : parseUnsignedDecimal body = some (mant, ex))
    (hval : (mant : ℚ) * (10 : ℚ) ^ ex = |q|) :
    jsNumber (removeCommasQuotes (String.mk ((if q < 0 then ['-'] else []) ++ body)))
      = JsNum.fin q := by
  have hp : ∀ c ∈ body, isJsWhiteSpace c = false ∧ c ≠ ',' ∧ c ≠ '"' := by
    intro c hc
    have := hplain c hc
    simpa [plainChar, and_assoc] using this
  by_cases hneg : q < 0
  · simp only [hneg, if_true, List.singleton_append]
    have hall : ∀ c ∈ '-' :: body, isJsWhiteSpace c = false ∧ c ≠ ',' ∧ c ≠ '"' := by
      intro c hc
      rcases List.mem_cons.1 hc with rfl | hc
      · decide
      · exact hp c hc
    rw [removeCommasQuotes_of_plain _ (fun c hc => (hall c hc).2)]
    have hpn := parseNumeric_minus body (fun c hc => (hall c hc).1)
    rw [hparse] at hpn
    simp only [jsNumber, hpn, Option.map_some']
    simp only [if_true]
    congr 1
    rw [mul_assoc, hval, abs_of_neg hneg]
    ring
  · simp only [hneg, if_false, List.nil_append]
    rw [removeCommasQuotes_of_plain _ (fun c hc => (hp c hc).2)]
    rw [hparse] at hdisp
    simp only [jsNumber, hdisp, Option.map_some']
    simp only [Bool.false_eq_true, if_false]
    congr 1
    rw [mul_assoc, hval, abs_of_pos (lt_of_le_of_ne (not_lt.1 hneg) (Ne.symm hq))]
    ring


theorem digit_list_facts (ds : List Char) (hds : ∀ c ∈ ds, ∃ d, d < 10 ∧ c = digitChar d) :
    ds.all Char.isDigit = true ∧ (∀ c ∈ ds, c ≠ '.') ∧ (∀ c ∈ ds, c ≠ 'e' ∧ c ≠ 'E') ∧
      (∀ c ∈ ds, plainChar c = true) := by
  refine ⟨?_, ?_, ?_, ?_⟩
  · rw [List.all_eq_true]
    intro c hc
    obtain ⟨d, hd, rfl⟩ := hds c hc
    exact (digitChar_facts d hd).1
  · intro c hc
    obtain ⟨d, hd, rfl⟩ := hds c hc
    exact (digitChar_facts d hd).2.2.2.1
  · intro c hc
    obtain ⟨d, hd, rfl⟩ := hds c hc
    exact ⟨(digitChar_facts d hd).2.2.2.2.1, (digitChar_facts d hd).2.2.2.2.2.1⟩
  · intro c hc
    obtain ⟨d, hd, rfl⟩ := hds c hc
    exact plainChar_digit d hd

theorem zeros_are_digits (j : Nat) :
    ∀ c ∈ List.replicate j '0', ∃ d, d < 10 ∧ c = digitChar d := by
  intro c hc
  rw [List.mem_replicate] at hc
  exact ⟨0, by norm_num, hc.2.trans (by decide)⟩

/-- The digits followed by zeros: an integer. -/
theorem parse_digits_zeros (ds : List Char) (j : Nat)
    (hds : ∀ c ∈ ds, ∃ d, d < 10 ∧ c = digitChar d) (hne : ds ≠ []) :
    parseUnsignedDecimal (ds ++ List.replicate j '0')
      = some (natOfDigits ds * 10 ^ j, 0) := by
  have hall : ∀ c ∈ ds ++ List.replicate j '0', ∃ d, d < 10 ∧ c = digitChar d := by
    intro c hc
    rcases List.mem_append.1 hc with h | h
    · exact hds c h
    · exact zeros_are_digits j c h
  obtain ⟨h1, h2, h3, -⟩ := digit_list_facts _ hall
  have hs := (mantissa_split (ds ++ List.replicate j '0') [] h2).2
  have := parseUnsignedDecimal_eq (ds ++ List.replicate j '0') (ds ++ List.replicate j '0') []
    [] 0 h3 hs.1 hs.2 h1 rfl (by simp [hne]) (Or.inl ⟨rfl, rfl⟩)
  rw [List.append_nil] at this
  rw [this, natOfDigits_append, natOfDigits_replicate_zero]
  simp

/-- The digits with a point after the first `j` of them. -/
theorem parse_digits_point (ds : List Char) (j : Nat)
    (hds : ∀ c ∈ ds, ∃ d, d < 10 ∧ c = digitChar d) (hne : ds ≠ []) (hj : 0 < j) :
    parseUnsignedDecimal (ds.take j ++ '.' :: ds.drop j)
      = some (natOfDigits ds, -((ds.drop j).length : Int)) := by
  have hI : ∀ c ∈ ds.take j, ∃ d, d < 10 ∧ c = digitChar d :=
    fun c hc => hds c (List.mem_of_mem_take hc)
  have hF : ∀ c ∈ ds.drop j, ∃ d, d < 10 ∧ c = digitChar d :=
    fun c hc => hds c (List.mem_of_mem_drop hc)
  obtain ⟨i1, i2, i3, -⟩ := digit_list_facts _ hI
  obtain ⟨f1, f2, f3, -⟩ := digit_list_facts _ hF
  have hs := (mantissa_split (ds.take j) (ds.drop j) i2).1
  have hM : ∀ c ∈ ds.take j ++ '.' :: ds.drop j, c ≠ 'e' ∧ c ≠ 'E' := by
    intro c hc
    rcases List.mem_append.1 hc with h | h
    · exact i3 c h
    · rcases List.mem_cons.1 h with rfl | h
      · decide
      · exact f3 c h
  have hne2 : ds.take j ≠ [] := by
    cases ds with
    | nil => exact absurd rfl hne
    | cons a t =>
      cases j with
      | zero => omega
      | succ j => simp
  have := parseUnsignedDecimal_eq (ds.take j ++ '.' :: ds.drop j) (ds.take j) (ds.drop j)
    [] 0 hM hs.1 hs.2 i1 f1 hne2 (Or.inl ⟨rfl, rfl⟩)
  rw [List.append_nil] at this
  rw [this, List.take_append_drop]
  simp

/-- The text `0.` followed by zeros and the digits. -/
theorem parse_zero_point (ds : List Char) (j : Nat)
    (hds : ∀ c ∈ ds, ∃ d, d < 10 ∧ c = digitChar d) :
    parseUnsignedDecimal ('0' :: '.' :: (List.replicate j '0' ++ ds))
      = some (natOfDigits ds, -((j + ds.length : Nat) : Int)) := by
  have hF : ∀ c ∈ List.replicate j '0' ++ ds, ∃ d, d < 10 ∧ c = digitChar d := by
    intro c hc
    rcases List.mem_append.1 hc with h | h
    · exact zeros_are_digits j c h
    · exact hds c h
  obtain ⟨f1, f2, f3, -⟩ := digit_list_facts _ hF
  have hI2 : ∀ c ∈ ['0'], c ≠ '.' := by
    intro c hc
    rw [List.mem_singleton] at hc
    subst hc
    decide
  have hs := (mantissa_split ['0'] (List.replicate j '0' ++ ds) hI2).1
  have hM : ∀ c ∈ ['0'] ++ '.' :: (List.replicate j '0' ++ ds), c ≠ 'e' ∧ c ≠ 'E' := by
    intro c hc
    rcases List.mem_append.1 hc with h | h
    · rw [List.mem_singleton] at h
      subst h
      decide
    · rcases List.mem_cons.1 h with rfl | h
      · decide
      · exact f3 c h
  have := parseUnsignedDecimal_eq (['0'] ++ '.' :: (List.replicate j '0' ++ ds)) ['0']
    (List.replicate j '0' ++ ds) [] 0 hM hs.1 hs.2 (by decide) f1 (by simp)
    (Or.inl ⟨rfl, rfl⟩)
  rw [List.append_nil] at this
  have e1 : '0' :: '.' :: (List.replicate j '0' ++ ds)
      = ['0'] ++ '.' :: (List.replicate j '0' ++ ds) := rfl
  rw [e1, this, natOfDigits_append, natOfDigits_append, natOfDigits_replicate_zero]
  have : natOfDigits ['0'] = 0 := by decide
  rw [this]
  simp

/-- The digits in exponent notation, with a point after the first digit or
without a point. -/
theorem parse_exponent_form (ds : List Char) (e : Int)
    (hds : ∀ c ∈ ds, ∃ d, d < 10 ∧ c = digitChar d) (hne : ds ≠ []) :
    parseUnsignedDecimal
        (ds ++ 'e' :: ((if e < 0 then '-' else '+') :: natToString e.natAbs))
      = some (natOfDigits ds, e) ∧
    parseUnsignedDecimal
        (ds.take 1 ++ '.' :: (ds.drop 1 ++
          'e' :: ((if e < 0 then '-' else '+') :: natToString e.natAbs)))
      = some (natOfDigits ds, e - ((ds.drop 1).length : Int)) := by
  obtain ⟨d1, d2, d3, -⟩ := digit_list_facts _ hds
  constructor
  · have hs := (mantissa_split ds [] d2).2
    have := parseUnsignedDecimal_eq ds ds []
      ('e' :: ((if e < 0 then '-' else '+') :: natToString e.natAbs)) e d3 hs.1 hs.2 d1 rfl
      hne (Or.inr ⟨_, rfl, parseExponent_written e⟩)
    rw [this, List.append_nil]
    simp
  · have hI : ∀ c ∈ ds.take 1, ∃ d, d < 10 ∧ c = digitChar d :=
      fun c hc => hds c (List.mem_of_mem_take hc)
    have hF : ∀ c ∈ ds.drop 1, ∃ d, d < 10 ∧ c = digitChar d :=
      fun c hc => hds c (List.mem_of_mem_drop hc)
    obtain ⟨i1, i2, i3, -⟩ := digit_list_facts _ hI
    obtain ⟨f1, f2, f3, -⟩ := digit_list_facts _ hF
    have hs := (mantissa_split (ds.take 1) (ds.drop 1) i2).1
    have hM : ∀ c ∈ ds.take 1 ++ '.' :: ds.drop 1, c ≠ 'e' ∧ c ≠ 'E' := by
      intro c hc
      rcases List.mem_append.1 hc with h | h
      · exact i3 c h
      · rcases List.mem_cons.1 h with rfl | h
        · decide
        · exact f3 c h
    have hne2 : ds.take 1 ≠ [] := by
      cases ds with
      | nil => exact absurd rfl hne
      | cons a t => simp
    have := parseUnsignedDecimal_eq (ds.take 1 ++ '.' :: ds.drop 1) (ds.take 1) (ds.drop 1)
      ('e' :: ((if e < 0 then '-' else '+') :: natToString e.natAbs)) e hM hs.1 hs.2 i1 f1
      hne2 (Or.inr ⟨_, rfl, parseExponent_written e⟩)
    have e1 : ds.take 1 ++ '.' :: (ds.drop 1 ++
        'e' :: ((if e < 0 then '-' else '+') :: natToString e.natAbs))
        = (ds.take 1 ++ '.' :: ds.drop 1) ++
          'e' :: ((if e < 0 then '-' else '+') :: natToString e.natAbs) := by
      simp
    rw [e1, this, List.take_append_drop]


theorem plain_special : plainChar '.' = true ∧ plainChar 'e' = true ∧ plainChar '+' = true ∧
    plainChar '-' = true ∧ plainChar '0' = true := by decide

theorem plain_exponent (e : Int) :
    ∀ c ∈ 'e' :: ((if e < 0 then '-' else '+') :: natToString e.natAbs), plainChar c = true := by
  intro c hc
  rcases List.mem_cons.1 hc with rfl | hc
  · decide
  · rcases List.mem_cons.1 hc with rfl | hc
    · split <;> decide
    · have := (natToString_facts e.natAbs).2.2.2 c hc
      simp [plainChar, this.1, this.2.1, this.2.2]

/-- The text written for a decimal number other than 0 is read back as the
number. -/
theorem jsNumber_numberToString (q : ℚ) (hq : q ≠ 0) (g : Nat) (hg : q.den ∣ 10 ^ g) :
    jsNumber (removeCommasQuotes (numberToString q)) = JsNum.fin q := by
  have habs := abs_eq_scaled q g hg
  have hM0 : q.num.natAbs * (10 ^ decimalScale q.den / q.den) ≠ 0 := by
    intro h0
    rw [h0] at habs
    simp at habs
    exact hq habs
  obtain ⟨h10, hne, hlast, hMs⟩ := digits_strip _ hM0
  obtain ⟨⟨c0, tail, hcons, hc0, hcm, hcp⟩, hds, hlen⟩ :=
    written_digits _ h10 hne (hlast hne)
  have hs := natOfDigits_digits _ h10
  unfold numberToString
  rw [if_neg hq]
  dsimp only
  generalize hzdef : (List.takeWhile (fun d => d == 0)
    (Nat.digits 10 (q.num.natAbs * (10 ^ decimalScale q.den / q.den)))).length = z
      at hMs ⊢
  generalize hrdef : List.dropWhile (fun d => d == 0)
    (Nat.digits 10 (q.num.natAbs * (10 ^ decimalScale q.den / q.den))) = rest
      at h10 hne hlast hMs hcons hds hlen hs ⊢
  generalize hddef : List.map digitChar rest.reverse = ds at hcons hds hlen hs ⊢
  generalize hfdef : decimalScale q.den = f at habs hMs ⊢
  have hdne : ds ≠ [] := by rw [hcons]; simp
  obtain ⟨-, -, -, hdplain⟩ := digit_list_facts ds hds
  have hval : ∀ ex : Int, ex = (z : Int) - (f : Int) →
      (natOfDigits ds : ℚ) * (10 : ℚ) ^ ex = |q| := by
    intro ex hex
    rw [habs, hMs, hs, hex, zpow_sub₀ (by norm_num), zpow_natCast, zpow_natCast]
    push_cast
    ring
  have hdispd : ∀ cs : List Char, (∀ c ∈ cs, plainChar c = true) →
      parseNumeric (String.mk (ds ++ cs))
        = (parseUnsignedDecimal (ds ++ cs)).map (fun me => (false, me.1, me.2)) := by
    intro cs hcs
    rw [hcons, List.cons_append]
    apply parseNumeric_digit _ _ _ hc0 hcm hcp
    intro x hx
    have hx2 : plainChar x = true := by
      rw [← List.cons_append, ← hcons] at hx
      rcases List.mem_append.1 hx with h | h
      · exact hdplain x h
      · exact hcs x h
    simp [plainChar] at hx2
    exact hx2.1.1
  by_cases h1 : (ds.length : Int) ≤ (ds.length : Int) + z - f ∧ (ds.length : Int) + z - f ≤ 21
  · -- the digits followed by zeros
    rw [if_pos h1]
    have hp := parse_digits_zeros ds ((ds.length : Int) + z - f - ds.length).toNat hds hdne
    apply jsNumber_of_body q hq _ _ _ ?_ ?_ hp ?_
    · intro c hc
      rcases List.mem_append.1 hc with h | h
      · exact hdplain c h
      · rw [List.mem_replicate] at h
        rw [h.2]
        decide
    · apply hdispd
      intro c h
      rw [List.mem_replicate] at h
      rw [h.2]
      decide
    · have hj : ((((ds.length : Int) + z - f - ds.length).toNat : Nat) : Int)
          = (z : Int) - f := by omega
      have hv := hval _ hj
      rw [zpow_natCast] at hv
      rw [← hv]
      push_cast
      simp
  rw [if_neg h1]
  by_cases h2 : 0 < (ds.length : Int) + z - f ∧ (ds.length : Int) + z - f ≤ 21
  · -- a point inside the digits
    rw [if_pos h2]
    have hjpos : 0 < ((ds.length : Int) + z - f).toNat := by omega
    have hp := parse_digits_point ds ((ds.length : Int) + z - f).toNat hds hdne hjpos
    have hpl : ∀ c ∈ ds.take ((ds.length : Int) + z - f).toNat ++
        '.' :: ds.drop ((ds.length : Int) + z - f).toNat, plainChar c = true := by
      intro c hc
      rcases List.mem_append.1 hc with h | h
      · exact hdplain c (List.mem_of_mem_take h)
      · rcases List.mem_cons.1 h with rfl | h
        · decide
        · exact hdplain c (List.mem_of_mem_drop h)
    apply jsNumber_of_body q hq _ _ _ hpl ?_ hp ?_
    · have hsplit : ∃ t, ds.take ((ds.length : Int) + z - f).toNat = c0 :: t := by
        obtain ⟨j, hj⟩ : ∃ j, ((ds.length : Int) + z - f).toNat = j + 1 :=
          ⟨((ds.length : Int) + z - f).toNat - 1, by omega⟩
        rw [hj, hcons]
        exact ⟨tail.take j, by simp⟩
      obtain ⟨t, hsplit⟩ := hsplit
      have hpl2 := hpl
      rw [hsplit, List.cons_append] at hpl2 ⊢
      apply parseNumeric_digit _ _ _ hc0 hcm hcp
      intro x hx
      have hx2 := hpl2 x hx
      simp [plainChar] at hx2
      exact hx2.1.1
    · apply hval
      rw [List.length_drop]
      omega
  rw [if_neg h2]
  by_cases h3 : -6 < (ds.length : Int) + z - f ∧ (ds.length : Int) + z - f ≤ 0
  · -- zeros after the point
    rw [if_pos h3]
    have hp := parse_zero_point ds (-((ds.length : Int) + z - f)).toNat hds
    have hpl : ∀ c ∈ '0' :: '.' ::
        (List.replicate (-((ds.length : Int) + z - f)).toNat '0' ++ ds), plainChar c = true := by
      intro c hc
      rcases List.mem_cons.1 hc with rfl | hc
      · decide
      · rcases List.mem_cons.1 hc with rfl | hc
        · decide
        · rcases List.mem_append.1 hc with h | h
          · rw [List.mem_replicate] at h
            rw [h.2]
            decide
          · exact hdplain c h
    apply jsNumber_of_body q hq _ _ _ hpl ?_ hp ?_
    · apply parseNumeric_zero_point
      intro x hx
      have hx2 := hpl x hx
      simp [plainChar] at hx2
      exact hx2.1.1
    · apply hval
      push_cast
      omega
  rw [if_neg h3]
  by_cases h4 : (ds.length : Int) = 1
  · -- exponent notation, one digit
    rw [if_pos h4]
    have hp := (parse_exponent_form ds ((ds.length : Int) + z - f - 1) hds hdne).1
    apply jsNumber_of_body q hq _ _ _ ?_ ?_ hp ?_
    · intro c hc
      rcases List.mem_append.1 hc with h | h
      · exact hdplain c h
      · exact plain_exponent _ c h
    · exact hdispd _ (plain_exponent _)
    · apply hval
      omega
  · -- exponent notation, several digits
    rw [if_neg h4]
    have hp := (parse_exponent_form ds ((ds.length : Int) + z - f - 1) hds hdne).2
    have hpl : ∀ c ∈ ds.take 1 ++ '.' :: (ds.drop 1 ++
        'e' :: ((if (ds.length : Int) + z - f - 1 < 0 then '-' else '+') ::
          natToString ((ds.length : Int) + z - f - 1).natAbs)), plainChar c = true := by
      intro c hc
      rcases List.mem_append.1 hc with h | h
      · exact hdplain c (List.mem_of_mem_take h)
      · rcases List.mem_cons.1 h with rfl | h
        · decide
        · rcases List.mem_append.1 h with h | h
          · exact hdplain c (List.mem_of_mem_drop h)
          · exact plain_exponent _ c h
    apply jsNumber_of_body q hq _ _ _ hpl ?_ hp ?_
    · have hsplit : ds.take 1 = [c0] := by
        rw [hcons]
        simp
      have hpl2 := hpl
      rw [hsplit, List.singleton_append] at hpl2 ⊢
      apply parseNumeric_digit _ _ _ hc0 hcm hcp
      intro x hx
      have hx2 := hpl2 x hx
      simp [plainChar] at hx2
      exact hx2.1.1
    · apply hval
      rw [List.length_drop]
      have : 1 ≤ ds.length := by
        rw [hcons]
        simp
      omega


/-- A number read by `jsNumber` is a decimal number. -/
theorem jsNumber_decimal (t : String) (q : ℚ) (h : jsNumber t = JsNum.fin q) :
    ∃ g : Nat, q.den ∣ 10 ^ g := by
  unfold jsNumber at h
  cases hp : parseNumeric t with
  | none =>
    rw [hp] at h
    cases h
  | some r =>
    obtain ⟨neg, m, e⟩ := r
    rw [hp] at h
    simp only [JsNum.fin.injEq] at h
    rw [← h]
    exact den_dvd_pow_of_decimal neg m e

/-- Every amount is read from a text. -/
theorem parseAmount_is_read (numToString : ℚ → String) (x : JsVal) :
    ∃ t : String, parseAmount jsNumber numToString x = jsNumber t := ⟨_, rfl⟩

theorem jsNumber_zero_text : jsNumber (removeCommasQuotes "0") = JsNum.fin 0 := by
  have hp : parseNumeric (removeCommasQuotes "0") = some (false, 0, 0) := by decide
  simp [jsNumber, hp]

/-- C12, amended: with `String(n)` as `numberToString` writes it, the amount
coercion is idempotent on every input whose amount is a number:
`parseAmount(parseAmount(x)) = parseAmount(x)` whenever `parseAmount(x)` is
not `NaN`, with no further condition; and the coercion of `NaN` is 0, so for
an input whose amount is `NaN` the second coercion gives 0. -/
theorem parseAmount_idempotent (x : JsVal) :
    (parseAmount jsNumber numberToString x ≠ JsNum.nan →
      parseAmount jsNumber numberToString
          (JsVal.num (parseAmount jsNumber numberToString x))
        = parseAmount jsNumber numberToString x) ∧
    parseAmount jsNumber numberToString (JsVal.num JsNum.nan) = JsNum.fin 0 := by
  constructor
  · intro hx
    obtain ⟨t, ht⟩ := parseAmount_is_read numberToString x
    cases hq : parseAmount jsNumber numberToString x with
    | nan => exact absurd hq hx
    | fin q =>
      rw [hq] at ht
      by_cases h0 : q = 0
      · subst h0
        simp only [parseAmount, if_true]
        exact jsNumber_zero_text
      · obtain ⟨g, hg⟩ := jsNumber_decimal t q ht.symm
        simp only [parseAmount, h0, if_false]
        exact jsNumber_numberToString q h0 g hg
  · simp only [parseAmount]
    exact jsNumber_zero_text

theorem parseAmount_cell_eval :
    parseAmount jsNumber numberToString (JsVal.str "1,234.50") = JsNum.fin (2469 / 2) := by
  have hp : parseNumeric (removeCommasQuotes "1,234.50") = some (false, 123450, -2) := by
    decide
  have hne : ("1,234.50" : String) ≠ "" := by decide
  simp only [parseAmount, hne, if_false, jsNumber, hp]
  norm_num

theorem numberToString_eval : numberToString (2469 / 2) = "1234.5" := by
  have hden : ((2469 : ℚ) / 2).den = 2 := by
    have h := Rat.den_div_eq_of_coprime (a := 2469) (b := 2) (by norm_num) (by decide)
    have h2 : ((((2469 : Int) : ℚ) / ((2 : Int) : ℚ)).den : Int) = ((2 : Nat) : Int) := by
      exact_mod_cast h
    have h3 := Int.natCast_inj.1 h2
    simpa using h3
  have hnum : ((2469 : ℚ) / 2).num = 2469 := by
    have h := Rat.num_div_eq_of_coprime (a := 2469) (b := 2) (by norm_num) (by decide)
    simpa using h
  have hlog : Nat.log 2 2 = 1 := Nat.log_eq_of_pow_le_of_lt_pow (by norm_num) (by norm_num)
  have hsc : decimalScale 2 = 1 := by
    simp only [decimalScale, hlog]
    decide
  have hne : ¬ ((2469 : ℚ) / 2 = 0) := by norm_num
  have hpos : ¬ ((2469 : ℚ) / 2 < 0) := by norm_num
  have hdig : Nat.digits 10 12345 = [5, 4, 3, 2, 1] := by norm_num
  unfold numberToString
  rw [if_neg hne]
  simp only [hden, hnum, hsc, hpos, if_false]
  have hM : Int.natAbs 2469 * (10 ^ 1 / 2) = 12345 := by decide
  rw [hM, hdig]
  decide

theorem parseAmount_text_eval :
    parseAmount jsNumber numberToString (JsVal.str "abc") = JsNum.nan := by
  have hp : parseNumeric (removeCommasQuotes "abc") = none := by decide
  have hne : ("abc" : String) ≠ "" := by decide
  simp only [parseAmount, hne, if_false, jsNumber, hp]

theorem rat_num_den (a : Int) (b : Nat) (hb : 0 < b) (h : Nat.Coprime a.natAbs b) :
    ((a : ℚ) / (b : ℚ)).num = a ∧ ((a : ℚ) / (b : ℚ)).den = b := by
  have h1 := Rat.num_div_eq_of_coprime (a := a) (b := (b : Int)) (by exact_mod_cast hb)
    (by simpa using h)
  have h2 := Rat.den_div_eq_of_coprime (a := a) (b := (b : Int)) (by exact_mod_cast hb)
    (by simpa using h)
  constructor
  · simpa using h1
  · have h3 : ((((a : ℚ) / ((b : Int) : ℚ)).den : Nat) : Int) = ((b : Nat) : Int) := h2
    have h4 := Int.natCast_inj.1 h3
    simpa using h4

/-- The text of a number from its numerator, its denominator, its number of
decimals and the digits of its scaled numerator. -/
theorem numberToString_of (a : Int) (b f : Nat) (le : List Nat) (hb : 0 < b)
    (h : Nat.Coprime a.natAbs b) (ha : a ≠ 0) (hf : decimalScale b = f)
    (hle : Nat.digits 10 (a.natAbs * (10 ^ f / b)) = le) :
    numberToString ((a : ℚ) / (b : ℚ)) =
      String.mk ((if a < 0 then ['-'] else []) ++
        (let z := (le.takeWhile (fun d => d == 0)).length
         let ds := ((le.dropWhile (fun d => d == 0)).reverse).map digitChar
         let k : Int := ds.length
         let n : Int := k + z - f
         if k ≤ n ∧ n ≤ 21 then ds ++ List.replicate (n - k).toNat '0'
         else if 0 < n ∧ n ≤ 21 then ds.take n.toNat ++ '.' :: ds.drop n.toNat
         else if -6 < n ∧ n ≤ 0 then '0' :: '.' :: (List.replicate (-n).toNat '0' ++ ds)
         else
           let expChars := (if n - 1 < 0 then '-' else '+') :: natToString (n - 1).natAbs
           if k = 1 then ds ++ 'e' :: expChars
           else ds.take 1 ++ '.' :: (ds.drop 1 ++ 'e' :: expChars))) := by
  obtain ⟨hn, hd⟩ := rat_num_den a b hb h
  have hbq : (0 : ℚ) < (b : ℚ) := by exact_mod_cast hb
  have hq : ((a : ℚ) / (b : ℚ)) ≠ 0 := by
    apply div_ne_zero
    · exact_mod_cast ha
    · exact ne_of_gt hbq
  have hlt : ((a : ℚ) / (b : ℚ) < 0) ↔ a < 0 := by
    rw [div_neg_iff]
    constructor
    · rintro (⟨-, h2⟩ | ⟨h1, -⟩)
      · exact absurd h2 (not_lt.2 (le_of_lt hbq))
      · exact_mod_cast h1
    · intro h1
      exact Or.inr ⟨by exact_mod_cast h1, hbq⟩
  unfold numberToString
  rw [if_neg hq]
  simp only [hn, hd, hf, hle, hlt]

/-- The text of numbers of each form: a negative fraction, an integer with a
trailing zero, and the exponent notation with one digit and with several. -/
theorem numberToString_examples :
    numberToString (((-1 : Int) : ℚ) / ((8 : Nat) : ℚ)) = "-0.125" ∧
    numberToString (((120 : Int) : ℚ) / ((1 : Nat) : ℚ)) = "120" ∧
    numberToString (((1 : Int) : ℚ) / ((10000000 : Nat) : ℚ)) = "1e-7" ∧
    numberToString (((1500000000000000000000 : Int) : ℚ) / ((1 : Nat) : ℚ)) = "1.5e+21" := by
  have l1 : Nat.log 2 1 = 0 := by simp
  have l8 : Nat.log 2 8 = 3 := Nat.log_eq_of_pow_le_of_lt_pow (by norm_num) (by norm_num)
  have l7 : Nat.log 2 10000000 = 23 :=
    Nat.log_eq_of_pow_le_of_lt_pow (by norm_num) (by norm_num)
  have s1 : decimalScale 1 = 0 := by
    simp only [decimalScale, l1]
    decide
  have s8 : decimalScale 8 = 3 := by
    simp only [decimalScale, l8]
    decide
  have s7 : decimalScale 10000000 = 7 := by
    simp only [decimalScale, l7]
    decide
  refine ⟨?_, ?_, ?_, ?_⟩
  · rw [numberToString_of (-1) 8 3 [5, 2, 1] (by norm_num) (by decide) (by decide) s8
      (by norm_num)]
    decide
  · rw [numberToString_of 120 1 0 [0, 2, 1] (by norm_num) (by decide) (by decide) s1
      (by norm_num)]
    decide
  · have n7 : natToString 7 = ['7'] := by
      norm_num [natToString]
      decide
    have e7 : ((([1] : List Nat).dropWhile (fun d => d == 0)).reverse.map digitChar).length
        + ((([1] : List Nat).takeWhile (fun d => d == 0)).length : Int) - (7 : Nat) - 1
        = -7 := by decide
    rw [numberToString_of 1 10000000 7 [1] (by norm_num) (by decide) (by decide) s7
      (by norm_num)]
    simp only [e7]
    rw [show (-7 : Int).natAbs = 7 from rfl, n7]
    decide
  · have n21 : natToString 21 = ['2', '1'] := by
      norm_num [natToString]
      decide
    have e21 : ((([0, 0, 0, 0, 0, 0, 0, 0, 0, 0, 0, 0, 0, 0, 0, 0, 0, 0, 0, 0, 5, 1] :
          List Nat).dropWhile (fun d => d == 0)).reverse.map digitChar).length
        + ((([0, 0, 0, 0, 0, 0, 0, 0, 0, 0, 0, 0, 0, 0, 0, 0, 0, 0, 0, 0, 5, 1] :
          List Nat).takeWhile (fun d => d == 0)).length : Int) - (0 : Nat) - 1
        = 21 := by decide
    rw [numberToString_of 1500000000000000000000 1 0
      [0, 0, 0, 0, 0, 0, 0, 0, 0, 0, 0, 0, 0, 0, 0, 0, 0, 0, 0, 0, 5, 1] (by norm_num)
      (by decide) (by decide) s1 (by norm_num)]
    simp only [e21]
    rw [show (21 : Int).natAbs = 21 from rfl, n21]
    decide

/-- C12, amended, at the cell `1,234.50`, whose amount 1234.5 is written
`1234.5` and read back, and at the cell `abc`, whose amount is `NaN` and is
coerced to 0. -/
theorem parseAmount_idempotent_witness :
    parseAmount jsNumber numberToString (JsVal.str "1,234.50") = JsNum.fin (2469 / 2) ∧
      numberToString (2469 / 2) = "1234.5" ∧
      parseAmount jsNumber numberToString
          (JsVal.num (parseAmount jsNumber numberToString (JsVal.str "1,234.50")))
        = parseAmount jsNumber numberToString (JsVal.str "1,234.50") ∧
      parseAmount jsNumber numberToString (JsVal.str "abc") = JsNum.nan ∧
      parseAmount jsNumber numberToString
          (JsVal.num (parseAmount jsNumber numberToString (JsVal.str "abc"))) = JsNum.fin 0 :=
  ⟨parseAmount_cell_eval, numberToString_eval,
   (parseAmount_idempotent (JsVal.str "1,234.50")).1 (by
     rw [parseAmount_cell_eval]
     intro h
     cases h),
   parseAmount_text_eval,
   by rw [parseAmount_text_eval]; exact (parseAmount_idempotent (JsVal.str "abc")).2⟩

/-! ## Monthly series: order and padding -/

theorem objectEntries_of_no_index {β : Type} (o : List (String × β))
    (h : ∀ e ∈ o, isArrayIndexKey e.1 = false) : objectEntries o = o := by
  unfold objectEntries
  have h1 : o.filter (fun e => isArrayIndexKey e.1) = [] := by
    rw [List.filter_eq_nil_iff]
    intro e he
    simp [h e he]
  have h2 : o.filter (fun e => !isArrayIndexKey e.1) = o := by
    rw [List.filter_eq_self]
    intro e he
    simp [h e he]
  rw [h1, h2]
  rfl

/-- C16 (the code diverges): `getMonthlyChargesTrend` and
`getMonthlyNCRTrend` return the months in the order in which they first
occur in the rows.  For a February row followed by a January row the series
is February, January, whatever the value function, and for the same two rows
in the other order it is January, February: the series is neither
chronological nor independent of the order of the rows. -/
theorem sparkline_series_in_insertion_order (fn : List Row → JsNum) :
    let feb : Row := { month := "Feb 24" }
    let jan : Row := { month := "Jan 24" }
    getMonthlyChargesTrend [feb, jan] fn
        = [{ value := fn [feb], month := "Feb 24" }, { value := fn [jan], month := "Jan 24" }] ∧
      getMonthlyChargesTrend [jan, feb] fn
        = [{ value := fn [jan], month := "Jan 24" }, { value := fn [feb], month := "Feb 24" }] ∧
      getMonthlyNCRTrend [feb, jan] fn
        = [{ value := fn [feb], month := "Feb 24" }, { value := fn [jan], month := "Jan 24" }] ∧
      (kpiSparklines [feb, jan] [feb, jan]).totalClaims
        = [{ value := JsNum.fin 0, month := "Feb 24" },
           { value := JsNum.fin 0, month := "Jan 24" }] := by
  intro feb jan
  have e1 : ∀ (a b : List Row),
      objectEntries [("Feb 24", (a, "Feb 24")), ("Jan 24", (b, "Jan 24"))]
        = [("Feb 24", (a, "Feb 24")), ("Jan 24", (b, "Jan 24"))] := by
    intro a b
    apply objectEntries_of_no_index
    intro e he
    simp only [List.mem_cons, List.mem_singleton, List.not_mem_nil, or_false] at he
    have k1 : isArrayIndexKey "Feb 24" = false := by decide
    have k2 : isArrayIndexKey "Jan 24" = false := by decide
    rcases he with rfl | rfl
    · exact k1
    · exact k2
  have e2 : ∀ (a b : List Row),
      objectEntries [("Jan 24", (a, "Jan 24")), ("Feb 24", (b, "Feb 24"))]
        = [("Jan 24", (a, "Jan 24")), ("Feb 24", (b, "Feb 24"))] := by
    intro a b
    apply objectEntries_of_no_index
    intro e he
    simp only [List.mem_cons, List.mem_singleton, List.not_mem_nil, or_false] at he
    have k1 : isArrayIndexKey "Feb 24" = false := by decide
    have k2 : isArrayIndexKey "Jan 24" = false := by decide
    rcases he with rfl | rfl
    · exact k2
    · exact k1
  have hf : (if feb.month = "" then "Unknown" else feb.month) = "Feb 24" := by decide
  have hj : (if jan.month = "" then "Unknown" else jan.month) = "Jan 24" := by decide
  have n1 : ("Feb 24" = "Jan 24") = False := by decide
  have n2 : ("Jan 24" = "Feb 24") = False := by decide
  have c1 : ∀ g : List Row → JsNum, getMonthlyChargesTrend [feb, jan] g
      = [{ value := g [feb], month := "Feb 24" }, { value := g [jan], month := "Jan 24" }] := by
    intro g
    simp only [getMonthlyChargesTrend, List.foldl, hf, hj, upsert, objGet, objSet, n1, n2,
      if_false, e1, List.map, List.nil_append]
  have c2 : getMonthlyChargesTrend [jan, feb] fn
      = [{ value := fn [jan], month := "Jan 24" }, { value := fn [feb], month := "Feb 24" }] := by
    simp only [getMonthlyChargesTrend, List.foldl, hf, hj, upsert, objGet, objSet, n1, n2,
      if_false, e2, List.map, List.nil_append]
  refine ⟨c1 fn, c2, c1 fn, ?_⟩
  show getMonthlyChargesTrend [feb, jan] sparklineTotalClaimsValue = _
  rw [c1 sparklineTotalClaimsValue]
  simp [sparklineTotalClaimsValue, feb, jan, JsNum.orElse_zero]

theorem objectEntries_singleton {β : Type} (e : String × β) : objectEntries [e] = [e] := by
  unfold objectEntries
  by_cases h : isArrayIndexKey e.1 = true
  · simp [List.filter, h]
  · simp [List.filter, h]

theorem sortByKey_singleton {α : Type} (key : α → JsNum) (a : α) : sortByKey key [a] = [a] := by
  simp [sortByKey]

theorem padSinglePoint_length {α : Type} (setMonth : α → String → α) (data : List α) :
    (padSinglePoint setMonth data).length ≠ 1 := by
  unfold padSinglePoint
  split
  · simp
  · rename_i h
    intro hl
    rw [List.length_eq_one] at hl
    obtain ⟨a, ha⟩ := hl
    exact h a ha

/-- C17: when the bucketing yields exactly one month, each of the three
monthly series (`mainChartData`, the series of `NcrPage.jsx`, the series of
`TotalPage.jsx`) has exactly three entries: the point of this month with the
label replaced by the empty string, the point itself, and the point with the
label replaced by one space, the other fields being the same in all three;
and no returned series ever has length 1. -/
theorem single_bucket_padding (lib : JsLib) (filteredCharges filteredDenials filteredNCR : List Row)
    (selectedMetric : Metric) (prevKPIs : PrevKPIs) (filteredNcrData filteredData : List Row) :
    (∀ e : String × MonthBucket,
        chartBuckets lib filteredCharges filteredDenials filteredNCR selectedMetric prevKPIs = [e] →
        mainChartData lib filteredCharges filteredDenials filteredNCR selectedMetric prevKPIs
          = [{ month := "", avg := bucketValue selectedMetric e.2, target := e.2.target,
               baseline := e.2.baseline },
             { month := e.1, avg := bucketValue selectedMetric e.2, target := e.2.target,
               baseline := e.2.baseline },
             { month := " ", avg := bucketValue selectedMetric e.2, target := e.2.target,
               baseline := e.2.baseline }]) ∧
      (mainChartData lib filteredCharges filteredDenials filteredNCR selectedMetric
        prevKPIs).length ≠ 1 ∧
      (∀ e : String × NcrMonth, ncrPageBuckets lib filteredNcrData = [e] →
        ncrPageMonthlyData lib filteredNcrData
          = [{ month := "", actual := (ncrPagePoint lib e).actual, target := JsNum.fin 97 },
             { month := e.1, actual := (ncrPagePoint lib e).actual, target := JsNum.fin 97 },
             { month := " ", actual := (ncrPagePoint lib e).actual, target := JsNum.fin 97 }]) ∧
      (ncrPageMonthlyData lib filteredNcrData).length ≠ 1 ∧
      (∀ e : String × TotalMonth, totalPageBuckets lib filteredData = [e] →
        totalPageMonthlyData lib filteredData
          = [{ month := "", claims := e.2.count.round },
             { month := e.1, claims := e.2.count.round },
             { month := " ", claims := e.2.count.round }]) ∧
      (totalPageMonthlyData lib filteredData).length ≠ 1 := by
  refine ⟨?_, ?_, ?_, ?_, ?_, ?_⟩
  · intro e h
    simp only [mainChartData, sortedBuckets, h, objectEntries_singleton, sortByKey_singleton,
      List.map, padSinglePoint]
  · unfold mainChartData
    exact padSinglePoint_length _ _
  · intro e h
    simp only [ncrPageMonthlyData, h, objectEntries_singleton, sortByKey_singleton,
      List.map, padSinglePoint, ncrPagePoint]
  · unfold ncrPageMonthlyData
    exact padSinglePoint_length _ _
  · intro e h
    simp only [totalPageMonthlyData, h, objectEntries_singleton, sortByKey_singleton,
      List.map, padSinglePoint]
  · unfold totalPageMonthlyData
    exact padSinglePoint_length _ _

theorem calLib_jan5 :
    calLib.dayjs "2024-01-05" = Dayjs.ms 1704412800000 ∧
      calLib.formatMMMYY (Dayjs.ms 1704412800000) = "Jan 24" ∧
      (Dayjs.ms 1704412800000).startOfMonth = Dayjs.ms 1704067200000 := by
  refine ⟨?_, ?_, ?_⟩ <;> decide

theorem single_bucket_pages_eval :
    let r : Row := { month := "Jan 24", Charge_Entry_Date := some "2024-01-05",
                     Billed_Amount := JsNum.fin 200, Paid_Amount := JsNum.fin 100,
                     visit := JsNum.fin 2 }
    totalPageBuckets calLib [r]
        = [("Jan 24", { count := JsNum.fin 2, date := Dayjs.ms 1704067200000 })] ∧
      ncrPageBuckets calLib [r]
        = [("Jan 24", { billed := JsNum.fin 200, paid := JsNum.fin 100,
                        adjustment := JsNum.fin 0, date := Dayjs.ms 1704067200000 })] := by
  intro r
  obtain ⟨hd, hf, hs⟩ := calLib_jan5
  constructor
  · simp [totalPageBuckets, r, upsert, objGet, objSet, dayjsOfField, hd, hs, JsNum.orElse,
      JsNum.truthy]
  · simp [ncrPageBuckets, r, upsert, objGet, objSet, dayjsOfField, hd, hs, hf, Dayjs.isValid,
      JsNum.orElse, JsNum.truthy]

theorem single_bucket_main_eval :
    chartBuckets calLib []
        [{ Date_of_Service := some "2024-01-05", Claim_Status := some "Denied" }] []
        Metric.DenialRate entfwPrevKPIs
      = [("Jan 24",
          { paidSum := JsNum.fin 0, billedSum := JsNum.fin 0, adjustmentSum := JsNum.fin 0,
            ccrSum := JsNum.fin 0, ccrCount := JsNum.fin 0, count := JsNum.fin 0,
            date := Dayjs.ms 1704067200000,
            fprTrueCount := JsNum.fin 0, fprDenialCount := JsNum.fin 1,
            deniedCount := JsNum.fin 1, totalDenialRows := JsNum.fin 1,
            ncrPaid := JsNum.fin 0, ncrBilled := JsNum.fin 0, ncrAdj := JsNum.fin 0,
            target := JsNum.fin (3 / 10), baseline := JsNum.fin (30 / 100) })] := by
  obtain ⟨hd, hf, hs⟩ := calLib_jan5
  have hden : isDeniedStatus
      { Date_of_Service := some "2024-01-05", Claim_Status := some "Denied" } = true := by
    decide
  simp [chartBuckets, bucketStep, upsert, objGet, objSet, dayjsOfField, hd, hs, hf,
    Dayjs.isValid, newBucket, denialUpdate, hden, Metric.target, Metric.baseline,
    entfwPrevKPIs, JsNum.orElse, JsNum.truthy]

theorem single_bucket_padding_witness :
    (chartBuckets calLib []
        [{ Date_of_Service := some "2024-01-05", Claim_Status := some "Denied" }] []
        Metric.DenialRate entfwPrevKPIs
      = [("Jan 24",
          { paidSum := JsNum.fin 0, billedSum := JsNum.fin 0, adjustmentSum := JsNum.fin 0,
            ccrSum := JsNum.fin 0, ccrCount := JsNum.fin 0, count := JsNum.fin 0,
            date := Dayjs.ms 1704067200000,
            fprTrueCount := JsNum.fin 0, fprDenialCount := JsNum.fin 1,
            deniedCount := JsNum.fin 1, totalDenialRows := JsNum.fin 1,
            ncrPaid := JsNum.fin 0, ncrBilled := JsNum.fin 0, ncrAdj := JsNum.fin 0,
            target := JsNum.fin (3 / 10), baseline := JsNum.fin (30 / 100) })] ∧
      mainChartData calLib []
        [{ Date_of_Service := some "2024-01-05", Claim_Status := some "Denied" }] []
        Metric.DenialRate entfwPrevKPIs
      = [{ month := "", avg := JsNum.fin 100, target := JsNum.fin (3 / 10),
           baseline := JsNum.fin (30 / 100) },
         { month := "Jan 24", avg := JsNum.fin 100, target := JsNum.fin (3 / 10),
           baseline := JsNum.fin (30 / 100) },
         { month := " ", avg := JsNum.fin 100, target := JsNum.fin (3 / 10),
           baseline := JsNum.fin (30 / 100) }]) ∧
    (ncrPageBuckets calLib
        [{ month := "Jan 24", Charge_Entry_Date := some "2024-01-05",
           Billed_Amount := JsNum.fin 200, Paid_Amount := JsNum.fin 100,
           visit := JsNum.fin 2 }]
      = [("Jan 24", { billed := JsNum.fin 200, paid := JsNum.fin 100,
                      adjustment := JsNum.fin 0, date := Dayjs.ms 1704067200000 })] ∧
      (ncrPageMonthlyData calLib
        [{ month := "Jan 24", Charge_Entry_Date := some "2024-01-05",
           Billed_Amount := JsNum.fin 200, Paid_Amount := JsNum.fin 100,
           visit := JsNum.fin 2 }]).map (fun p => p.month) = ["", "Jan 24", " "]) ∧
    (totalPageBuckets calLib
        [{ month := "Jan 24", Charge_Entry_Date := some "2024-01-05",
           Billed_Amount := JsNum.fin 200, Paid_Amount := JsNum.fin 100,
           visit := JsNum.fin 2 }]
      = [("Jan 24", { count := JsNum.fin 2, date := Dayjs.ms 1704067200000 })] ∧
      totalPageMonthlyData calLib
        [{ month := "Jan 24", Charge_Entry_Date := some "2024-01-05",
           Billed_Amount := JsNum.fin 200, Paid_Amount := JsNum.fin 100,
           visit := JsNum.fin 2 }]
      = [{ month := "", claims := JsNum.fin 2 }, { month := "Jan 24", claims := JsNum.fin 2 },
         { month := " ", claims := JsNum.fin 2 }]) := by
  have h := single_bucket_padding calLib []
    [{ Date_of_Service := some "2024-01-05", Claim_Status := some "Denied" }] []
    Metric.DenialRate entfwPrevKPIs
    [{ month := "Jan 24", Charge_Entry_Date := some "2024-01-05",
       Billed_Amount := JsNum.fin 200, Paid_Amount := JsNum.fin 100, visit := JsNum.fin 2 }]
    [{ month := "Jan 24", Charge_Entry_Date := some "2024-01-05",
       Billed_Amount := JsNum.fin 200, Paid_Amount := JsNum.fin 100, visit := JsNum.fin 2 }]
  obtain ⟨h1, -, h2, -, h3, -⟩ := h
  have b := single_bucket_pages_eval
  refine ⟨⟨single_bucket_main_eval, ?_⟩, ⟨b.2, ?_⟩, ⟨b.1, ?_⟩⟩
  · rw [h1 _ single_bucket_main_eval]
    simp [bucketValue, JsNum.gt]
  · rw [h2 _ b.2]
    rfl
  · rw [h3 _ b.1]
    simp [JsNum.round]
    norm_num

/-! ## Objects as association lists -/

theorem objGet_objSet {β : Type} (o : List (String × β)) (k : String) (v : β) (k2 : String) :
    objGet (objSet o k v) k2 = if k2 = k then some v else objGet o k2 := by
  induction o with
  | nil =>
    by_cases h : k2 = k
    · simp [objSet, objGet, h]
    · have h2 : ¬ k = k2 := fun e => h e.symm
      simp [objSet, objGet, h, h2]
  | cons e rest ih =>
    obtain ⟨k1, v1⟩ := e
    by_cases h1 : k1 = k
    · subst h1
      by_cases h : k2 = k1
      · subst h
        simp [objSet, objGet]
      · have h2 : ¬ k1 = k2 := fun e => h e.symm
        simp [objSet, objGet, h, h2]
    · by_cases h : k2 = k
      · subst h
        simp [objSet, objGet, h1, ih]
      · by_cases h3 : k1 = k2
        · simp [objSet, objGet, h1, h, h3]
        · simp [objSet, objGet, h1, h, h3, ih]

theorem objGet_upsert {β : Type} (o : List (String × β)) (k : String) (init : β) (upd : β → β)
    (k2 : String) :
    objGet (upsert o k init upd) k2
      = if k2 = k then some (upd ((objGet o k).getD init)) else objGet o k2 := by
  unfold upsert
  cases h : objGet o k with
  | none => simp [objGet_objSet]
  | some b => simp [objGet_objSet]

theorem objGet_eq_none_iff {β : Type} (o : List (String × β)) (k : String) :
    objGet o k = none ↔ k ∉ o.map Prod.fst := by
  induction o with
  | nil => simp [objGet]
  | cons e rest ih =>
    obtain ⟨k1, v1⟩ := e
    by_cases h : k1 = k
    · simp [objGet, h]
    · have h2 : ¬ k = k1 := fun e => h e.symm
      simp [objGet, h, h2, ih]

theorem keys_objSet {β : Type} (o : List (String × β)) (k : String) (v : β) :
    (objSet o k v).map Prod.fst
      = if k ∈ o.map Prod.fst then o.map Prod.fst else o.map Prod.fst ++ [k] := by
  induction o with
  | nil => simp [objSet]
  | cons e rest ih =>
    obtain ⟨k1, v1⟩ := e
    by_cases h : k1 = k
    · simp [objSet, h]
    · have h2 : ¬ k = k1 := fun e => h e.symm
      by_cases h3 : k ∈ rest.map Prod.fst
      · simp only [objSet, h, if_false, List.map_cons, ih, h3, if_true, List.mem_cons, or_true]
      · simp only [objSet, h, if_false, List.map_cons, ih, h3, List.mem_cons, h2, or_self,
          List.cons_append]

theorem nodup_keys_objSet {β : Type} (o : List (String × β)) (k : String) (v : β)
    (h : (o.map Prod.fst).Nodup) : ((objSet o k v).map Prod.fst).Nodup := by
  rw [keys_objSet]
  by_cases h3 : k ∈ o.map Prod.fst
  · rw [if_pos h3]
    exact h
  · rw [if_neg h3]
    exact List.Nodup.append h (List.nodup_singleton k) (by simpa using h3)

theorem nodup_keys_upsert {β : Type} (o : List (String × β)) (k : String) (init : β)
    (upd : β → β) (h : (o.map Prod.fst).Nodup) : ((upsert o k init upd).map Prod.fst).Nodup := by
  unfold upsert
  cases objGet o k with
  | none => exact nodup_keys_objSet _ _ _ h
  | some b => exact nodup_keys_objSet _ _ _ h

theorem objGet_of_mem {β : Type} (o : List (String × β)) (h : (o.map Prod.fst).Nodup)
    (k : String) (v : β) (hm : (k, v) ∈ o) : objGet o k = some v := by
  induction o with
  | nil => simp at hm
  | cons e rest ih =>
    obtain ⟨k1, v1⟩ := e
    simp only [List.map_cons, List.nodup_cons] at h
    simp only [List.mem_cons, Prod.mk.injEq] at hm
    rcases hm with ⟨rfl, rfl⟩ | hm
    · simp [objGet]
    · have hk : k ∈ rest.map Prod.fst := List.mem_map.2 ⟨(k, v), hm, rfl⟩
      have hne : ¬ k1 = k := by
        intro e
        subst e
        exact h.1 hk
      simp only [objGet, hne, if_false]
      exact ih h.2 hm

theorem mem_of_objGet {β : Type} (o : List (String × β)) (k : String) (v : β)
    (h : objGet o k = some v) : (k, v) ∈ o := by
  induction o with
  | nil => simp [objGet] at h
  | cons e rest ih =>
    obtain ⟨k1, v1⟩ := e
    by_cases hk : k1 = k
    · subst hk
      simp only [objGet, if_true, Option.some.injEq] at h
      subst h
      exact List.mem_cons_self _ _
    · simp only [objGet, hk, if_false] at h
      exact List.mem_cons_of_mem _ (ih h)

theorem objectEntries_perm {β : Type} (o : List (String × β)) : (objectEntries o).Perm o := by
  unfold objectEntries
  have h1 := List.perm_insertionSort
    (fun a b : String × β => natOfDigits a.1.data ≤ natOfDigits b.1.data)
    (o.filter (fun e => isArrayIndexKey e.1))
  have h2 := List.filter_append_perm (fun e : String × β => isArrayIndexKey e.1) o
  exact (List.Perm.append_right _ h1).trans h2

theorem sortByKey_perm {α : Type} (key : α → JsNum) (arr : List α) :
    (sortByKey key arr).Perm arr :=
  List.perm_insertionSort _ _

/-! ## The buckets of the main chart -/

theorem nodup_keys_foldl_bucketStep (lib : JsLib) (m : Metric) (p : PrevKPIs)
    (dateOf : Row → Option String) (update : Row → MonthBucket → MonthBucket)
    (rows : List Row) (map : List (String × MonthBucket)) (h : (map.map Prod.fst).Nodup) :
    ((rows.foldl (bucketStep lib m p dateOf update) map).map Prod.fst).Nodup := by
  induction rows generalizing map with
  | nil => exact h
  | cons r rs ih =>
    rw [List.foldl_cons]
    apply ih
    unfold bucketStep
    dsimp only
    split
    · exact h
    · exact nodup_keys_upsert _ _ _ _ h

theorem nodup_keys_chartBuckets (lib : JsLib) (c d n : List Row) (m : Metric) (p : PrevKPIs) :
    ((chartBuckets lib c d n m p).map Prod.fst).Nodup := by
  unfold chartBuckets
  dsimp only
  apply nodup_keys_foldl_bucketStep
  apply nodup_keys_foldl_bucketStep
  apply nodup_keys_foldl_bucketStep
  exact List.nodup_nil

/-- The bucket of a label after a loop: the updates of the records of the
month, in their order, applied to the bucket found before the loop or to a
new bucket dated by the first record of the month. -/
theorem objGet_foldl_bucketStep (lib : JsLib) (m : Metric) (p : PrevKPIs)
    (dateOf : Row → Option String) (update : Row → MonthBucket → MonthBucket)
    (rows : List Row) (map : List (String × MonthBucket)) (k : String) :
    objGet (rows.foldl (bucketStep lib m p dateOf update) map) k =
      match objGet map k with
      | some b => some ((monthSlice lib dateOf k rows).foldl (fun b r => update r b) b)
      | none =>
        match monthSlice lib dateOf k rows with
        | [] => none
        | r :: rs =>
          some ((r :: rs).foldl (fun b r => update r b)
            (newBucket (dayjsOfField lib (dateOf r)).startOfMonth m p)) := by
  induction rows generalizing map with
  | nil =>
    cases h : objGet map k <;> simp [monthSlice, h]
  | cons r rs ih =>
    rw [List.foldl_cons, ih]
    by_cases hv : (dayjsOfField lib (dateOf r)).isValid = true
    · by_cases hl : lib.formatMMMYY (dayjsOfField lib (dateOf r)) = k
      · have hs : monthSlice lib dateOf k (r :: rs) = r :: monthSlice lib dateOf k rs := by
          simp [monthSlice, List.filter, hv, hl]
        have hstep : objGet (bucketStep lib m p dateOf update map r) k
            = some (update r ((objGet map k).getD
                (newBucket (dayjsOfField lib (dateOf r)).startOfMonth m p))) := by
          simp [bucketStep, hv, objGet_upsert, hl]
        rw [hstep, hs]
        cases hg : objGet map k with
        | none => simp
        | some b => simp
      · have hs : monthSlice lib dateOf k (r :: rs) = monthSlice lib dateOf k rs := by
          simp [monthSlice, List.filter, hv, hl]
        have hl2 : ¬ k = lib.formatMMMYY (dayjsOfField lib (dateOf r)) := fun e => hl e.symm
        have hstep : objGet (bucketStep lib m p dateOf update map r) k = objGet map k := by
          simp [bucketStep, hv, objGet_upsert, hl2]
        rw [hstep, hs]
    · have hs : monthSlice lib dateOf k (r :: rs) = monthSlice lib dateOf k rs := by
        simp [monthSlice, List.filter, hv]
      have hstep : bucketStep lib m p dateOf update map r = map := by
        simp [bucketStep, hv]
      rw [hstep, hs]

theorem newBucket_eq_bucketOf (date : Dayjs) (m : Metric) (p : PrevKPIs) :
    newBucket date m p = bucketOf date m p [] [] [] := by
  simp [newBucket, bucketOf]

theorem chargeUpdate_bucketOf (date : Dayjs) (m : Metric) (p : PrevKPIs) (cs ns ds : List Row)
    (r : Row) :
    chargeUpdate r (bucketOf date m p cs ns ds) = bucketOf date m p (cs ++ [r]) ns ds := by
  have ho : r.Is_Clean_Claim.orElse (JsNum.fin 0) = JsNum.fin r.Is_Clean_Claim.toRat :=
    JsNum.orElse_zero _
  by_cases h : 0 ≤ r.Is_Clean_Claim.toRat ∧ r.Is_Clean_Claim.toRat ≤ 100
  · simp [chargeUpdate, bucketOf, JsNum.orElse_zero, List.filter_append, List.filter, h.1, h.2,
      JsNum.isNaN, JsNum.ge, JsNum.le]
  · have h2 : (decide (0 ≤ r.Is_Clean_Claim.toRat) && decide (r.Is_Clean_Claim.toRat ≤ 100))
        = false := by
      simpa using h
    simp [chargeUpdate, bucketOf, JsNum.orElse_zero, List.filter_append, List.filter, h2,
      JsNum.isNaN, JsNum.ge, JsNum.le]

theorem ncrUpdate_bucketOf (date : Dayjs) (m : Metric) (p : PrevKPIs) (cs ns ds : List Row)
    (r : Row) :
    ncrUpdate r (bucketOf date m p cs ns ds) = bucketOf date m p cs (ns ++ [r]) ds := by
  simp [ncrUpdate, bucketOf, JsNum.orElse_zero]

theorem denialUpdate_bucketOf (date : Dayjs) (m : Metric) (p : PrevKPIs) (cs ns ds : List Row)
    (r : Row) :
    denialUpdate r (bucketOf date m p cs ns ds) = bucketOf date m p cs ns (ds ++ [r]) := by
  by_cases h1 : isDeniedStatus r = true <;> by_cases h2 : r.Is_First_Pass_Resolution = true <;>
    simp [denialUpdate, bucketOf, List.countP_append, List.countP_cons, h1, h2]

theorem foldl_chargeUpdate_bucketOf (date : Dayjs) (m : Metric) (p : PrevKPIs)
    (rs cs ns ds : List Row) :
    rs.foldl (fun b r => chargeUpdate r b) (bucketOf date m p cs ns ds)
      = bucketOf date m p (cs ++ rs) ns ds := by
  induction rs generalizing cs with
  | nil => simp
  | cons r rs ih => rw [List.foldl_cons, chargeUpdate_bucketOf, ih]; simp

theorem foldl_ncrUpdate_bucketOf (date : Dayjs) (m : Metric) (p : PrevKPIs)
    (rs cs ns ds : List Row) :
    rs.foldl (fun b r => ncrUpdate r b) (bucketOf date m p cs ns ds)
      = bucketOf date m p cs (ns ++ rs) ds := by
  induction rs generalizing ns with
  | nil => simp
  | cons r rs ih => rw [List.foldl_cons, ncrUpdate_bucketOf, ih]; simp

theorem foldl_denialUpdate_bucketOf (date : Dayjs) (m : Metric) (p : PrevKPIs)
    (rs cs ns ds : List Row) :
    rs.foldl (fun b r => denialUpdate r b) (bucketOf date m p cs ns ds)
      = bucketOf date m p cs ns (ds ++ rs) := by
  induction rs generalizing ds with
  | nil => simp
  | cons r rs ih => rw [List.foldl_cons, denialUpdate_bucketOf, ih]; simp

theorem mem_monthSlice (lib : JsLib) (dateOf : Row → Option String) (k : String)
    (rows : List Row) (r : Row) (h : r ∈ monthSlice lib dateOf k rows) :
    r ∈ rows ∧ (dayjsOfField lib (dateOf r)).isValid = true ∧
      lib.formatMMMYY (dayjsOfField lib (dateOf r)) = k := by
  simpa [monthSlice, List.mem_filter] using h

/-- The bucket of a label in `map` of `mainChartData`, in closed form: the
accumulators are the totals over the three slices of the month, and the
date is the start of the month of the first record of the month. -/
theorem objGet_chartBuckets (lib : JsLib) (c d n : List Row) (m : Metric) (p : PrevKPIs)
    (k : String) :
    (objGet (chartBuckets lib c d n m p) k = none ∧
        monthSlice lib (fun r => r.Charge_Entry_Date) k c = [] ∧
        monthSlice lib (fun r => r.Charge_Entry_Date) k n = [] ∧
        monthSlice lib (fun r => r.Date_of_Service) k d = []) ∨
      ∃ dt : Dayjs, dt ∈ chartDates lib c d n ∧ lib.formatMMMYY dt = k ∧
        objGet (chartBuckets lib c d n m p) k
          = some (bucketOf dt.startOfMonth m p
              (monthSlice lib (fun r => r.Charge_Entry_Date) k c)
              (monthSlice lib (fun r => r.Charge_Entry_Date) k n)
              (monthSlice lib (fun r => r.Date_of_Service) k d)) := by
  unfold chartBuckets
  dsimp only
  rw [objGet_foldl_bucketStep, objGet_foldl_bucketStep, objGet_foldl_bucketStep]
  simp only [objGet]
  cases hc : monthSlice lib (fun r => r.Charge_Entry_Date) k c with
  | cons r rs =>
    right
    have hr := mem_monthSlice lib _ k c r (by rw [hc]; exact List.mem_cons_self _ _)
    refine ⟨dayjsOfField lib r.Charge_Entry_Date, ?_, hr.2.2, ?_⟩
    · simp only [chartDates, List.mem_filter, List.mem_append, List.mem_map]
      exact ⟨Or.inl (Or.inl ⟨r, hr.1, rfl⟩), hr.2.1⟩
    · simp only [newBucket_eq_bucketOf, foldl_chargeUpdate_bucketOf, foldl_ncrUpdate_bucketOf,
        foldl_denialUpdate_bucketOf, List.nil_append]
  | nil =>
    cases hn : monthSlice lib (fun r => r.Charge_Entry_Date) k n with
    | cons r rs =>
      right
      have hr := mem_monthSlice lib _ k n r (by rw [hn]; exact List.mem_cons_self _ _)
      refine ⟨dayjsOfField lib r.Charge_Entry_Date, ?_, hr.2.2, ?_⟩
      · simp only [chartDates, List.mem_filter, List.mem_append, List.mem_map]
        exact ⟨Or.inl (Or.inr ⟨r, hr.1, rfl⟩), hr.2.1⟩
      · simp only [newBucket_eq_bucketOf, foldl_chargeUpdate_bucketOf,
          foldl_ncrUpdate_bucketOf, foldl_denialUpdate_bucketOf, List.nil_append]
    | nil =>
      cases hd : monthSlice lib (fun r => r.Date_of_Service) k d with
      | cons r rs =>
        right
        have hr := mem_monthSlice lib _ k d r (by rw [hd]; exact List.mem_cons_self _ _)
        refine ⟨dayjsOfField lib r.Date_of_Service, ?_, hr.2.2, ?_⟩
        · simp only [chartDates, List.mem_filter, List.mem_append, List.mem_map]
          exact ⟨Or.inr ⟨r, hr.1, rfl⟩, hr.2.1⟩
        · simp only [newBucket_eq_bucketOf, foldl_chargeUpdate_bucketOf,
            foldl_ncrUpdate_bucketOf, foldl_denialUpdate_bucketOf, List.nil_append]
      | nil =>
        left
        simp

theorem bucketValue_bucketOf (date : Dayjs) (m : Metric) (p : PrevKPIs) (cs ns ds : List Row) :
    bucketValue m (bucketOf date m p cs ns ds) = monthKpiValue m p cs ns ds := by
  cases m with
  | NCR =>
    simp only [bucketValue, bucketOf, monthKpiValue, ncr_eq, safeArray]
    by_cases h : 0 < (ns.map (fun r => r.Billed_Amount.toRat)).sum -
        (ns.map (fun r => r.Adjustment_Amount.toRat)).sum
    · simp [h, ne_of_gt h]
    · simp [h]
  | FPR =>
    simp only [bucketValue, bucketOf, monthKpiValue, (denial_rates_eq _ _ _ _).2, safeArray]
    by_cases h : 0 < ds.length
    · have h2 : (ds.length : ℚ) ≠ 0 := by exact_mod_cast (ne_of_gt h)
      simp [h, h2]
    · simp [h]
  | DenialRate =>
    simp only [bucketValue, bucketOf, monthKpiValue, (denial_rates_eq _ _ _ _).1, safeArray]
    by_cases h : 0 < ds.length
    · have h2 : (ds.length : ℚ) ≠ 0 := by exact_mod_cast (ne_of_gt h)
      simp [h, h2]
    · simp [h]
  | GCR =>
    simp only [bucketValue, bucketOf, monthKpiValue, gcr_eq, safeArray,
      foldl_add_orElse (fun r => r.Billed_Amount)]
    by_cases h : 0 < (cs.map (fun r => r.Billed_Amount.toRat)).sum
    · simp [h, ne_of_gt h]
    · simp [h]
  | CCR =>
    simp only [bucketValue, bucketOf, monthKpiValue, cleanClaimRate_eq, safeArray]
    have hany : cs.any (fun r =>
          !(r.Is_Clean_Claim.orElse (JsNum.fin 0)).isNaN &&
            (r.Is_Clean_Claim.orElse (JsNum.fin 0)).ge (JsNum.fin 0) &&
            (r.Is_Clean_Claim.orElse (JsNum.fin 0)).le (JsNum.fin 100))
        = decide (0 < ((cs.map (fun r => r.Is_Clean_Claim.toRat)).filter
            (fun q => decide (0 ≤ q) && decide (q ≤ 100))).length) := by
      induction cs with
      | nil => simp
      | cons r rs ih =>
        rw [List.any_cons, ih]
        by_cases hq : 0 ≤ r.Is_Clean_Claim.toRat ∧ r.Is_Clean_Claim.toRat ≤ 100
        · simp [List.filter, hq.1, hq.2]
        · have h2 : (decide (0 ≤ r.Is_Clean_Claim.toRat) &&
              decide (r.Is_Clean_Claim.toRat ≤ 100)) = false := by
            simpa using hq
          simp [List.filter, h2]
    rw [hany]
    by_cases h : 0 < ((cs.map (fun r => r.Is_Clean_Claim.toRat)).filter
        (fun q => decide (0 ≤ q) && decide (q ≤ 100))).length
    · have h2 : ((((cs.map (fun r => r.Is_Clean_Claim.toRat)).filter
          (fun q => decide (0 ≤ q) && decide (q ≤ 100))).length : ℕ) : ℚ) ≠ 0 := by
        exact_mod_cast (ne_of_gt h)
      simp [h, h2]
    · simp [h]

theorem mem_padSinglePoint {α : Type} (setMonth : α → String → α) (data : List α) (pt : α)
    (h : pt ∈ padSinglePoint setMonth data) :
    ∃ q ∈ data, pt = q ∨ pt = setMonth q "" ∨ pt = setMonth q " " := by
  unfold padSinglePoint at h
  split at h
  · rename_i q
    simp only [List.mem_cons, List.mem_singleton, List.not_mem_nil, or_false] at h
    refine ⟨q, List.mem_singleton_self q, ?_⟩
    rcases h with h | h | h
    · exact Or.inr (Or.inl h)
    · exact Or.inl h
    · exact Or.inr (Or.inr h)
  · exact ⟨pt, h, Or.inl rfl⟩

theorem mem_sortedBuckets (lib : JsLib) (c d n : List Row) (m : Metric) (p : PrevKPIs)
    (e : String × MonthBucket) (h : e ∈ sortedBuckets lib c d n m p) :
    objGet (chartBuckets lib c d n m p) e.1 = some e.2 := by
  unfold sortedBuckets at h
  have h1 := (sortByKey_perm _ _).mem_iff.1 h
  have h2 := (objectEntries_perm _).mem_iff.1 h1
  exact objGet_of_mem _ (nodup_keys_chartBuckets lib c d n m p) e.1 e.2 h2

/-- C18 (amended): every point of `mainChartData` belongs to a month label of
the bucketing (its own label, or the one it pads), and its plotted value is
the value of the selected metric on the slice of that month, as
`calculateKPIs` computes it, with two differences: the GCR is 0 unless the
billed total of the month is greater than 0, and the CCR of a month without a
score in the range 0..100 is the target of the metric, not 0. -/
theorem chart_value_per_metric (lib : JsLib) (filteredCharges filteredDenials filteredNCR : List Row)
    (selectedMetric : Metric) (prevKPIs : PrevKPIs) (pt : ChartPoint)
    (h : pt ∈ mainChartData lib filteredCharges filteredDenials filteredNCR selectedMetric
      prevKPIs) :
    ∃ label : String,
      label ∈ (chartBuckets lib filteredCharges filteredDenials filteredNCR selectedMetric
        prevKPIs).map Prod.fst ∧
      (pt.month = label ∨ pt.month = "" ∨ pt.month = " ") ∧
      pt.avg = monthKpiValue selectedMetric prevKPIs
        (monthSlice lib (fun r => r.Charge_Entry_Date) label filteredCharges)
        (monthSlice lib (fun r => r.Charge_Entry_Date) label filteredNCR)
        (monthSlice lib (fun r => r.Date_of_Service) label filteredDenials) := by
  unfold mainChartData at h
  obtain ⟨q, hq, hpt⟩ := mem_padSinglePoint _ _ pt h
  obtain ⟨e, he, rfl⟩ := List.mem_map.1 hq
  have hget := mem_sortedBuckets lib _ _ _ _ _ e he
  refine ⟨e.1, ?_, ?_, ?_⟩
  · exact List.mem_map.2 ⟨e, mem_of_objGet _ _ _ hget, rfl⟩
  · rcases hpt with h1 | h1 | h1
    · left; rw [h1]
    · right; left; rw [h1]
    · right; right; rw [h1]
  · have havg : pt.avg = bucketValue selectedMetric e.2 := by
      rcases hpt with h1 | h1 | h1 <;> rw [h1]
    rw [havg]
    rcases objGet_chartBuckets lib filteredCharges filteredDenials filteredNCR selectedMetric
      prevKPIs e.1 with hnone | ⟨dt, -, -, hsome⟩
    · rw [hnone.1] at hget
      cases hget
    · rw [hsome] at hget
      rw [← Option.some.inj hget]
      exact bucketValue_bucketOf _ _ _ _ _ _

theorem ccr_fallback_eval :
    chartBuckets calLib
        [{ Charge_Entry_Date := some "2024-01-05", Is_Clean_Claim := JsNum.fin 150 }] [] []
        Metric.CCR entfwPrevKPIs
      = [("Jan 24",
          { paidSum := JsNum.fin 0, billedSum := JsNum.fin 0, adjustmentSum := JsNum.fin 0,
            ccrSum := JsNum.fin 0, ccrCount := JsNum.fin 0, count := JsNum.fin 1,
            date := Dayjs.ms 1704067200000,
            fprTrueCount := JsNum.fin 0, fprDenialCount := JsNum.fin 0,
            deniedCount := JsNum.fin 0, totalDenialRows := JsNum.fin 0,
            ncrPaid := JsNum.fin 0, ncrBilled := JsNum.fin 0, ncrAdj := JsNum.fin 0,
            target := JsNum.fin (912 / 10), baseline := JsNum.fin (950 / 10) })] := by
  obtain ⟨hd, hf, hs⟩ := calLib_jan5
  simp [chartBuckets, bucketStep, upsert, objGet, objSet, dayjsOfField, hd, hs, hf,
    Dayjs.isValid, newBucket, chargeUpdate, Metric.target, Metric.baseline,
    entfwPrevKPIs, JsNum.orElse, JsNum.truthy, JsNum.isNaN, JsNum.ge, JsNum.le]
  norm_num

/-- C18 (counterexample): with the metric CCR and the baseline of `entfw`,
one charge of January 2024 with the score 150, which is out of range, gives
the plotted value 91.2, the target, whereas `calculateKPIs` on the slice of
the month, which is this charge, gives the clean claim rate 0. -/
theorem chart_ccr_falls_back_to_target :
    mainChartData calLib
        [{ Charge_Entry_Date := some "2024-01-05", Is_Clean_Claim := JsNum.fin 150 }] [] []
        Metric.CCR entfwPrevKPIs
      = [{ month := "", avg := JsNum.fin (912 / 10), target := JsNum.fin (912 / 10),
           baseline := JsNum.fin (950 / 10) },
         { month := "Jan 24", avg := JsNum.fin (912 / 10), target := JsNum.fin (912 / 10),
           baseline := JsNum.fin (950 / 10) },
         { month := " ", avg := JsNum.fin (912 / 10), target := JsNum.fin (912 / 10),
           baseline := JsNum.fin (950 / 10) }] ∧
      monthSlice calLib (fun r => r.Charge_Entry_Date) "Jan 24"
        [{ Charge_Entry_Date := some "2024-01-05", Is_Clean_Claim := JsNum.fin 150 }]
        = [{ Charge_Entry_Date := some "2024-01-05", Is_Clean_Claim := JsNum.fin 150 }] ∧
      (calculateKPIs
        (some [{ Charge_Entry_Date := some "2024-01-05", Is_Clean_Claim := JsNum.fin 150 }])
        (some []) none (some [])).cleanClaimRate = JsNum.fin 0 := by
  obtain ⟨hd, hf, hs⟩ := calLib_jan5
  refine ⟨?_, ?_, ?_⟩
  · unfold mainChartData sortedBuckets
    rw [ccr_fallback_eval]
    simp only [objectEntries_singleton, sortByKey_singleton, List.map, padSinglePoint]
    simp [bucketValue, JsNum.orElse, JsNum.truthy]
  · simp [monthSlice, dayjsOfField, hd, hf, Dayjs.isValid]
  · rw [cleanClaimRate_eq]
    simp [safeArray]
    norm_num

theorem denial_point_mem :
    ({ month := "Jan 24", avg := JsNum.fin 100, target := JsNum.fin (3 / 10),
       baseline := JsNum.fin (30 / 100) } : ChartPoint) ∈
      mainChartData calLib []
        [{ Date_of_Service := some "2024-01-05", Claim_Status := some "Denied" }] []
        Metric.DenialRate entfwPrevKPIs := by
  unfold mainChartData sortedBuckets
  rw [single_bucket_main_eval]
  simp only [objectEntries_singleton, sortByKey_singleton, List.map, padSinglePoint]
  simp [bucketValue]

theorem chart_value_per_metric_witness :
    ({ month := "Jan 24", avg := JsNum.fin 100, target := JsNum.fin (3 / 10),
       baseline := JsNum.fin (30 / 100) } : ChartPoint) ∈
      mainChartData calLib []
        [{ Date_of_Service := some "2024-01-05", Claim_Status := some "Denied" }] []
        Metric.DenialRate entfwPrevKPIs ∧
    ∃ label : String,
      label ∈ (chartBuckets calLib []
        [{ Date_of_Service := some "2024-01-05", Claim_Status := some "Denied" }] []
        Metric.DenialRate entfwPrevKPIs).map Prod.fst ∧
      ("Jan 24" = label ∨ "Jan 24" = "" ∨ "Jan 24" = " ") ∧
      JsNum.fin 100 = monthKpiValue Metric.DenialRate entfwPrevKPIs
        (monthSlice calLib (fun r => r.Charge_Entry_Date) label [])
        (monthSlice calLib (fun r => r.Charge_Entry_Date) label [])
        (monthSlice calLib (fun r => r.Date_of_Service) label
          [{ Date_of_Service := some "2024-01-05", Claim_Status := some "Denied" }]) :=
  ⟨denial_point_mem,
    chart_value_per_metric calLib []
      [{ Date_of_Service := some "2024-01-05", Claim_Status := some "Denied" }] []
      Metric.DenialRate entfwPrevKPIs _ denial_point_mem⟩

/-! ## The order of the main chart -/

theorem bucketOf_perm (date : Dayjs) (m : Metric) (p : PrevKPIs)
    (cs ns ds cs2 ns2 ds2 : List Row) (hc : cs.Perm cs2) (hn : ns.Perm ns2) (hd : ds.Perm ds2) :
    bucketOf date m p cs ns ds = bucketOf date m p cs2 ns2 ds2 := by
  unfold bucketOf
  rw [(hc.map (fun r => r.Paid_Amount.toRat)).sum_eq,
    (hc.map (fun r => r.Billed_Amount.toRat)).sum_eq,
    (hc.map (fun r => r.Adjustment_Amount.toRat)).sum_eq,
    (((hc.map (fun r => r.Is_Clean_Claim.toRat)).filter
      (fun q => decide (0 ≤ q) && decide (q ≤ 100))).sum_eq),
    (((hc.map (fun r => r.Is_Clean_Claim.toRat)).filter
      (fun q => decide (0 ≤ q) && decide (q ≤ 100))).length_eq),
    hc.length_eq, hd.length_eq, hd.countP_eq, hd.countP_eq,
    (hn.map (fun r => r.Paid_Amount.toRat)).sum_eq,
    (hn.map (fun r => r.Billed_Amount.toRat)).sum_eq,
    (hn.map (fun r => r.Adjustment_Amount.toRat)).sum_eq]

theorem chartDates_perm (lib : JsLib) (c d n c2 d2 n2 : List Row)
    (hc : c.Perm c2) (hd : d.Perm d2) (hn : n.Perm n2) :
    (chartDates lib c d n).Perm (chartDates lib c2 d2 n2) := by
  unfold chartDates
  exact List.Perm.filter _ (List.Perm.append (List.Perm.append (hc.map _) (hn.map _)) (hd.map _))

theorem slice_ne_nil_of_date (lib : JsLib) (c d n : List Row) (k : String) (dt : Dayjs)
    (h : dt ∈ chartDates lib c d n) (hk : lib.formatMMMYY dt = k) :
    monthSlice lib (fun r => r.Charge_Entry_Date) k c ≠ [] ∨
      monthSlice lib (fun r => r.Charge_Entry_Date) k n ≠ [] ∨
      monthSlice lib (fun r => r.Date_of_Service) k d ≠ [] := by
  simp only [chartDates, List.mem_filter, List.mem_append, List.mem_map] at h
  obtain ⟨hm, hv⟩ := h
  rcases hm with (⟨r, hr, rfl⟩ | ⟨r, hr, rfl⟩) | ⟨r, hr, rfl⟩
  · left
    apply List.ne_nil_of_mem (a := r)
    simp [monthSlice, List.mem_filter, hr, hv, hk]
  · right; left
    apply List.ne_nil_of_mem (a := r)
    simp [monthSlice, List.mem_filter, hr, hv, hk]
  · right; right
    apply List.ne_nil_of_mem (a := r)
    simp [monthSlice, List.mem_filter, hr, hv, hk]

theorem entry_of_chartBuckets (lib : JsLib) (c d n : List Row) (m : Metric) (p : PrevKPIs)
    (e : String × MonthBucket) (h : e ∈ chartBuckets lib c d n m p) :
    ∃ dt : Dayjs, dt ∈ chartDates lib c d n ∧ lib.formatMMMYY dt = e.1 ∧
      e.2 = bucketOf dt.startOfMonth m p
        (monthSlice lib (fun r => r.Charge_Entry_Date) e.1 c)
        (monthSlice lib (fun r => r.Charge_Entry_Date) e.1 n)
        (monthSlice lib (fun r => r.Date_of_Service) e.1 d) := by
  have hget := objGet_of_mem _ (nodup_keys_chartBuckets lib c d n m p) e.1 e.2 h
  rcases objGet_chartBuckets lib c d n m p e.1 with hnone | ⟨dt, hdt, hk, hsome⟩
  · rw [hnone.1] at hget
    cases hget
  · rw [hsome] at hget
    exact ⟨dt, hdt, hk, (Option.some.inj hget).symm⟩

theorem valid_of_mem_chartDates (lib : JsLib) (c d n : List Row) (dt : Dayjs)
    (h : dt ∈ chartDates lib c d n) : ∃ t : Int, dt = Dayjs.ms t := by
  simp only [chartDates, List.mem_filter] at h
  cases dt with
  | invalid => simp [Dayjs.isValid] at h
  | ms t => exact ⟨t, rfl⟩

theorem unix_startOfMonth_fin (t : Int) :
    (Dayjs.ms t).startOfMonth.unix = JsNum.fin ((Dayjs.ms t).startOfMonth.unix.toRat) := by
  simp [Dayjs.startOfMonth, Dayjs.unix]

theorem date_of_entry (lib : JsLib) (c d n : List Row) (m : Metric) (p : PrevKPIs)
    (e : String × MonthBucket) (h : e ∈ chartBuckets lib c d n m p) :
    ∃ t : Int, Dayjs.ms t ∈ chartDates lib c d n ∧ lib.formatMMMYY (Dayjs.ms t) = e.1 ∧
      e.2.date = (Dayjs.ms t).startOfMonth ∧
      e.2.date.unix = JsNum.fin (normEntry e).1 := by
  obtain ⟨dt, hdt, hk, he⟩ := entry_of_chartBuckets lib c d n m p e h
  obtain ⟨t, rfl⟩ := valid_of_mem_chartDates lib c d n dt hdt
  have hdate : e.2.date = (Dayjs.ms t).startOfMonth := by rw [he]; rfl
  refine ⟨t, hdt, hk, hdate, ?_⟩
  simp only [normEntry]
  rw [hdate]
  exact unix_startOfMonth_fin t

theorem sortedBuckets_map_normEntry (lib : JsLib) (c d n : List Row) (m : Metric)
    (p : PrevKPIs) :
    (sortedBuckets lib c d n m p).map normEntry
      = ((objectEntries (chartBuckets lib c d n m p)).map normEntry).insertionSort
          (fun x y => x.1 ≤ y.1) := by
  unfold sortedBuckets sortByKey
  apply List.map_insertionSort
  intro a ha b hb
  have ha2 := (objectEntries_perm _).mem_iff.1 ha
  have hb2 := (objectEntries_perm _).mem_iff.1 hb
  obtain ⟨ta, -, -, -, hua⟩ := date_of_entry lib c d n m p a ha2
  obtain ⟨tb, -, -, -, hub⟩ := date_of_entry lib c d n m p b hb2
  show (a.2.date.unix - b.2.date.unix).gt (JsNum.fin 0) = false ↔ _
  rw [hua, hub]
  simp

theorem labelsFaithful_perm (lib : JsLib) (l1 l2 : List Dayjs) (hp : l1.Perm l2)
    (h : LabelsFaithful lib l1) : LabelsFaithful lib l2 := by
  intro d1 h1 d2 h2
  exact h d1 (hp.mem_iff.2 h1) d2 (hp.mem_iff.2 h2)

theorem normEntry_transfer (lib : JsLib) (c d n c2 d2 n2 : List Row) (m : Metric)
    (p : PrevKPIs) (hc : c.Perm c2) (hd : d.Perm d2) (hn : n.Perm n2)
    (H : LabelsFaithful lib (chartDates lib c d n))
    (x : ℚ × String × MonthBucket)
    (hx : x ∈ (chartBuckets lib c d n m p).map normEntry) :
    x ∈ (chartBuckets lib c2 d2 n2 m p).map normEntry := by
  obtain ⟨e, he, rfl⟩ := List.mem_map.1 hx
  obtain ⟨dt, hdt, hk, hb⟩ := entry_of_chartBuckets lib c d n m p e he
  have hsc : (monthSlice lib (fun r => r.Charge_Entry_Date) e.1 c).Perm
      (monthSlice lib (fun r => r.Charge_Entry_Date) e.1 c2) := hc.filter _
  have hsn : (monthSlice lib (fun r => r.Charge_Entry_Date) e.1 n).Perm
      (monthSlice lib (fun r => r.Charge_Entry_Date) e.1 n2) := hn.filter _
  have hsd : (monthSlice lib (fun r => r.Date_of_Service) e.1 d).Perm
      (monthSlice lib (fun r => r.Date_of_Service) e.1 d2) := hd.filter _
  rcases objGet_chartBuckets lib c2 d2 n2 m p e.1 with hnone | ⟨dt2, hdt2, hk2, hsome⟩
  · exfalso
    obtain ⟨-, h1, h2, h3⟩ := hnone
    rw [h1] at hsc
    rw [h2] at hsn
    rw [h3] at hsd
    rcases slice_ne_nil_of_date lib c d n e.1 dt hdt hk with h | h | h
    · exact h hsc.eq_nil
    · exact h hsn.eq_nil
    · exact h hsd.eq_nil
  · have hdt2c : dt2 ∈ chartDates lib c d n :=
      (chartDates_perm lib c d n c2 d2 n2 hc hd hn).mem_iff.2 hdt2
    have hu : dt.startOfMonth.unix = dt2.startOfMonth.unix :=
      (H dt hdt dt2 hdt2c).1 (hk.trans hk2.symm)
    refine List.mem_map.2 ⟨(e.1, _), mem_of_objGet _ _ _ hsome, ?_⟩
    have hb2 : e.2 = bucketOf dt.startOfMonth m p
        (monthSlice lib (fun r => r.Charge_Entry_Date) e.1 c2)
        (monthSlice lib (fun r => r.Charge_Entry_Date) e.1 n2)
        (monthSlice lib (fun r => r.Date_of_Service) e.1 d2) := by
      rw [hb]
      exact bucketOf_perm _ _ _ _ _ _ _ _ _ hsc hsn hsd
    have hdate : e.2.date = dt.startOfMonth := by rw [hb]; rfl
    simp only [normEntry, hdate]
    rw [hb2]
    simp only [bucketOf, hu]

theorem nodup_map_normEntry (o : List (String × MonthBucket)) (h : (o.map Prod.fst).Nodup) :
    (o.map normEntry).Nodup := by
  have h2 : ((o.map normEntry).map (fun x => x.2.1)).Nodup := by
    rw [List.map_map]
    exact h
  exact List.Nodup.of_map _ h2

theorem normEntries_perm (lib : JsLib) (c d n c2 d2 n2 : List Row) (m : Metric)
    (p : PrevKPIs) (hc : c.Perm c2) (hd : d.Perm d2) (hn : n.Perm n2)
    (H : LabelsFaithful lib (chartDates lib c d n)) :
    ((chartBuckets lib c d n m p).map normEntry).Perm
      ((chartBuckets lib c2 d2 n2 m p).map normEntry) := by
  rw [List.perm_ext_iff_of_nodup (nodup_map_normEntry _ (nodup_keys_chartBuckets _ _ _ _ _ _))
    (nodup_map_normEntry _ (nodup_keys_chartBuckets _ _ _ _ _ _))]
  intro x
  constructor
  · exact normEntry_transfer lib c d n c2 d2 n2 m p hc hd hn H x
  · exact normEntry_transfer lib c2 d2 n2 c d n m p hc.symm hd.symm hn.symm
      (labelsFaithful_perm lib _ _ (chartDates_perm lib c d n c2 d2 n2 hc hd hn) H) x

theorem distinct_seconds (lib : JsLib) (c d n : List Row) (m : Metric) (p : PrevKPIs)
    (H : LabelsFaithful lib (chartDates lib c d n)) :
    ((chartBuckets lib c d n m p).map normEntry).Pairwise (fun x y => x.1 ≠ y.1) := by
  rw [List.pairwise_map]
  have hk : (chartBuckets lib c d n m p).Pairwise (fun a b => a.1 ≠ b.1) := by
    have := nodup_keys_chartBuckets lib c d n m p
    rw [List.Nodup, List.pairwise_map] at this
    exact this
  refine List.Pairwise.imp_of_mem ?_ hk
  intro a b ha hb hne heq
  obtain ⟨ta, hta, hfa, hda, hua⟩ := date_of_entry lib c d n m p a ha
  obtain ⟨tb, htb, hfb, hdb, hub⟩ := date_of_entry lib c d n m p b hb
  apply hne
  rw [← hfa, ← hfb]
  apply (H _ hta _ htb).2
  rw [← hda, ← hdb, hua, hub, heq]

theorem strict_of_sorted_distinct (l : List (ℚ × String × MonthBucket))
    (hd : l.Pairwise (fun x y => x.1 ≠ y.1)) :
    (l.insertionSort (fun x y => x.1 ≤ y.1)).Pairwise (fun x y => x.1 < y.1) := by
  haveI : IsTotal (ℚ × String × MonthBucket) (fun x y => x.1 ≤ y.1) :=
    ⟨fun a b => le_total a.1 b.1⟩
  haveI : IsTrans (ℚ × String × MonthBucket) (fun x y => x.1 ≤ y.1) :=
    ⟨fun a b c h1 h2 => le_trans h1 h2⟩
  have hs : (l.insertionSort (fun x y => x.1 ≤ y.1)).Pairwise (fun x y => x.1 ≤ y.1) :=
    List.sorted_insertionSort (fun x y : ℚ × String × MonthBucket => x.1 ≤ y.1) l
  have hd2 : (l.insertionSort (fun x y => x.1 ≤ y.1)).Pairwise (fun x y => x.1 ≠ y.1) :=
    ((List.perm_insertionSort _ l).pairwise_iff (fun h => Ne.symm h)).2 hd
  exact (hs.and hd2).imp (fun h => lt_of_le_of_ne h.1 h.2)

theorem sort_unique (l1 l2 : List (ℚ × String × MonthBucket)) (hp : l1.Perm l2)
    (hd : l1.Pairwise (fun x y => x.1 ≠ y.1)) :
    l1.insertionSort (fun x y => x.1 ≤ y.1) = l2.insertionSort (fun x y => x.1 ≤ y.1) := by
  have hd2 : l2.Pairwise (fun x y => x.1 ≠ y.1) :=
    (hp.pairwise_iff (fun h => Ne.symm h)).1 hd
  haveI : IsAntisymm (ℚ × String × MonthBucket) (fun x y => x.1 < y.1) :=
    ⟨fun a b h1 h2 => absurd h1 (not_lt_of_gt h2)⟩
  apply List.eq_of_perm_of_sorted (r := fun x y : ℚ × String × MonthBucket => x.1 < y.1)
  · exact ((List.perm_insertionSort _ l1).trans hp).trans (List.perm_insertionSort _ l2).symm
  · exact strict_of_sorted_distinct l1 hd
  · exact strict_of_sorted_distinct l2 hd2

theorem chartPoint_eq_normPoint (m : Metric) :
    (fun e : String × MonthBucket =>
      ({ month := e.1, avg := bucketValue m e.2, target := e.2.target,
         baseline := e.2.baseline } : ChartPoint)) = (fun e => normPoint m (normEntry e)) := by
  funext e
  cases m <;> rfl

/-- C15 (amended): when the labels tell the months of the records apart (two
dates of the records are written with the same label exactly when their
months start at the same second), the series of `mainChartData` is the
padding of the points of the buckets taken in an order in which the dates of
the buckets, each the start of the month of a record with the label of the
bucket, are strictly ascending; and the series is the same for every
permutation of the charges, of the denial rows and of the NCR records (the
sums being exact in the model). -/
theorem main_chart_chronological (lib : JsLib) (filteredCharges filteredDenials filteredNCR : List Row)
    (selectedMetric : Metric) (prevKPIs : PrevKPIs)
    (H : LabelsFaithful lib (chartDates lib filteredCharges filteredDenials filteredNCR)) :
    mainChartData lib filteredCharges filteredDenials filteredNCR selectedMetric prevKPIs
        = padSinglePoint (fun p month => { p with month := month })
            ((sortedBuckets lib filteredCharges filteredDenials filteredNCR selectedMetric
              prevKPIs).map (fun e =>
                ({ month := e.1, avg := bucketValue selectedMetric e.2, target := e.2.target,
                   baseline := e.2.baseline } : ChartPoint))) ∧
      (sortedBuckets lib filteredCharges filteredDenials filteredNCR selectedMetric
        prevKPIs).Pairwise (fun a b => a.2.date.unix.lt b.2.date.unix = true) ∧
      (∀ e ∈ sortedBuckets lib filteredCharges filteredDenials filteredNCR selectedMetric
          prevKPIs,
        ∃ dt ∈ chartDates lib filteredCharges filteredDenials filteredNCR,
          lib.formatMMMYY dt = e.1 ∧ e.2.date = dt.startOfMonth) ∧
      (∀ c2 d2 n2 : List Row, filteredCharges.Perm c2 → filteredDenials.Perm d2 →
        filteredNCR.Perm n2 →
        mainChartData lib c2 d2 n2 selectedMetric prevKPIs
          = mainChartData lib filteredCharges filteredDenials filteredNCR selectedMetric
              prevKPIs) := by
  have hmemS : ∀ e ∈ sortedBuckets lib filteredCharges filteredDenials filteredNCR
      selectedMetric prevKPIs,
      e ∈ chartBuckets lib filteredCharges filteredDenials filteredNCR selectedMetric
        prevKPIs := by
    intro e he
    unfold sortedBuckets at he
    exact (objectEntries_perm _).mem_iff.1 ((sortByKey_perm _ _).mem_iff.1 he)
  have hdist : ∀ (c d n : List Row), LabelsFaithful lib (chartDates lib c d n) →
      ((objectEntries (chartBuckets lib c d n selectedMetric prevKPIs)).map
        normEntry).Pairwise (fun x y => x.1 ≠ y.1) := by
    intro c d n H2
    exact (((objectEntries_perm _).map normEntry).pairwise_iff (fun h => Ne.symm h)).2
      (distinct_seconds lib c d n selectedMetric prevKPIs H2)
  refine ⟨rfl, ?_, ?_, ?_⟩
  · have h1 := strict_of_sorted_distinct _
      (hdist filteredCharges filteredDenials filteredNCR H)
    rw [← sortedBuckets_map_normEntry, List.pairwise_map] at h1
    refine List.Pairwise.imp_of_mem ?_ h1
    intro a b ha hb hlt
    obtain ⟨ta, -, -, -, hua⟩ := date_of_entry lib _ _ _ _ _ a (hmemS a ha)
    obtain ⟨tb, -, -, -, hub⟩ := date_of_entry lib _ _ _ _ _ b (hmemS b hb)
    rw [hua, hub]
    simpa using hlt
  · intro e he
    obtain ⟨t, ht, hf, hd, -⟩ := date_of_entry lib _ _ _ _ _ e (hmemS e he)
    exact ⟨Dayjs.ms t, ht, hf, hd⟩
  · intro c2 d2 n2 hc hd hn
    have hperm : ((objectEntries (chartBuckets lib c2 d2 n2 selectedMetric prevKPIs)).map
        normEntry).Perm
        ((objectEntries (chartBuckets lib filteredCharges filteredDenials filteredNCR
          selectedMetric prevKPIs)).map normEntry) :=
      (((objectEntries_perm _).map normEntry).trans
        (normEntries_perm lib _ _ _ _ _ _ selectedMetric prevKPIs hc hd hn H).symm).trans
        ((objectEntries_perm _).map normEntry).symm
    have H2 := labelsFaithful_perm lib _ _
      (chartDates_perm lib _ _ _ c2 d2 n2 hc hd hn) H
    have hsort := sort_unique _ _ hperm (hdist c2 d2 n2 H2)
    rw [← sortedBuckets_map_normEntry, ← sortedBuckets_map_normEntry] at hsort
    unfold mainChartData
    dsimp only
    rw [chartPoint_eq_normPoint]
    have hmm : ∀ l : List (String × MonthBucket),
        l.map (fun e => normPoint selectedMetric (normEntry e))
          = (l.map normEntry).map (normPoint selectedMetric) := by
      intro l
      rw [List.map_map]
      rfl
    rw [hmm, hmm, hsort]

theorem calLib_century_dates :
    (calLib.dayjs "1924-01-15" = Dayjs.ms (-1450483200000) ∧
      calLib.dayjs "2024-01-15" = Dayjs.ms 1705276800000 ∧
      calLib.dayjs "1999-06-15" = Dayjs.ms 929404800000) ∧
    (calLib.formatMMMYY (Dayjs.ms (-1450483200000)) = "Jan 24" ∧
      calLib.formatMMMYY (Dayjs.ms 1705276800000) = "Jan 24" ∧
      calLib.formatMMMYY (Dayjs.ms 929404800000) = "Jun 99") ∧
    ((Dayjs.ms (-1450483200000)).startOfMonth = Dayjs.ms (-1451692800000) ∧
      (Dayjs.ms 1705276800000).startOfMonth = Dayjs.ms 1704067200000 ∧
      (Dayjs.ms 929404800000).startOfMonth = Dayjs.ms 928195200000) := by
  refine ⟨⟨?_, ?_, ?_⟩, ⟨?_, ?_, ?_⟩, ⟨?_, ?_, ?_⟩⟩ <;> decide

/-- C15 (counterexample): the labels have a two-digit year, so a charge of
January 1924 and a charge of January 2024 share the bucket `Jan 24`, whose
date is the month of the one that comes first in the rows.  With a third
charge of June 1999 the series is `Jan 24`, `Jun 99` when the charge of 1924
comes first and `Jun 99`, `Jan 24` when the charge of 2024 comes first: the
series depends on the order of the rows. -/
theorem century_labels_collide :
    (mainChartData calLib
        [{ Charge_Entry_Date := some "1924-01-15" }, { Charge_Entry_Date := some "2024-01-15" },
         { Charge_Entry_Date := some "1999-06-15" }] [] [] Metric.GCR entfwPrevKPIs).map
        (fun pt => pt.month) = ["Jan 24", "Jun 99"] ∧
    (mainChartData calLib
        [{ Charge_Entry_Date := some "2024-01-15" }, { Charge_Entry_Date := some "1924-01-15" },
         { Charge_Entry_Date := some "1999-06-15" }] [] [] Metric.GCR entfwPrevKPIs).map
        (fun pt => pt.month) = ["Jun 99", "Jan 24"] ∧
    List.Perm
      ([{ Charge_Entry_Date := some "1924-01-15" }, { Charge_Entry_Date := some "2024-01-15" },
        { Charge_Entry_Date := some "1999-06-15" }] : List Row)
      [{ Charge_Entry_Date := some "2024-01-15" }, { Charge_Entry_Date := some "1924-01-15" },
       { Charge_Entry_Date := some "1999-06-15" }] := by
  obtain ⟨⟨d1, d2, d3⟩, ⟨f1, f2, f3⟩, ⟨s1, s2, s3⟩⟩ := calLib_century_dates
  have k1 : isArrayIndexKey "Jan 24" = false := by decide
  have k2 : isArrayIndexKey "Jun 99" = false := by decide
  have n1 : ("Jan 24" = "Jun 99") = False := by decide
  have n2 : ("Jun 99" = "Jan 24") = False := by decide
  refine ⟨?_, ?_, List.Perm.swap _ _ _⟩
  · simp [mainChartData, padSinglePoint, sortedBuckets, chartBuckets, bucketStep, upsert,
      objGet, objSet, dayjsOfField,
      d1, d2, d3, f1, f2, f3, s1, s2, s3, n1, n2, Dayjs.isValid, newBucket, chargeUpdate,
      objectEntries, k1, k2, sortByKey, List.insertionSort, List.orderedInsert, Dayjs.unix,
      JsNum.orElse, JsNum.truthy]
    norm_num
  · simp [mainChartData, padSinglePoint, sortedBuckets, chartBuckets, bucketStep, upsert,
      objGet, objSet, dayjsOfField,
      d1, d2, d3, f1, f2, f3, s1, s2, s3, n1, n2, Dayjs.isValid, newBucket, chargeUpdate,
      objectEntries, k1, k2, sortByKey, List.insertionSort, List.orderedInsert, Dayjs.unix,
      JsNum.orElse, JsNum.truthy]
    norm_num

theorem calLib_reverse_dates :
    (calLib.dayjs "2024-03-10" = Dayjs.ms 1710028800000 ∧
      calLib.dayjs "2024-01-05" = Dayjs.ms 1704412800000) ∧
    (calLib.formatMMMYY (Dayjs.ms 1710028800000) = "Mar 24" ∧
      calLib.formatMMMYY (Dayjs.ms 1704412800000) = "Jan 24") ∧
    ((Dayjs.ms 1710028800000).startOfMonth = Dayjs.ms 1709251200000 ∧
      (Dayjs.ms 1704412800000).startOfMonth = Dayjs.ms 1704067200000) := by
  refine ⟨⟨?_, ?_⟩, ⟨?_, ?_⟩, ⟨?_, ?_⟩⟩ <;> decide

theorem reverse_months_faithful :
    LabelsFaithful calLib
      (chartDates calLib
        [{ Charge_Entry_Date := some "2024-03-10" }, { Charge_Entry_Date := some "2024-01-05" }]
        [] []) := by
  obtain ⟨⟨d1, d2⟩, ⟨f1, f2⟩, ⟨s1, s2⟩⟩ := calLib_reverse_dates
  have hdates : chartDates calLib
      [{ Charge_Entry_Date := some "2024-03-10" }, { Charge_Entry_Date := some "2024-01-05" }]
      [] [] = [Dayjs.ms 1710028800000, Dayjs.ms 1704412800000] := by
    simp [chartDates, dayjsOfField, d1, d2, Dayjs.isValid]
  have n1 : ¬ ("Mar 24" = "Jan 24") := by decide
  have n2 : ¬ ("Jan 24" = "Mar 24") := by decide
  rw [hdates]
  intro x hx y hy
  simp only [List.mem_cons, List.mem_singleton, List.not_mem_nil, or_false] at hx hy
  rcases hx with rfl | rfl <;> rcases hy with rfl | rfl
  · simp
  · simp [f1, f2, s1, s2, n1, Dayjs.unix]
  · simp [f1, f2, s1, s2, n2, Dayjs.unix]
  · simp

theorem main_chart_chronological_witness :
    LabelsFaithful calLib
      (chartDates calLib
        [{ Charge_Entry_Date := some "2024-03-10" }, { Charge_Entry_Date := some "2024-01-05" }]
        [] []) ∧
    (sortedBuckets calLib
        [{ Charge_Entry_Date := some "2024-03-10" }, { Charge_Entry_Date := some "2024-01-05" }]
        [] [] Metric.GCR entfwPrevKPIs).Pairwise
      (fun a b => a.2.date.unix.lt b.2.date.unix = true) ∧
    (∀ c2 d2 n2 : List Row,
      List.Perm
        ([{ Charge_Entry_Date := some "2024-03-10" },
          { Charge_Entry_Date := some "2024-01-05" }] : List Row) c2 →
      List.Perm ([] : List Row) d2 → List.Perm ([] : List Row) n2 →
      mainChartData calLib c2 d2 n2 Metric.GCR entfwPrevKPIs
        = mainChartData calLib
            [{ Charge_Entry_Date := some "2024-03-10" },
             { Charge_Entry_Date := some "2024-01-05" }] [] [] Metric.GCR entfwPrevKPIs) ∧
    (mainChartData calLib
        [{ Charge_Entry_Date := some "2024-03-10" }, { Charge_Entry_Date := some "2024-01-05" }]
        [] [] Metric.GCR entfwPrevKPIs).map (fun pt => pt.month) = ["Jan 24", "Mar 24"] := by
  have h := main_chart_chronological calLib
    [{ Charge_Entry_Date := some "2024-03-10" }, { Charge_Entry_Date := some "2024-01-05" }]
    [] [] Metric.GCR entfwPrevKPIs reverse_months_faithful
  refine ⟨reverse_months_faithful, h.2.1, h.2.2.2, ?_⟩
  obtain ⟨⟨d1, d2⟩, ⟨f1, f2⟩, ⟨s1, s2⟩⟩ := calLib_reverse_dates
  have k1 : isArrayIndexKey "Jan 24" = false := by decide
  have k2 : isArrayIndexKey "Mar 24" = false := by decide
  have n1 : ("Mar 24" = "Jan 24") = False := by decide
  have n2 : ("Jan 24" = "Mar 24") = False := by decide
  simp [mainChartData, padSinglePoint, sortedBuckets, chartBuckets, bucketStep, upsert,
    objGet, objSet, dayjsOfField,
    d1, d2, f1, f2, s1, s2, n1, n2, Dayjs.isValid, newBucket, chargeUpdate,
    objectEntries, k1, k2, sortByKey, List.insertionSort, List.orderedInsert, Dayjs.unix,
    JsNum.orElse, JsNum.truthy]
  norm_num

end Rrr
